import Mathlib

/-!
# Blizky/Labs image studio: masking and compositing core

A shallow embedding of the mask history of `src/modules/cutout.js` and of the
layer model of `src/modules/layers.js`, followed by theorems about them.

Conventions of the embedding.

* JavaScript numbers are modelled by an ordered field (exact arithmetic, no
  rounding error); integer quantities that the code only counts are `Nat`.
* A canvas and an `ImageData` object are both an `ImageData` value: a width, a
  height and the RGBA bytes in row-major order.
* DOM effects (status line, list refresh, repaint of the visible canvas) do not
  feed back into the modelled state and are left out.
-/

namespace Labs

/-! ## Raster surfaces -/

/-- An RGBA8 raster: `data` holds the bytes `r, g, b, a` of each pixel in
row-major order. Used both for canvases and for `ImageData` snapshots. -/
structure ImageData where
  width : Nat
  height : Nat
  data : List Nat
deriving DecidableEq, Repr

/-- The call `ctx.getImageData(0, 0, canvas.width, canvas.height)`: a copy of
the whole surface. The Canvas API throws `IndexSizeError` when the requested
width or height is zero; that is the `none` result. -/
def getImageData (surface : ImageData) : Option ImageData :=
  if surface.width = 0 ∨ surface.height = 0 then none else some surface

/-- The call `ctx.putImageData(img, 0, 0)` for a snapshot `img` taken from the
same canvas: every pixel of the surface is overwritten, its size is kept.
(The mask canvas is only resized by `initMaskFromImage`, which also empties the
history, so every snapshot in the history has the size of the mask canvas.) -/
def putImageData (surface img : ImageData) : ImageData :=
  { surface with data := img.data }

/-- The surface after `clearRect(0, 0, w, h)`, `fillStyle = "#fff"`,
`fillRect(0, 0, w, h)` on a canvas resized to `w × h`: opaque white. -/
def fillWhite (w h : Nat) : ImageData :=
  { width := w, height := h, data := List.replicate (4 * w * h) 255 }

/-! ## Numbers -/

section Numbers

variable {α : Type} [LinearOrderedField α]

/-- Source `clamp` (layers.js 14-16, cutout.js 70-72):
`Math.max(min, Math.min(max, value))`. -/
def clamp (value lo hi : α) : α :=
  max lo (min hi value)

/-- The idiom `value || fallback` on a number: the fallback replaces `0` (and
`NaN`, which the model does not have). -/
def jsOr (value fallback : α) : α :=
  if value = 0 then fallback else value

/-- The function `Math.round`: the nearest integer, halves rounded up. -/
def mathRound [FloorRing α] (value : α) : ℤ :=
  ⌊value + 1 / 2⌋

/-- Source `clamp01` (layers.js 84-86, cutout.js 297-299):
`Math.max(0, Math.min(1, value))`. -/
def clamp01 (value : α) : α :=
  max 0 (min 1 value)

/-- The remainder operator `value % modulus` on numbers: the quotient is
truncated towards zero, so the result has the sign of `value`. -/
def jsRem [FloorRing α] (value modulus : α) : α :=
  value - modulus * ((if 0 ≤ value / modulus then ⌊value / modulus⌋ else ⌈value / modulus⌉ : ℤ) : α)

end Numbers

/-- A store of an integer into a `Uint8ClampedArray` (the `data` of an
`ImageData`): values outside `0 .. 255` are clamped. -/
def storeByte (value : ℤ) : Nat :=
  (max 0 (min 255 value)).toNat

/-- The call `ctx.createImageData(w, h)`: a transparent black buffer. The
Canvas API throws `IndexSizeError` when a dimension is zero (`none`). -/
def createImageData (w h : Nat) : Option ImageData :=
  if w = 0 ∨ h = 0 then none
  else some { width := w, height := h, data := List.replicate (4 * w * h) 0 }

/-! ## Cutout tool: mask history (`src/modules/cutout.js`) -/

namespace Cutout

/-- The object `history = { stack: [], redos: [], limit: 30 }`. Both arrays
grow at the end (`push`) and `stack` is evicted at the front (`shift`). -/
structure History where
  stack : List ImageData
  redos : List ImageData
deriving DecidableEq, Repr

/-- The field `history.limit`, which is never assigned after creation. -/
def History.limit (_h : History) : Nat := 30

/-- The mutable variables of `createCutoutTool` that the mask history reads or
writes. -/
structure State where
  hasImage : Bool
  canvasWidth : Nat
  canvasHeight : Nat
  maskCanvas : ImageData
  aiMaskAlpha : Option (List Nat)
  history : History
deriving DecidableEq, Repr

/-- The state when `createCutoutTool` returns: no subject, empty history. The
mask canvas is a fresh `<canvas>` element (300 × 150, transparent). -/
def State.initial : State :=
  { hasImage := false
    canvasWidth := 300
    canvasHeight := 150
    maskCanvas := { width := 300, height := 150, data := List.replicate (4 * 300 * 150) 0 }
    aiMaskAlpha := none
    history := { stack := [], redos := [] } }

/-- Source `pushHistory` (cutout.js 130-141). -/
def pushHistory (s : State) : State :=
  if !s.hasImage then s
  else
    match getImageData s.maskCanvas with
    | none => s -- catch (e) { console.error(e); }
    | some snap =>
      let pushed := s.history.stack ++ [snap]
      let stack := if pushed.length > s.history.limit then pushed.tail else pushed
      { s with history := { stack := stack, redos := [] } }

/-- Source `undo` (cutout.js 143-153). The read of the live mask precedes every
mutation, so an exception there leaves the state as it was. -/
def undo (s : State) : State :=
  if s.history.stack.length ≤ 1 then s
  else
    match getImageData s.maskCanvas with
    | none => s
    | some current =>
      match s.history.stack[s.history.stack.length - 2]? with
      | none => s
      | some prev =>
        { s with
          history := { stack := s.history.stack.dropLast, redos := s.history.redos ++ [current] }
          maskCanvas := putImageData s.maskCanvas prev }

/-- Source `redo` (cutout.js 155-163). -/
def redo (s : State) : State :=
  match s.history.redos.getLast? with
  | none => s
  | some redoImg =>
    { s with
      history := { stack := s.history.stack ++ [redoImg], redos := s.history.redos.dropLast }
      maskCanvas := putImageData s.maskCanvas redoImg }

/-- Source `initMaskFromImage` (cutout.js 199-211). -/
def initMaskFromImage (s : State) : State :=
  let w := s.canvasWidth
  let h := s.canvasHeight
  pushHistory
    { s with
      maskCanvas := fillWhite w h
      aiMaskAlpha := none
      history := { stack := [], redos := [] } }

/-- The effect of one brush stroke (`startPaint`, any number of `movePaint`,
cutout.js 540-584) on the modelled state: `drawStamp` and `drawStroke` repaint
pixels of the mask canvas and touch nothing else. The rasterisation of the
round brush is the platform's; `pixels` is the mask content it leaves. -/
def paintStroke (pixels : List Nat) (s : State) : State :=
  { s with maskCanvas := { s.maskCanvas with data := pixels } }

/-- A sequence of strokes, each committed by `endPaint` with one `pushHistory`
(cutout.js 586-598). -/
def commitStrokes : List (List Nat) → State → State
  | [], s => s
  | pixels :: rest, s => commitStrokes rest (pushHistory (paintStroke pixels s))

/-! ### Concrete cutout states -/

/-- A loaded 1 × 1 subject whose history is full: 30 snapshots with alpha
`0 .. 29`, and a live mask with alpha 30 that has not been committed yet. -/
def fullHistoryState : State :=
  { hasImage := true
    canvasWidth := 1
    canvasHeight := 1
    maskCanvas := { width := 1, height := 1, data := [255, 255, 255, 30] }
    aiMaskAlpha := none
    history :=
      { stack := (List.range 30).map fun n => { width := 1, height := 1, data := [255, 255, 255, n] }
        redos := [] } }

/-- A 1 × 1 subject directly after `setImage`: `hasImage` is set, the canvas is
sized, and `initMaskFromImage` has run. -/
def loadedPixel : State :=
  initMaskFromImage
    { hasImage := true
      canvasWidth := 1
      canvasHeight := 1
      maskCanvas := { width := 0, height := 0, data := [] }
      aiMaskAlpha := none
      history := { stack := [], redos := [] } }

/-- The state after loading a 1 × 1 subject, erasing its pixel with one
committed stroke, and one `undo()`: the stack holds the clean snapshot only and
the redo sequence holds the erased mask. -/
def erasedThenUndone : State :=
  undo (pushHistory (paintStroke [255, 255, 255, 0] loadedPixel))

/-! ### Mask sources: matte remap and fixed-hue colour key -/

section MaskSources

variable {α : Type} [LinearOrderedField α] [FloorRing α]

/-- The constant `strongBias` of `rebuildMaskFromAiAlpha` (cutout.js 220). -/
def strongBias (aiStrength : α) : α :=
  clamp ((aiStrength - 50) / 50) 0 1

/-- The constant `weakBias` of `rebuildMaskFromAiAlpha` (cutout.js 221). -/
def weakBias (aiStrength : α) : α :=
  clamp ((50 - aiStrength) / 50) 0 1

/-- The constant `lowCut` of `rebuildMaskFromAiAlpha` (cutout.js 222). -/
def lowCut (aiStrength : α) : α :=
  clamp (4 / 100 + strongBias aiStrength * (2 / 10) - weakBias aiStrength * (2 / 100))
    (1 / 100) (32 / 100)

/-- The constant `highCut` of `rebuildMaskFromAiAlpha` (cutout.js 223). -/
def highCut (aiStrength : α) : α :=
  clamp (82 / 100 - strongBias aiStrength * (16 / 100) + weakBias aiStrength * (8 / 100))
    (62 / 100) (98 / 100)

/-- The constant `curve` of `rebuildMaskFromAiAlpha` (cutout.js 224). -/
def curve (aiStrength : α) : α :=
  max (55 / 100) (1 + strongBias aiStrength * (14 / 10) - weakBias aiStrength * (35 / 100))

/-- The body of the pixel loop of `rebuildMaskFromAiAlpha` (cutout.js 226-239):
the value of `alpha` for the matte sample `sample = aiMaskAlpha[p]` under the
strength `aiStrength`. `pow` stands for `Math.pow`. -/
def aiAlpha (pow : α → α → α) (aiStrength : α) (sample : Nat) : ℤ :=
  let n : α := (sample : α) / 255
  let alpha0 : ℤ :=
    if n ≤ lowCut aiStrength then 0
    else if n ≥ highCut aiStrength then 255
    else
      let t := (n - lowCut aiStrength) / max (1 / 1000000) (highCut aiStrength - lowCut aiStrength)
      mathRound (pow t (curve aiStrength) * 255)
  let alpha1 : ℤ :=
    if strongBias aiStrength > 0 ∧ (alpha0 : α) < 18 + strongBias aiStrength * 24 then 0
    else alpha0
  if alpha1 > 246 then 255 else alpha1

/-- The bytes written by the pixel loop of `rebuildMaskFromAiAlpha`
(cutout.js 226-245): white with the remapped alpha, one pixel per matte
sample. -/
def aiMaskPixels (pow : α → α → α) (aiStrength : α) (matte : List Nat) : List Nat :=
  matte.flatMap fun sample => [255, 255, 255, storeByte (aiAlpha pow aiStrength sample)]

/-- Source `rebuildMaskFromAiAlpha` (cutout.js 213-256); the result pairs the
returned boolean with the new state, and is `none` when `createImageData`
throws. The variable `aiStrength`, assigned by the slider handlers
(cutout.js 619-635) right before each call, is a parameter. -/
def rebuildMaskFromAiAlpha (pow : α → α → α) (aiStrength : α) (resetHistory : Bool)
    (s : State) : Option (Bool × State) :=
  match s.aiMaskAlpha with
  | none => some (false, s)
  | some matte =>
    if matte.length ≠ s.canvasWidth * s.canvasHeight then some (false, s)
    else
      match createImageData s.canvasWidth s.canvasHeight with
      | none => none
      | some maskData =>
        let s1 :=
          { s with
            maskCanvas :=
              putImageData s.maskCanvas { maskData with data := aiMaskPixels pow aiStrength matte } }
        if resetHistory then
          some (true, pushHistory { s1 with history := { stack := [], redos := [] } })
        else some (true, s1)

/-- Source `chromaStrength` (cutout.js 301-331; the same function is defined
again at layers.js 88-118). -/
def chromaStrength (r g b : Nat) : α :=
  let rn : α := (r : α) / 255
  let gn : α := (g : α) / 255
  let bn : α := (b : α) / 255
  let mx := max rn (max gn bn)
  let mn := min rn (min gn bn)
  let delta := mx - mn
  let sat := if mx ≤ 0 then 0 else delta / mx
  let greenBias := clamp01 (((g : α) - max (r : α) (b : α) - 6) / 96)
  let hue : α :=
    if delta > 1 / 1000000 then
      let h :=
        if mx = rn then jsRem ((gn - bn) / delta) 6
        else if mx = gn then (bn - rn) / delta + 2
        else (rn - gn) / delta + 4
      if h * 60 < 0 then h * 60 + 360 else h * 60
    else 0
  let hueDist := |hue - 120|
  let circularDist := min hueDist (360 - hueDist)
  let hueFactor := clamp01 (1 - circularDist / 70)
  let satFactor := clamp01 ((sat - 8 / 100) / (55 / 100))
  let brightFactor := clamp01 ((mx - 8 / 100) / (9 / 10))
  let soft := greenBias * (35 / 100 + satFactor * (4 / 10) + hueFactor * (25 / 100)) * brightFactor
  let hard := greenBias * hueFactor
  clamp01 (max soft hard)

/-- The value of `alpha` in the pixel loop of `initMaskFromChromaKey`
(cutout.js 337-340) for the key strength `keyStrength`. -/
def chromaAlpha (pow : α → α → α) (keyStrength : α) : ℤ :=
  let alpha0 := mathRound (255 * (1 - pow keyStrength (72 / 100)))
  let alpha1 := if keyStrength ≥ 1 / 2 then min alpha0 28 else alpha0
  if keyStrength ≥ 65 / 100 then 0 else alpha1

/-- The pixel loop of `initMaskFromChromaKey` (cutout.js 333-346) over the RGBA
bytes `src` of the original canvas. -/
def chromaMaskPixels (pow : α → α → α) : List Nat → List Nat
  | r :: g :: b :: _ :: rest =>
    255 :: 255 :: 255 :: storeByte (chromaAlpha pow (chromaStrength r g b : α))
      :: chromaMaskPixels pow rest
  | _ => []

/-- Source `initMaskFromChromaKey` (cutout.js 290-353). `src` is the content
of the original canvas, `originalCtx.getImageData(0, 0, w, h).data`; the result
is `none` when the canvas is empty and the reads throw. -/
def initMaskFromChromaKey (pow : α → α → α) (src : List Nat) (s : State) : Option State :=
  match createImageData s.canvasWidth s.canvasHeight with
  | none => none
  | some maskData =>
    some (pushHistory
      { s with
        aiMaskAlpha := none
        maskCanvas := putImageData s.maskCanvas { maskData with data := chromaMaskPixels pow src }
        history := { stack := [], redos := [] } })

/-! ### The curves in the specification's words -/

end MaskSources

/-! ### Loading a subject -/

/-- Source `fitImageDimensions` (cutout.js 168-175). The callers pass no
limits, so `maxWidth = 1400` and `maxHeight = 900`. -/
def fitImageDimensions {α : Type} [LinearOrderedField α] [FloorRing α]
    (imgWidth imgHeight maxWidth maxHeight : α) : ℤ × ℤ :=
  let ratio := min (min (maxWidth / imgWidth) (maxHeight / imgHeight)) 1
  (mathRound (imgWidth * ratio), mathRound (imgHeight * ratio))

/-- Source `setImage` (cutout.js 676-702) for an image element of size
`imgWidth × imgHeight`, on the variables of `State`: the canvas is resized to
the fitted dimensions, `hasImage` is set and `initMaskFromImage` runs. The
numbers are rationals. -/
def setImage (imgWidth imgHeight : Nat) (s : State) : State :=
  if imgWidth = 0 ∨ imgHeight = 0 then s
  else
    let dims := fitImageDimensions (imgWidth : ℚ) (imgHeight : ℚ) 1400 900
    initMaskFromImage
      { s with
        canvasWidth := dims.1.toNat
        canvasHeight := dims.2.toNat
        hasImage := true }

/-- Source `resetMask` (cutout.js 725-730). -/
def resetMask (s : State) : State :=
  if !s.hasImage then s else initMaskFromImage s

/-- The array `aiMaskAlpha` filled by the loop of `initMaskFromResultBlob`
(cutout.js 275-278): `w * h` samples, sample `p` being byte `4 * p + 3` of the
decoded matte `src`. -/
def matteAlpha (w h : Nat) (src : List Nat) : List Nat :=
  (List.range (w * h)).map fun p => src.getD (4 * p + 3) 0

/-- Source `initMaskFromResultBlob` (cutout.js 258-288) when the result image
loads: `src` holds the RGBA bytes of the result drawn at canvas size. The
result is `none` when the canvas is empty and `getImageData` throws inside the
`onload` handler, so that the promise is never settled. -/
def initMaskFromResultBlob {α : Type} [LinearOrderedField α] [FloorRing α]
    (pow : α → α → α) (aiStrength : α) (src : List Nat) (s : State) : Option State :=
  if s.canvasWidth = 0 ∨ s.canvasHeight = 0 then none
  else
    match rebuildMaskFromAiAlpha pow aiStrength true
        { s with aiMaskAlpha := some (matteAlpha s.canvasWidth s.canvasHeight src) } with
    | none => none
    | some result => some result.2

/-! ### Operations on a loaded subject -/

/-- The operations that change the mask history of a loaded subject. -/
inductive HistoryOp (α : Type) where
  | pushHistory
  | undo
  | redo
  | resetMask
  | rebuildMaskFromAiAlpha (aiStrength : α) (resetHistory : Bool)
  | initMaskFromChromaKey (src : List Nat)

/-- One operation applied to the state. An exception thrown by
`createImageData` precedes every mutation of the operation and leaves the state
as it was. -/
def applyOp {α : Type} [LinearOrderedField α] [FloorRing α] (pow : α → α → α) :
    HistoryOp α → State → State
  | .pushHistory, s => pushHistory s
  | .undo, s => undo s
  | .redo, s => redo s
  | .resetMask, s => resetMask s
  | .rebuildMaskFromAiAlpha aiStrength resetHistory, s =>
    match rebuildMaskFromAiAlpha pow aiStrength resetHistory s with
    | none => s
    | some result => result.2
  | .initMaskFromChromaKey src, s =>
    match initMaskFromChromaKey pow src s with
    | none => s
    | some result => result

/-- A sequence of operations, applied in order. -/
def applyOps {α : Type} [LinearOrderedField α] [FloorRing α] (pow : α → α → α) :
    List (HistoryOp α) → State → State
  | [], s => s
  | op :: rest, s => applyOps pow rest (applyOp pow op s)

/-! ### Pointer handlers and background removal -/

/-- The variables of `createCutoutTool` read by the pointer handlers and by
`removeBg`, around the mask state. `historyPushes` is instrumentation: it counts
the calls of `pushHistory` made by these handlers. -/
structure Tool where
  mask : State
  working : Bool
  viewMode : String
  painting : Bool
  moving : Bool
  historyPushes : Nat
deriving DecidableEq, Repr

/-- The tool when `createCutoutTool` returns. -/
def Tool.initial : Tool :=
  { mask := State.initial
    working := false
    viewMode := "brush"
    painting := false
    moving := false
    historyPushes := 0 }

/-- Source `startPaint` (cutout.js 540-563); `stamp` is the content of the mask
canvas after `drawStamp`. -/
def startPaint (stamp : List Nat) (t : Tool) : Tool :=
  if t.viewMode = "move" then { t with moving := true }
  else if !t.mask.hasImage || t.working then t
  else { t with painting := true, mask := paintStroke stamp t.mask }

/-- Source `movePaint` (cutout.js 565-584); `stroke` is the content of the mask
canvas after `drawStroke`. In move mode the handler only scrolls the view. -/
def movePaint (stroke : List Nat) (t : Tool) : Tool :=
  if t.viewMode = "move" then t
  else if !t.mask.hasImage then t
  else if !t.painting then t
  else { t with mask := paintStroke stroke t.mask }

/-- Source `endPaint` (cutout.js 586-598). -/
def endPaint (t : Tool) : Tool :=
  if t.viewMode = "move" then
    if !t.moving then t else { t with moving := false }
  else if !t.painting then t
  else
    { t with
      painting := false
      mask := pushHistory t.mask
      historyPushes := t.historyPushes + 1 }

/-- The pointer events wired to the canvas (cutout.js 637-644). -/
inductive PointerEvent where
  | pointerdown (stamp : List Nat)
  | pointermove (stroke : List Nat)
  | pointerup
  | pointercancel
  | pointerleave
deriving DecidableEq, Repr

/-- The events that end a stroke: all three are wired to `endPaint`. -/
def PointerEvent.endsStroke : PointerEvent → Bool
  | .pointerup => true
  | .pointercancel => true
  | .pointerleave => true
  | _ => false

/-- The listener of each pointer event (cutout.js 637-644). -/
def dispatch : PointerEvent → Tool → Tool
  | .pointerdown stamp, t => startPaint stamp t
  | .pointermove stroke, t => movePaint stroke t
  | .pointerup, t => endPaint t
  | .pointercancel, t => endPaint t
  | .pointerleave, t => endPaint t

/-- A sequence of pointer events, handled in order. -/
def dispatchAll : List PointerEvent → Tool → Tool
  | [], t => t
  | event :: rest, t => dispatchAll rest (dispatch event t)

/-- How the awaited calls of `removeBg` end: `removeBackground` (or
`canvasToBlob`) rejects, the result blob fails to decode (`image.onerror`), or
the result decodes to the RGBA bytes `src` at canvas size. -/
inductive SegmentationOutcome where
  | segmentationFailed
  | decodeFailed
  | decoded (src : List Nat)
deriving DecidableEq, Repr

/-- Source `removeBg` (cutout.js 732-754), run to completion with the given
outcome of its awaited calls. When `initMaskFromResultBlob` never settles the
tool stays busy. -/
def removeBg {α : Type} [LinearOrderedField α] [FloorRing α] (pow : α → α → α) (aiStrength : α)
    (outcome : SegmentationOutcome) (t : Tool) : Tool :=
  if !t.mask.hasImage || t.working then t
  else
    match outcome with
    | .segmentationFailed => { t with working := false }
    | .decodeFailed => { t with working := false }
    | .decoded src =>
      match initMaskFromResultBlob pow aiStrength src t.mask with
      | none => { t with working := true }
      | some mask => { t with mask := mask, working := false, historyPushes := t.historyPushes + 1 }

/-! ### Concrete states for the later theorems -/

/-- A loaded 1 × 1 subject with one committed erasing stroke and a second
stroke in progress (painted on the mask, not yet committed). -/
def strokeInProgress : State :=
  paintStroke [255, 255, 255, 128] (pushHistory (paintStroke [255, 255, 255, 0] loadedPixel))

/-- A tool with a loaded 1 × 1 subject, idle in brush mode. -/
def loadedTool : Tool :=
  { Tool.initial with mask := loadedPixel }

end Cutout

/-! ## Layer compositor (`src/modules/layers.js`) -/

namespace Layers

/-- Source `DOC_PRESETS` (layers.js 7-12): canvas size `(w, h)` per ratio key. -/
def DOC_PRESETS (ratio : String) : Option (Nat × Nat) :=
  if ratio = "square" then some (1080, 1080)
  else if ratio = "landscape43" then some (1440, 1080)
  else if ratio = "landscape169" then some (1920, 1080)
  else if ratio = "portrait34" then some (1080, 1440)
  else none

/-- The keys of `DOC_PRESETS`. -/
def presetNames : List String :=
  ["square", "landscape43", "landscape169", "portrait34"]

def WB_LIMIT : Nat := 25
def TINT_LIMIT : Nat := 25
def BRIGHT_LIMIT : Nat := 30
def SAT_LIMIT : Nat := 30
def CONTRAST_LIMIT : Nat := 30
def MAX_LAYERS : Nat := 6

/-- The layer objects built by `addLayerFromImage` (layers.js 1315-1339). -/
structure Layer (α : Type) where
  id : String
  name : String
  image : ImageData
  originalImage : ImageData
  thumbDataUrl : String
  processedCanvas : Option ImageData
  wbTemp : α
  wbTint : α
  wbBright : α
  wbSat : α
  wbContrast : α
  rotationDeg : α
  processing : Bool
  tuningOpen : Bool
  visible : Bool
  shadowEnabled : Bool
  x : α
  y : α
  scale : α
  baseScale : α
  flipX : Bool
  flipY : Bool
  lowResolution : Bool
deriving DecidableEq, Repr

/-- The variables of `createLayersTool` (layers.js 134-152): `state`, the size
of the composition canvas, `layerSeed`, `soloLayerId`, `soloPrevVisibility`. -/
structure State (α : Type) where
  ratio : String
  layers : List (Layer α)
  activeLayerId : Option String
  canvasWidth : Nat
  canvasHeight : Nat
  layerSeed : Nat
  soloLayerId : Option String
  soloPrevVisibility : Option (List (String × Bool))
deriving DecidableEq, Repr

/-- Truthiness of an id variable: `null` and the empty string are falsy. -/
def truthyId : Option String → Bool
  | none => false
  | some id => id != ""

section Structure

variable {α : Type}

/-- Source `getLayerRenderSource` (layers.js 45-47): `processedCanvas || image`. -/
def getLayerRenderSource (layer : Layer α) : ImageData :=
  match layer.processedCanvas with
  | some processed => processed
  | none => layer.image

/-- Source `clearSolo` (layers.js 154-166). The `Map` built from the saved
entries keeps, for an id that occurs twice, the later entry. -/
def clearSolo (restore : Bool) (s : State α) : State α :=
  if !truthyId s.soloLayerId then s
  else
    let layers :=
      match restore, s.soloPrevVisibility with
      | true, some prev =>
        s.layers.map fun layer =>
          match prev.reverse.lookup layer.id with
          | some visible => { layer with visible := visible }
          | none => layer
      | _, _ => s.layers
    { s with layers := layers, soloLayerId := none, soloPrevVisibility := none }

/-- Source `toggleSolo` (layers.js 168-180). -/
def toggleSolo (layerId : String) (s : State α) : State α :=
  if layerId = "" then s
  else if s.soloLayerId = some layerId then clearSolo true s
  else
    let s1 := if truthyId s.soloLayerId then clearSolo true s else s
    { s1 with
      soloPrevVisibility := some (s1.layers.map fun layer => (layer.id, layer.visible))
      soloLayerId := some layerId
      layers := s1.layers.map fun layer => { layer with visible := layer.id == layerId } }

/-- Source `canAddLayer` (layers.js 930-932). -/
def canAddLayer (s : State α) : Bool :=
  s.layers.length < MAX_LAYERS

end Structure

section Model

variable {α : Type} [LinearOrderedField α]

/-- Source `hasWhiteBalanceAdjust` (layers.js 35-43). -/
def hasWhiteBalanceAdjust (layer : Layer α) : Bool :=
  decide (|jsOr layer.wbTemp 0| > 1 / 1000) ||
  decide (|jsOr layer.wbTint 0| > 1 / 1000) ||
  decide (|jsOr layer.wbBright 0| > 1 / 1000) ||
  decide (|jsOr layer.wbSat 0| > 1 / 1000) ||
  decide (|jsOr layer.wbContrast 0| > 1 / 1000)

/-- Source `refreshWarnings` (layers.js 951-953). -/
def refreshWarnings (layer : Layer α) : Layer α :=
  { layer with lowResolution := decide (layer.scale > 102 / 100) }

/-- Source `truncateName` (layers.js 18-21). -/
def truncateName (name : String) : String :=
  let clean := if name.trim = "" then "layer" else name.trim
  if clean.length > 28 then clean.take 25 ++ "…" else clean

/-- Source `addLayerFromImage` (layers.js 1308-1347); the result pairs the
returned boolean with the new state. `makeThumbDataUrl` (layers.js 1284-1295)
encodes a thumbnail through the platform's PNG encoder and is a parameter. -/
def addLayerFromImage (makeThumbDataUrl : ImageData → String) (image : ImageData)
    (name : String) (s : State α) : Bool × State α :=
  if !canAddLayer s then (false, s)
  else
    let fillScale : α :=
      max ((s.canvasWidth : α) / (image.width : α)) ((s.canvasHeight : α) / (image.height : α))
    let layerSeed := s.layerSeed + 1
    let layer : Layer α :=
      { id := "layer-" ++ toString layerSeed
        name := truncateName name
        image := image
        originalImage := image
        thumbDataUrl := makeThumbDataUrl image
        processedCanvas := none
        wbTemp := 0
        wbTint := 0
        wbBright := 0
        wbSat := 0
        wbContrast := 0
        rotationDeg := 0
        processing := false
        tuningOpen := false
        visible := if truthyId s.soloLayerId then false else true
        shadowEnabled := false
        x := 0
        y := 0
        scale := fillScale
        baseScale := fillScale
        flipX := false
        flipY := false
        lowResolution := false }
    (true,
      { s with
        layerSeed := layerSeed
        layers := s.layers ++ [refreshWarnings layer]
        activeLayerId := some layer.id })

/-- Source `getDims` (layers.js 918-920):
`DOC_PRESETS[ratio] || DOC_PRESETS.landscape43`. -/
def getDims (ratio : String) : Nat × Nat :=
  match DOC_PRESETS ratio with
  | some dims => dims
  | none => (1440, 1080)

/-- Source `updateCanvasSize` (layers.js 1143-1160). `sqrt` stands for
`Math.sqrt`. -/
def updateCanvasSize (sqrt : α → α) (ratio : String) (s : State α) : State α :=
  let prevW : Nat := if s.canvasWidth = 0 then 1 else s.canvasWidth
  let prevH : Nat := if s.canvasHeight = 0 then 1 else s.canvasHeight
  let w := (getDims ratio).1
  let h := (getDims ratio).2
  let sx : α := (w : α) / (prevW : α)
  let sy : α := (h : α) / (prevH : α)
  { s with
    layers := s.layers.map fun layer =>
      let geometric := sqrt ((sx * sx + sy * sy) / 2)
      refreshWarnings
        { layer with
          x := layer.x * sx
          y := layer.y * sy
          scale := layer.scale * geometric
          baseScale := layer.baseScale * geometric }
    canvasWidth := w
    canvasHeight := h }

/-- Source `setRatio` (layers.js 1349-1356). -/
def setRatio (sqrt : α → α) (ratio : String) (s : State α) : State α :=
  match DOC_PRESETS ratio with
  | none => s
  | some _ => updateCanvasSize sqrt ratio { s with ratio := ratio }

/-- The axis scale factor `sx = newW / oldW` of a change of the canvas to the
preset `ratio`; `oldW` is `canvas.width || 1`. -/
def axisScaleX (ratio : String) (s : State α) : α :=
  ((getDims ratio).1 : α) / ((if s.canvasWidth = 0 then 1 else s.canvasWidth : Nat) : α)

/-- The axis scale factor `sy = newH / oldH`. -/
def axisScaleY (ratio : String) (s : State α) : α :=
  ((getDims ratio).2 : α) / ((if s.canvasHeight = 0 then 1 else s.canvasHeight : Nat) : α)

/-- The rescaling rule as the specification words it: every layer's `x`, `y`
and `scale` are multiplied by one factor, the geometric mean `sqrt (sx * sy)`. -/
def RescaledByGeometricMean (sqrt : α → α) (ratio : String) (s : State α) : Prop :=
  List.Forall₂
    (fun before after : Layer α =>
      after.x = before.x * sqrt (axisScaleX ratio s * axisScaleY ratio s) ∧
      after.y = before.y * sqrt (axisScaleX ratio s * axisScaleY ratio s) ∧
      after.scale = before.scale * sqrt (axisScaleX ratio s * axisScaleY ratio s))
    s.layers (updateCanvasSize sqrt ratio s).layers

/-- A layer as `addLayerFromImage` builds it from a 1 × 1 image on a
1080 × 1080 canvas (cover-fit scale 1080), afterwards dragged to `(10, 20)`. -/
def exampleLayer (α : Type) [LinearOrderedField α] (id : String) (visible : Bool) : Layer α :=
  { id := id
    name := "Layer"
    image := { width := 1, height := 1, data := [255, 255, 255, 255] }
    originalImage := { width := 1, height := 1, data := [255, 255, 255, 255] }
    thumbDataUrl := ""
    processedCanvas := none
    wbTemp := 0
    wbTint := 0
    wbBright := 0
    wbSat := 0
    wbContrast := 0
    rotationDeg := 0
    processing := false
    tuningOpen := false
    visible := visible
    shadowEnabled := false
    x := 10
    y := 20
    scale := 1080
    baseScale := 1080
    flipX := false
    flipY := false
    lowResolution := true }

/-- A square (1080 × 1080) composition holding the given layers, no solo. -/
def squareDocOf (layers : List (Layer α)) : State α :=
  { ratio := "square"
    layers := layers
    activeLayerId := (layers.getLast?).map fun layer => layer.id
    canvasWidth := 1080
    canvasHeight := 1080
    layerSeed := layers.length
    soloLayerId := none
    soloPrevVisibility := none }

/-- A square composition with one layer at `x = 10`, `y = 20`, `scale = 1080`. -/
def squareDoc (α : Type) [LinearOrderedField α] : State α :=
  squareDocOf [exampleLayer α "layer-1" true]

/-- A composition of three layers, the middle one hidden. -/
def threeLayerDoc (α : Type) [LinearOrderedField α] : State α :=
  squareDocOf
    [exampleLayer α "layer-1" true, exampleLayer α "layer-2" false, exampleLayer α "layer-3" true]

/-- A composition at the layer limit: six layers. -/
def sixLayerDoc (α : Type) [LinearOrderedField α] : State α :=
  squareDocOf
    [exampleLayer α "layer-1" true, exampleLayer α "layer-2" true, exampleLayer α "layer-3" true,
      exampleLayer α "layer-4" true, exampleLayer α "layer-5" true, exampleLayer α "layer-6" true]

variable [FloorRing α]

/-- The expression `clamp(Math.round(value), 0, 255)` stored into a byte. -/
def toByte (value : α) : Nat :=
  (max 0 (min 255 (mathRound value))).toNat

/-- The pixel loop of `rebuildLayerProcessed` (layers.js 979-1008) over the
RGBA bytes; `temp`, `tint`, `bright`, `sat`, `contrast` are the clamped
parameters divided by 100. -/
def adjustTone (temp tint bright sat contrast : α) : List Nat → List Nat
  | r :: g :: b :: a :: rest =>
    let tempShift := temp * 42
    let brightShift := bright * 255
    let satFactor := 1 + sat
    let contrastFactor := 1 + contrast * (3 / 2)
    let tintShift := tint * 30
    let rr0 : α := (r : α) + tempShift + tintShift * (1 / 2)
    let gg0 : α := (g : α) - tintShift
    let bb0 : α := (b : α) - tempShift + tintShift * (1 / 2)
    let gray := (2126 / 10000) * rr0 + (7152 / 10000) * gg0 + (722 / 10000) * bb0
    let rr1 := if |sat| > 1 / 10000 then gray + (rr0 - gray) * satFactor else rr0
    let gg1 := if |sat| > 1 / 10000 then gray + (gg0 - gray) * satFactor else gg0
    let bb1 := if |sat| > 1 / 10000 then gray + (bb0 - gray) * satFactor else bb0
    let rr2 := rr1 + brightShift
    let gg2 := gg1 + brightShift
    let bb2 := bb1 + brightShift
    let rr3 := if |contrast| > 1 / 10000 then (rr2 - 128) * contrastFactor + 128 else rr2
    let gg3 := if |contrast| > 1 / 10000 then (gg2 - 128) * contrastFactor + 128 else gg2
    let bb3 := if |contrast| > 1 / 10000 then (bb2 - 128) * contrastFactor + 128 else bb2
    toByte rr3 :: toByte gg3 :: toByte bb3 :: a :: adjustTone temp tint bright sat contrast rest
  | rest => rest

/-- Source `rebuildLayerProcessed` (layers.js 955-1019). The result is `none`
when `getImageData` throws on an empty work canvas. -/
def rebuildLayerProcessed (layer : Layer α) : Option (Layer α) :=
  let needsWb := hasWhiteBalanceAdjust layer
  if !needsWb then some { layer with processedCanvas := none }
  else
    let source := layer.image
    match getImageData source with
    | none => none
    | some imgData =>
      let temp := clamp (jsOr layer.wbTemp 0) (-(WB_LIMIT : α)) (WB_LIMIT : α) / 100
      let tint := clamp (jsOr layer.wbTint 0) (-(TINT_LIMIT : α)) (TINT_LIMIT : α) / 100
      let bright := clamp (jsOr layer.wbBright 0) (-(BRIGHT_LIMIT : α)) (BRIGHT_LIMIT : α) / 100
      let sat := clamp (jsOr layer.wbSat 0) (-(SAT_LIMIT : α)) (SAT_LIMIT : α) / 100
      let contrast :=
        clamp (jsOr layer.wbContrast 0) (-(CONTRAST_LIMIT : α)) (CONTRAST_LIMIT : α) / 100
      let work := putImageData source
        { imgData with data := adjustTone temp tint bright sat contrast imgData.data }
      some { layer with processedCanvas := some work }

end Model

/-! ### Sampled colour key (`buildSampledColorKeyCanvas`) -/

/-- The object `{ h, s, v }` returned by `rgbToHsv`. -/
structure Hsv (α : Type) where
  h : α
  s : α
  v : α
deriving DecidableEq, Repr

/-- The sampled key colour `sample = { r, g, b }`. -/
structure Rgb where
  r : Nat
  g : Nat
  b : Nat
deriving DecidableEq, Repr

section ColorKey

variable {α : Type} [LinearOrderedField α] [FloorRing α]

/-- Source `rgbToHsv` (layers.js 1039-1061). -/
def rgbToHsv (r g b : Nat) : Hsv α :=
  let rn : α := (r : α) / 255
  let gn : α := (g : α) / 255
  let bn : α := (b : α) / 255
  let mx := max rn (max gn bn)
  let mn := min rn (min gn bn)
  let delta := mx - mn
  let h : α :=
    if delta > 1 / 1000000 then
      let h0 :=
        if mx = rn then jsRem ((gn - bn) / delta) 6
        else if mx = gn then (bn - rn) / delta + 2
        else (rn - gn) / delta + 4
      if h0 * 60 < 0 then h0 * 60 + 360 else h0 * 60
    else 0
  let s := if mx ≤ 0 then 0 else delta / mx
  { h := h, s := s, v := mx }

/-- The value of `keyStrength` in the pixel loop of
`buildSampledColorKeyCanvas` (layers.js 1069-1111) for the source pixel
`(r, g, b)`. `sqrt` stands for `Math.sqrt`. -/
def sampledKeyStrength (sqrt : α → α) (sample : Rgb) (r g b : Nat) : α :=
  let sampleHsv : Hsv α := rgbToHsv sample.r sample.g sample.b
  let sampleSatLow : Bool := decide (sampleHsv.s < 12 / 100)
  let satFloor : α := if sampleSatLow then 0 else max (12 / 100) (sampleHsv.s * (1 / 2))
  let valueFloor : α := if sampleSatLow then 0 else max (28 / 100) (sampleHsv.v - 22 / 100)
  let dr : α := (r : α) - (sample.r : α)
  let dg : α := (g : α) - (sample.g : α)
  let db : α := (b : α) - (sample.b : α)
  let rgbDist := sqrt (dr * dr + dg * dg + db * db) / (44167295593 / 100000000)
  let hsv : Hsv α := rgbToHsv r g b
  let hueDiff := min |hsv.h - sampleHsv.h| (360 - |hsv.h - sampleHsv.h|) / 180
  let satDiff := |hsv.s - sampleHsv.s|
  let valDiff := |hsv.v - sampleHsv.v|
  if sampleSatLow then clamp01 ((2 / 10 - rgbDist) / (2 / 10))
  else
    let colorScore :=
      (1 - hueDiff) * (58 / 100) + (1 - satDiff) * (24 / 100) + (1 - valDiff) * (18 / 100)
    let hueGate := if hueDiff < 18 / 100 then 1 else clamp01 ((28 / 100 - hueDiff) / (1 / 10))
    let scoreBased := clamp01 ((colorScore - 67 / 100) / (33 / 100)) * hueGate
    let rgbBased := clamp01 ((14 / 100 - rgbDist) / (14 / 100))
    let k0 := max scoreBased (rgbBased * (92 / 100))
    let k1 := if hsv.s < satFloor then k0 * (12 / 100) else k0
    let k2 := if hsv.v < valueFloor then k1 * (3 / 10) else k1
    if hueDiff > 2 / 10 ∧ hsv.s < sampleHsv.s * (75 / 100) then k2 * (1 / 10) else k2

/-- The byte `maskData[i + 3]` after one iteration of the pixel loop of
`buildSampledColorKeyCanvas` (layers.js 1082-1118) with key strength
`keyStrength`: 255 is kept when the iteration ends at `continue`. `pow` stands
for `Math.pow`. -/
def sampledAlphaOfStrength (pow : α → α → α) (keyStrength : α) : Nat :=
  if keyStrength ≤ 1 / 10 then 255
  else
    let alpha0 := mathRound (255 * (1 - pow keyStrength (86 / 100)))
    let alpha1 := if keyStrength ≥ 1 / 2 then min alpha0 28 else alpha0
    let alpha2 := if keyStrength ≥ 65 / 100 then 0 else alpha1
    storeByte alpha2

/-- The mask alpha that `buildSampledColorKeyCanvas` assigns to a source pixel
`(r, g, b)`. -/
def sampledKeyAlpha (pow : α → α → α) (sqrt : α → α) (sample : Rgb) (r g b : Nat) : Nat :=
  sampledAlphaOfStrength pow (sampledKeyStrength sqrt sample r g b)

/-- The pixel loop of `buildSampledColorKeyCanvas` (layers.js 1082-1118) over
the RGBA bytes of the source. -/
def sampledMaskPixels (pow : α → α → α) (sqrt : α → α) (sample : Rgb) : List Nat → List Nat
  | r :: g :: b :: _ :: rest =>
    255 :: 255 :: 255 :: sampledKeyAlpha pow sqrt sample r g b
      :: sampledMaskPixels pow sqrt sample rest
  | _ => []

/-- Source `buildSampledColorKeyCanvas` (layers.js 1063-1122): the mask canvas
for the source canvas and the sampled colour; `none` when the source is empty
and `getImageData` throws. -/
def buildSampledColorKeyCanvas (pow : α → α → α) (sqrt : α → α) (sourceCanvas : ImageData)
    (sample : Rgb) : Option ImageData :=
  match getImageData sourceCanvas with
  | none => none
  | some imageData =>
    some
      { width := sourceCanvas.width
        height := sourceCanvas.height
        data := sampledMaskPixels pow sqrt sample imageData.data }

end ColorKey

/-! ### Parallax export and compositing geometry -/

def PARALLAX_MAX_SCALE {α : Type} [LinearOrderedField α] : α := 16 / 100
def PARALLAX_PAN_X {α : Type} [LinearOrderedField α] : α := 85 / 1000
def PARALLAX_PAN_Y {α : Type} [LinearOrderedField α] : α := 7 / 100

/-- The object returned by `computeShadowMetrics`. -/
structure ShadowMetrics (α : Type) where
  blur : ℤ
  offsetY : ℤ
  opacity : α
deriving DecidableEq, Repr

/-- What `drawLayers` paints for one visible layer: the `drawImage` of `source`
with size `drawW × drawH` centred at `(cx, cy)`, rotated by `angle` and flipped,
preceded by the shadow pass when `shadow` is present. -/
structure LayerDraw (α : Type) where
  source : ImageData
  cx : α
  cy : α
  angle : α
  flipX : Bool
  flipY : Bool
  drawW : α
  drawH : α
  shadow : Option (ShadowMetrics α)
deriving DecidableEq, Repr

section Parallax

variable {α : Type} [LinearOrderedField α] [FloorRing α]

/-- Source `computeShadowMetrics` (layers.js 49-55). -/
def computeShadowMetrics (drawW drawH : α) : ShadowMetrics α :=
  let basis := max 1 (min drawW drawH)
  let blur := max 6 (min 24 (mathRound (basis * (18 / 1000))))
  let offsetY := max 4 (min 26 (mathRound (basis * (25 / 1000))))
  { blur := blur, offsetY := offsetY, opacity := 34 / 100 }

/-- The body of the `forEach` of `drawLayers` (layers.js 1171-1210) for a
visible layer at position `index`; `total` is `Math.max(1, layers.length)` and
`pi` stands for `Math.PI`. -/
def layerDraw (pi : α) (canvasWidth canvasHeight total : Nat) (progress : α)
    (parallaxEnabled : Bool) (motionType : String) (intensity : α) (index : Nat)
    (layer : Layer α) : LayerDraw α :=
  let source := getLayerRenderSource layer
  let depth : α := ((index : α) + 1) / (total : α)
  let strength := clamp (jsOr intensity 1) (25 / 100) 1
  let signed := progress * 2 - 1
  let parallaxScale : α :=
    if parallaxEnabled = true ∧ motionType = "zoom"
    then 1 + PARALLAX_MAX_SCALE * strength * depth * progress
    else 1
  let drawW := (source.width : α) * layer.scale * parallaxScale
  let drawH := (source.height : α) * layer.scale * parallaxScale
  let panX : α :=
    if parallaxEnabled = true ∧ motionType = "panx"
    then signed * (canvasWidth : α) * PARALLAX_PAN_X * strength * depth
    else 0
  let panY : α :=
    if parallaxEnabled = true ∧ motionType = "pany"
    then signed * (canvasHeight : α) * PARALLAX_PAN_Y * strength * depth
    else 0
  { source := source
    cx := (canvasWidth : α) / 2 + layer.x + panX
    cy := (canvasHeight : α) / 2 + layer.y + panY
    angle := jsOr layer.rotationDeg 0 * pi / 180
    flipX := layer.flipX
    flipY := layer.flipY
    drawW := drawW
    drawH := drawH
    shadow := if layer.shadowEnabled then some (computeShadowMetrics drawW drawH) else none }

/-- Source `drawLayers` (layers.js 1166-1211): the visible layers in paint
order (ascending z-order). -/
def drawLayers (pi : α) (progress : α) (parallaxEnabled : Bool) (motionType : String)
    (intensity : α) (s : State α) : List (LayerDraw α) :=
  let total := max 1 s.layers.length
  s.layers.enum.filterMap fun entry =>
    if entry.2.visible then
      some (layerDraw pi s.canvasWidth s.canvasHeight total progress parallaxEnabled motionType
        intensity entry.1 entry.2)
    else none

end Parallax

/-! ### Layer list buttons (`listEl` click handler) -/

section Buttons

variable {α : Type}

/-- Source `layerById` (layers.js 1304-1306). -/
def layerById (layerId : String) (s : State α) : Option (Layer α) :=
  s.layers.find? fun layer => layer.id == layerId

/-- An in-place update `layer.field = ...` of the layer object found by
`layerById`: the first entry with that id. -/
def updateLayer (layerId : String) (f : Layer α → Layer α) : List (Layer α) → List (Layer α)
  | [] => []
  | layer :: rest =>
    if layer.id == layerId then f layer :: rest else layer :: updateLayer layerId f rest

/-- The `.layer-btn` branch of the click handler of `listEl`
(layers.js 1616-1622, 1659-1687) for the button with class `button` in the list
item of layer `layerId`. -/
def layerButtonClick (button : String) (layerId : String) (s : State α) : State α :=
  match layerById layerId s with
  | none => s
  | some layer =>
    let index := s.layers.findIdx fun entry => entry.id == layerId
    if button = "up" ∧ index + 1 < s.layers.length then
      match s.layers[index + 1]? with
      | none => s
      | some swap => { s with layers := (s.layers.set (index + 1) layer).set index swap }
    else if button = "down" ∧ index > 0 then
      match s.layers[index - 1]? with
      | none => s
      | some swap => { s with layers := (s.layers.set (index - 1) layer).set index swap }
    else if button = "hide" then
      let s1 := if truthyId s.soloLayerId then clearSolo true s else s
      { s1 with
        layers := updateLayer layerId (fun entry => { entry with visible := !entry.visible }) s1.layers }
    else if button = "solo" then toggleSolo layerId s
    else if button = "delete" then
      let s1 := if s.soloLayerId = some layer.id then clearSolo true s else s
      let layers := s1.layers.filter fun entry => entry.id != layerId
      let activeLayerId :=
        if s1.activeLayerId = some layerId then
          match layers.getLast? with
          | none => none
          | some top => if top.id = "" then none else some top.id
        else s1.activeLayerId
      { s1 with layers := layers, activeLayerId := activeLayerId }
    else s

end Buttons

/-! ### Concrete documents and options for the later theorems -/

section Selection

variable {α : Type} [LinearOrderedField α]

/-- The state when `createLayersTool` returns (layers.js 133-151, 1737-1740):
no layers, canvas sized to the preset `landscape43`. -/
def State.initial : State α :=
  { ratio := "landscape43"
    layers := []
    activeLayerId := none
    canvasWidth := 1440
    canvasHeight := 1080
    layerSeed := 0
    soloLayerId := none
    soloPrevVisibility := none }

/-- Source `activeLayer` (layers.js 922-924). -/
def activeLayer (s : State α) : Option (Layer α) :=
  match s.activeLayerId with
  | none => none
  | some id => s.layers.find? fun layer => layer.id == id

/-- Source `selectLayer` (layers.js 1298-1302). -/
def selectLayer (layerId : String) (s : State α) : State α :=
  { s with activeLayerId := some layerId }

/-- Source `fillSelectedLayer` (layers.js 1364-1382); the result pairs the
returned boolean with the new state. `cos`, `sin` and `pi` stand for
`Math.cos`, `Math.sin` and `Math.PI`. -/
def fillSelectedLayer (cos sin : α → α) (pi : α) (s : State α) : Bool × State α :=
  match activeLayer s with
  | none => (false, s)
  | some layer =>
    let source := getLayerRenderSource layer
    let angle := jsOr layer.rotationDeg 0 * pi / 180
    let c := |cos angle|
    let sn := |sin angle|
    let coverScaleX :=
      ((s.canvasWidth : α) * c + (s.canvasHeight : α) * sn) / ((max 1 source.width : Nat) : α)
    let coverScaleY :=
      ((s.canvasWidth : α) * sn + (s.canvasHeight : α) * c) / ((max 1 source.height : Nat) : α)
    let overscan : α := 101 / 100
    let fill := max coverScaleX coverScaleY * overscan
    (true,
      { s with
        layers := updateLayer layer.id
          (fun entry => refreshWarnings { entry with scale := fill, x := 0, y := 0 }) s.layers })

/-- Source `resetSelectedLayer` (layers.js 1384-1408). The field
`originalImage` is set when the layer is built and is never empty. -/
def resetSelectedLayer (makeThumbDataUrl : ImageData → String) (s : State α) : Bool × State α :=
  match activeLayer s with
  | none => (false, s)
  | some layer =>
    let original := layer.originalImage
    let resetScale : α :=
      max ((s.canvasWidth : α) / (original.width : α)) ((s.canvasHeight : α) / (original.height : α))
    (true,
      { s with
        layers := updateLayer layer.id
          (fun entry =>
            refreshWarnings
              { entry with
                image := original
                thumbDataUrl := makeThumbDataUrl original
                processedCanvas := none
                wbTemp := 0
                wbTint := 0
                wbBright := 0
                wbSat := 0
                wbContrast := 0
                rotationDeg := 0
                flipX := false
                flipY := false
                shadowEnabled := false
                baseScale := resetScale
                scale := resetScale
                x := 0
                y := 0 })
          s.layers })

/-- Source `pickTopLayerAt` (layers.js 1537-1551): the topmost visible layer
whose unrotated rectangle holds the point, else the active layer. -/
def pickTopLayerAt (px py : α) (s : State α) : Option (Layer α) :=
  let hit := s.layers.reverse.find? fun layer =>
    let source := getLayerRenderSource layer
    let drawW := (source.width : α) * layer.scale
    let drawH := (source.height : α) * layer.scale
    let left := (s.canvasWidth : α) / 2 + layer.x - drawW / 2
    let top := (s.canvasHeight : α) / 2 + layer.y - drawH / 2
    layer.visible && decide (px ≥ left) && decide (px ≤ left + drawW) && decide (py ≥ top)
      && decide (py ≤ top + drawH)
  match hit with
  | some layer => some layer
  | none => activeLayer s

/-- Source `pointerDown` (layers.js 1553-1572) at the canvas point `(px, py)`;
the drag bookkeeping in `interaction` is not part of the modelled state. -/
def pointerDown (px py : α) (s : State α) : State α :=
  if s.layers.length = 0 then s
  else
    let picked :=
      match activeLayer s with
      | some layer => some layer
      | none => pickTopLayerAt px py s
    match picked with
    | none => s
    | some layer => { s with activeLayerId := some layer.id }

/-- The `.layer-tool-btn` branch of the click handler of `listEl`
(layers.js 1616-1657) for the button with class `button` in the list item of
layer `layerId`. The button `cutout` opens the brush editor, which works on
the pixels of the layer only. -/
def layerToolButtonClick (cos sin : α → α) (pi : α) (makeThumbDataUrl : ImageData → String)
    (button : String) (layerId : String) (s : State α) : State α :=
  match layerById layerId s with
  | none => s
  | some layer =>
    let s0 := { s with activeLayerId := some layerId }
    if button = "fill" then (fillSelectedLayer cos sin pi s0).2
    else if button = "reset" then (resetSelectedLayer makeThumbDataUrl s0).2
    else if button = "delete" then
      let s1 := if s0.soloLayerId = some layer.id then clearSolo true s0 else s0
      let layers := s1.layers.filter fun entry => entry.id != layerId
      let activeLayerId :=
        if s1.activeLayerId = some layerId then
          match layers.getLast? with
          | none => none
          | some top => if top.id = "" then none else some top.id
        else s1.activeLayerId
      { s1 with layers := layers, activeLayerId := activeLayerId }
    else if button = "flipx" then
      { s0 with layers := updateLayer layerId (fun entry => { entry with flipX := !entry.flipX }) s0.layers }
    else if button = "flipy" then
      { s0 with layers := updateLayer layerId (fun entry => { entry with flipY := !entry.flipY }) s0.layers }
    else if button = "shadow" then
      { s0 with
        layers := updateLayer layerId
          (fun entry => { entry with shadowEnabled := !entry.shadowEnabled }) s0.layers }
    else s0

/-- The `.layer-tuning-toggle` branch of the click handler of `listEl`
(layers.js 1689-1698). -/
def layerTuningToggle (layerId : String) (s : State α) : State α :=
  match layerById layerId s with
  | none => s
  | some layer =>
    { s with
      activeLayerId := some layerId
      layers := s.layers.map fun entry =>
        { entry with tuningOpen := if entry.id = layerId then !layer.tuningOpen else false } }

/-- The last line of the click handler of `listEl` (layers.js 1616-1622, 1700):
a click on the list item of layer `layerId` outside its buttons selects it. -/
def layerItemClick (layerId : String) (s : State α) : State α :=
  match layerById layerId s with
  | none => s
  | some _ => selectLayer layerId s

/-- The user actions on the layer list and the canvas. -/
inductive LayerAction (α : Type) where
  | addLayer (image : ImageData) (name : String)
  | listButton (button : String) (layerId : String)
  | toolButton (button : String) (layerId : String)
  | tuningToggle (layerId : String)
  | itemClick (layerId : String)
  | pointerDown (px py : α)
  | fillSelected
  | resetSelected

/-- The handler of each action. -/
def applyAction (cos sin : α → α) (pi : α) (makeThumbDataUrl : ImageData → String) :
    LayerAction α → State α → State α
  | .addLayer image name, s => (addLayerFromImage makeThumbDataUrl image name s).2
  | .listButton button layerId, s => layerButtonClick button layerId s
  | .toolButton button layerId, s =>
    layerToolButtonClick cos sin pi makeThumbDataUrl button layerId s
  | .tuningToggle layerId, s => layerTuningToggle layerId s
  | .itemClick layerId, s => layerItemClick layerId s
  | .pointerDown px py, s => pointerDown px py s
  | .fillSelected, s => (fillSelectedLayer cos sin pi s).2
  | .resetSelected, s => (resetSelectedLayer makeThumbDataUrl s).2

/-- A sequence of actions, handled in order. -/
def applyActions (cos sin : α → α) (pi : α) (makeThumbDataUrl : ImageData → String) :
    List (LayerAction α) → State α → State α
  | [], s => s
  | action :: rest, s =>
    applyActions cos sin pi makeThumbDataUrl rest (applyAction cos sin pi makeThumbDataUrl action s)

/-- The region that `drawImage(source, -drawW / 2, -drawH / 2, drawW, drawH)`
paints after `translate(cx, cy)`, `rotate(angle)` and the flip
(layers.js 1204-1208): the image of the rectangle
`[-drawW / 2, drawW / 2] × [-drawH / 2, drawH / 2]` under the rotation about
`(cx, cy)`. The flip maps that rectangle onto itself. -/
def Paints (cos sin : α → α) (draw : LayerDraw α) (px py : α) : Prop :=
  ∃ a b : α, |a| ≤ draw.drawW / 2 ∧ |b| ≤ draw.drawH / 2 ∧
    px = draw.cx + (a * cos draw.angle - b * sin draw.angle) ∧
    py = draw.cy + (a * sin draw.angle + b * cos draw.angle)

end Selection

/-! ### Invariants of the layer list -/

section Invariants

variable {α : Type}

/-- The active-layer invariant: the active id is `null` or the id of a layer
of the sequence, it is set whenever the sequence is non-empty, and the ids of
the sequence are pairwise distinct. -/
def ActiveAndIdsValid (s : State α) : Prop :=
  (s.activeLayerId = none ∨ ∃ layer ∈ s.layers, s.activeLayerId = some layer.id) ∧
  (s.layers ≠ [] → s.activeLayerId ≠ none) ∧
  (s.layers.map fun layer => layer.id).Nodup

/-- Every id of the sequence was issued by `addLayerFromImage` from a value of
the counter `layerSeed` that has been passed. -/
def IdsIssued (s : State α) : Prop :=
  ∀ layer ∈ s.layers, ∃ k : Nat, 1 ≤ k ∧ k ≤ s.layerSeed ∧ layer.id = "layer-" ++ toString k

/-- The solo invariant: a solo id that is set is the id of a layer of the
sequence, and a layer is visible exactly when it is the soloed one. -/
def SoloConsistent (s : State α) : Prop :=
  ∀ id : String, s.soloLayerId = some id →
    id ≠ "" ∧ (∃ layer ∈ s.layers, layer.id = id) ∧
    ∀ layer ∈ s.layers, (layer.visible = true ↔ layer.id = id)

/-- The three invariants together. -/
def LayersInvariant (s : State α) : Prop :=
  ActiveAndIdsValid s ∧ IdsIssued s ∧ SoloConsistent s

end Invariants

/-! ### Shadow metrics and tone mapping in the specification's words -/

section SpecWords

variable {α : Type} [LinearOrderedField α] [FloorRing α]

/-- A final channel value written to a pixel: rounded, then clamped to
`[0, 255]`. -/
def specFinalChannel (value : α) : Nat :=
  (max 0 (min 255 (mathRound value))).toNat

/-- The tone mapping of one pixel as the specification states it, for clamped
parameters `temp`, `tint`, `bright`, `sat`, `contrast`: shift, saturation,
brightness, contrast, in that order, rounded and clamped at the end only. The
flags tell whether the saturation and the contrast stage are applied. -/
def specTonePixel (temp tint bright sat contrast : α) (withSat withContrast : Bool)
    (r g b : Nat) : Nat × Nat × Nat :=
  let T := 42 * temp / 100
  let N := 30 * tint / 100
  let r1 : α := (r : α) + T + N / 2
  let g1 : α := (g : α) - N
  let b1 : α := (b : α) - T + N / 2
  let L := (2126 / 10000) * r1 + (7152 / 10000) * g1 + (722 / 10000) * b1
  let r2 := if withSat then L + (r1 - L) * (1 + sat / 100) else r1
  let g2 := if withSat then L + (g1 - L) * (1 + sat / 100) else g1
  let b2 := if withSat then L + (b1 - L) * (1 + sat / 100) else b1
  let r3 := r2 + 255 * bright / 100
  let g3 := g2 + 255 * bright / 100
  let b3 := b2 + 255 * bright / 100
  let r4 := if withContrast then (r3 - 128) * (1 + (15 / 10) * contrast / 100) + 128 else r3
  let g4 := if withContrast then (g3 - 128) * (1 + (15 / 10) * contrast / 100) + 128 else g3
  let b4 := if withContrast then (b3 - 128) * (1 + (15 / 10) * contrast / 100) + 128 else b3
  (specFinalChannel r4, specFinalChannel g4, specFinalChannel b4)

/-- The tone mapping of an RGBA byte sequence, pixel by pixel; the alpha byte
is kept. -/
def specTone (temp tint bright sat contrast : α) (withSat withContrast : Bool) :
    List Nat → List Nat
  | r :: g :: b :: a :: rest =>
    (specTonePixel temp tint bright sat contrast withSat withContrast r g b).1
      :: (specTonePixel temp tint bright sat contrast withSat withContrast r g b).2.1
      :: (specTonePixel temp tint bright sat contrast withSat withContrast r g b).2.2
      :: a :: specTone temp tint bright sat contrast withSat withContrast rest
  | rest => rest

/-- The clamped tone parameters of a layer: `temp`, `tint` in `[-25, 25]` and
`bright`, `sat`, `contrast` in `[-30, 30]`. -/
def clampedTemp (layer : Layer α) : α := clamp layer.wbTemp (-25) 25
def clampedTint (layer : Layer α) : α := clamp layer.wbTint (-25) 25
def clampedBright (layer : Layer α) : α := clamp layer.wbBright (-30) 30
def clampedSat (layer : Layer α) : α := clamp layer.wbSat (-30) 30
def clampedContrast (layer : Layer α) : α := clamp layer.wbContrast (-30) 30

/-- The render source of a layer after `rebuildLayerProcessed`, as the claim
states it: every stage applied. -/
def specToneOfLayer (layer : Layer α) : List Nat :=
  specTone (clampedTemp layer) (clampedTint layer) (clampedBright layer) (clampedSat layer)
    (clampedContrast layer) true true layer.image.data

end SpecWords

end Layers

/-! # Theorems -/

/-! ## Mask history -/

namespace Cutout

theorem getImageData_of_pos (m : ImageData) (hw : 0 < m.width) (hh : 0 < m.height) :
    getImageData m = some m := by
  unfold getImageData
  rw [if_neg]
  omega

/-- On a loaded subject with a non-empty mask, `pushHistory` takes its main
path: append the live mask, evict the oldest snapshot beyond the limit, clear
the redo sequence. -/
theorem pushHistory_of_loaded (s : State) (hImg : s.hasImage = true)
    (hw : 0 < s.maskCanvas.width) (hh : 0 < s.maskCanvas.height) :
    pushHistory s =
      { s with history :=
          { stack :=
              if (s.history.stack ++ [s.maskCanvas]).length > 30
              then (s.history.stack ++ [s.maskCanvas]).tail
              else s.history.stack ++ [s.maskCanvas]
            redos := [] } } := by
  unfold pushHistory
  simp [hImg, getImageData_of_pos _ hw hh, History.limit]

theorem pushHistory_stack_length_le (s : State) (h : s.history.stack.length ≤ 30) :
    (pushHistory s).history.stack.length ≤ 30 := by
  unfold pushHistory
  split
  · exact h
  · split
    · exact h
    · simp only [History.limit]
      split
      · simp only [List.length_tail, List.length_append, List.length_singleton]
        omega
      · omega

theorem commitStrokes_stack_length_le (strokes : List (List Nat)) :
    ∀ s : State, s.history.stack.length ≤ 30 →
      (commitStrokes strokes s).history.stack.length ≤ 30 := by
  induction strokes with
  | nil => intro s h; exact h
  | cons pixels rest ih =>
    intro s h
    exact ih _ (pushHistory_stack_length_le _ h)

theorem initMaskFromImage_stack_length_le (s : State) :
    (initMaskFromImage s).history.stack.length ≤ 30 := by
  unfold initMaskFromImage
  exact pushHistory_stack_length_le _ (by simp)

/-- With at least two snapshots and a non-empty mask, `undo` takes its main
path: the live mask goes onto the redo sequence, the top snapshot is popped,
and the snapshot below it is painted onto the mask. -/
theorem undo_of_two (s : State) (hlen : 2 ≤ s.history.stack.length)
    (hw : 0 < s.maskCanvas.width) (hh : 0 < s.maskCanvas.height) :
    ∃ prev, s.history.stack[s.history.stack.length - 2]? = some prev ∧
      undo s =
        { s with
          history := { stack := s.history.stack.dropLast, redos := s.history.redos ++ [s.maskCanvas] }
          maskCanvas := putImageData s.maskCanvas prev } := by
  have hlt : s.history.stack.length - 2 < s.history.stack.length := by omega
  refine ⟨s.history.stack[s.history.stack.length - 2], List.getElem?_eq_getElem hlt, ?_⟩
  unfold undo
  rw [if_neg (by omega), getImageData_of_pos _ hw hh]
  simp only [List.getElem?_eq_getElem hlt]

/-- Claim C1: over every sequence of committed strokes on a loaded subject the
history stack never holds more than 30 snapshots (directly after
`initMaskFromImage`, and from any state whose stack is within the cap), and
`pushHistory` on a stack of exactly 30 yields exactly 30 snapshots: the former
snapshots 2..30 in order followed by the new snapshot of the live mask. -/
theorem pushHistory_never_exceeds_cap (s : State) (strokes : List (List Nat)) :
    (commitStrokes strokes (initMaskFromImage s)).history.stack.length ≤ 30 ∧
    (s.history.stack.length ≤ 30 → (commitStrokes strokes s).history.stack.length ≤ 30) ∧
    (s.hasImage = true → 0 < s.maskCanvas.width → 0 < s.maskCanvas.height →
      s.history.stack.length = 30 →
        (pushHistory s).history.stack = s.history.stack.tail ++ [s.maskCanvas] ∧
        (pushHistory s).history.stack.length = 30) := by
  refine ⟨commitStrokes_stack_length_le strokes _ (initMaskFromImage_stack_length_le s),
    commitStrokes_stack_length_le strokes s, ?_⟩
  intro hImg hw hh hfull
  rw [pushHistory_of_loaded s hImg hw hh]
  have hne : s.history.stack ≠ [] := by
    intro h0
    rw [h0] at hfull
    simp at hfull
  simp only [List.length_append, List.length_singleton, hfull]
  simp [List.tail_append_of_ne_nil, hne, hfull]

theorem pushHistory_never_exceeds_cap_witness :
    fullHistoryState.history.stack.length = 30 ∧
    (commitStrokes [[255, 255, 255, 31], [255, 255, 255, 32]] fullHistoryState).history.stack.length
      ≤ 30 ∧
    (pushHistory fullHistoryState).history.stack
      = fullHistoryState.history.stack.tail ++ [fullHistoryState.maskCanvas] ∧
    (pushHistory fullHistoryState).history.stack.length = 30 :=
  ⟨by decide,
    (pushHistory_never_exceeds_cap fullHistoryState
      [[255, 255, 255, 31], [255, 255, 255, 32]]).2.1 (by decide),
    (pushHistory_never_exceeds_cap fullHistoryState
      [[255, 255, 255, 31], [255, 255, 255, 32]]).2.2 rfl (by decide) (by decide) (by decide)⟩

/-- Claim C2, counterexample: in the state reached by load, one committed
erasing stroke and one `undo()`, the stack holds a single snapshot, so a further
`undo()` does nothing, and the `redo()` after it replaces the live mask by the
pending redo snapshot: the mask after `undo(); redo()` differs from the mask
before. -/
theorem undo_redo_changes_mask_at_single_snapshot :
    erasedThenUndone.history.stack.length = 1 ∧
    (redo (undo erasedThenUndone)).maskCanvas ≠ erasedThenUndone.maskCanvas := by
  decide

/-- Claim C2, amended: for every history state whose stack holds at least two
snapshots (so that `undo()` takes effect) on a non-empty mask, `undo()` followed
immediately by `redo()` leaves the live mask equal to the mask before the
`undo()`, and the redo sequence as it was. -/
theorem undo_redo_restores_mask (s : State) (hlen : 2 ≤ s.history.stack.length)
    (hw : 0 < s.maskCanvas.width) (hh : 0 < s.maskCanvas.height) :
    (redo (undo s)).maskCanvas = s.maskCanvas ∧
    (redo (undo s)).history.redos = s.history.redos := by
  obtain ⟨prev, _, hundo⟩ := undo_of_two s hlen hw hh
  rw [hundo]
  unfold redo
  simp [putImageData]

theorem undo_redo_restores_mask_witness :
    2 ≤ (pushHistory fullHistoryState).history.stack.length ∧
    (redo (undo (pushHistory fullHistoryState))).maskCanvas
      = (pushHistory fullHistoryState).maskCanvas ∧
    (redo (undo (pushHistory fullHistoryState))).history.redos
      = (pushHistory fullHistoryState).history.redos :=
  ⟨by decide,
    undo_redo_restores_mask (pushHistory fullHistoryState) (by decide) (by decide) (by decide)⟩

/-- Claim C3: from a freshly initialised mask of a loaded subject, a stroke
committed with `pushHistory`, then `undo()`, then `redo()` leaves the live mask
equal to the post-stroke mask, the history stack equal to
`[clean, post-stroke]` and the redo sequence empty; when the stroke changed the
mask, the result differs from the pre-stroke mask. -/
theorem stroke_undo_redo_is_post_stroke (s : State) (pixels : List Nat)
    (hImg : s.hasImage = true) (hw : 0 < s.canvasWidth) (hh : 0 < s.canvasHeight) :
    (redo (undo (pushHistory (paintStroke pixels (initMaskFromImage s))))).maskCanvas
        = (paintStroke pixels (initMaskFromImage s)).maskCanvas ∧
    (redo (undo (pushHistory (paintStroke pixels (initMaskFromImage s))))).history.stack
        = [fillWhite s.canvasWidth s.canvasHeight,
            (paintStroke pixels (initMaskFromImage s)).maskCanvas] ∧
    (redo (undo (pushHistory (paintStroke pixels (initMaskFromImage s))))).history.redos = [] ∧
    (pixels ≠ (initMaskFromImage s).maskCanvas.data →
      (redo (undo (pushHistory (paintStroke pixels (initMaskFromImage s))))).maskCanvas
        ≠ (initMaskFromImage s).maskCanvas) := by
  have hw0 : s.canvasWidth ≠ 0 := Nat.pos_iff_ne_zero.mp hw
  have hh0 : s.canvasHeight ≠ 0 := Nat.pos_iff_ne_zero.mp hh
  have hinit : initMaskFromImage s =
      { s with
        maskCanvas := fillWhite s.canvasWidth s.canvasHeight
        aiMaskAlpha := none
        history := { stack := [fillWhite s.canvasWidth s.canvasHeight], redos := [] } } := by
    have hpush0 := pushHistory_of_loaded
      { s with
        maskCanvas := fillWhite s.canvasWidth s.canvasHeight
        aiMaskAlpha := none
        history := { stack := [], redos := [] } }
      hImg (by simpa [fillWhite] using hw) (by simpa [fillWhite] using hh)
    unfold initMaskFromImage
    dsimp only
    rw [hpush0]
    simp
  rw [hinit]
  have hpush := pushHistory_of_loaded
    (paintStroke pixels
      { s with
        maskCanvas := fillWhite s.canvasWidth s.canvasHeight
        aiMaskAlpha := none
        history := { stack := [fillWhite s.canvasWidth s.canvasHeight], redos := [] } })
    (by simpa [paintStroke] using hImg) (by simpa [paintStroke, fillWhite] using hw)
    (by simpa [paintStroke, fillWhite] using hh)
  rw [hpush]
  simp [paintStroke, undo, redo, getImageData, putImageData, fillWhite, hw0, hh0]

theorem stroke_undo_redo_is_post_stroke_witness :
    (redo (undo (pushHistory (paintStroke [255, 255, 255, 0]
        (initMaskFromImage fullHistoryState))))).maskCanvas
      = (paintStroke [255, 255, 255, 0] (initMaskFromImage fullHistoryState)).maskCanvas ∧
    (redo (undo (pushHistory (paintStroke [255, 255, 255, 0]
        (initMaskFromImage fullHistoryState))))).history.stack
      = [fillWhite 1 1, { width := 1, height := 1, data := [255, 255, 255, 0] }] ∧
    (redo (undo (pushHistory (paintStroke [255, 255, 255, 0]
        (initMaskFromImage fullHistoryState))))).history.redos = [] ∧
    (redo (undo (pushHistory (paintStroke [255, 255, 255, 0]
        (initMaskFromImage fullHistoryState))))).maskCanvas
      ≠ (initMaskFromImage fullHistoryState).maskCanvas :=
  have h := stroke_undo_redo_is_post_stroke fullHistoryState [255, 255, 255, 0] rfl
    (by decide) (by decide)
  ⟨h.1, h.2.1, h.2.2.1, h.2.2.2 (by decide)⟩

/-- Claim C4: for every history state with a subject loaded (and a non-empty
mask to snapshot), `pushHistory` leaves the redo sequence empty, whatever it
contained before. -/
theorem pushHistory_clears_redos (s : State) (hImg : s.hasImage = true)
    (hw : 0 < s.maskCanvas.width) (hh : 0 < s.maskCanvas.height) :
    (pushHistory s).history.redos = [] := by
  rw [pushHistory_of_loaded s hImg hw hh]

theorem pushHistory_clears_redos_witness :
    erasedThenUndone.history.redos ≠ [] ∧ (pushHistory erasedThenUndone).history.redos = [] :=
  ⟨by decide, pushHistory_clears_redos erasedThenUndone (by decide) (by decide) (by decide)⟩

end Cutout

/-! ## Layer compositor -/

namespace Layers

section SoloTheorems

variable {α : Type}

/-- In an association list with pairwise distinct keys, `lookup` finds the
value of every entry. -/
theorem lookup_of_mem_nodup (entries : List (String × Bool)) (id : String) (v : Bool)
    (hnd : (entries.map Prod.fst).Nodup) (hmem : (id, v) ∈ entries) :
    entries.lookup id = some v := by
  induction entries with
  | nil => simp at hmem
  | cons e rest ih =>
    obtain ⟨k, w⟩ := e
    rw [List.map_cons, List.nodup_cons] at hnd
    rcases List.mem_cons.mp hmem with h | h
    · cases h
      simp [List.lookup]
    · have hne : id ≠ k := by
        intro hk
        apply hnd.1
        rw [← hk]
        exact List.mem_map.mpr ⟨(id, v), h, rfl⟩
      have hb : (id == k) = false := by simpa using hne
      simp only [List.lookup, hb]
      exact ih hnd.2 h

/-- Claim C6: for every layer sequence (layer ids pairwise distinct, as the
data model has them) with arbitrary visibility flags and no solo active, and
every layer id `L`, `toggleSolo(L)` followed by `toggleSolo(L)` restores every
layer, in particular its `visible` flag, to its value before the first call and
leaves no solo id set. -/
theorem toggleSolo_twice_restores (layerId : String) (s : State α)
    (hsolo : s.soloLayerId = none)
    (hids : (s.layers.map fun layer => layer.id).Nodup) :
    (toggleSolo layerId (toggleSolo layerId s)).layers = s.layers ∧
    ((toggleSolo layerId (toggleSolo layerId s)).layers.map fun layer => layer.visible)
      = (s.layers.map fun layer => layer.visible) ∧
    (toggleSolo layerId (toggleSolo layerId s)).soloLayerId = none := by
  have hmain : (toggleSolo layerId (toggleSolo layerId s)).layers = s.layers ∧
      (toggleSolo layerId (toggleSolo layerId s)).soloLayerId = none := by
    by_cases hempty : layerId = ""
    · simp [toggleSolo, hempty, hsolo]
    · have hfirst : toggleSolo layerId s =
          { s with
            soloPrevVisibility := some (s.layers.map fun layer => (layer.id, layer.visible))
            soloLayerId := some layerId
            layers := s.layers.map fun layer => { layer with visible := layer.id == layerId } } := by
        simp [toggleSolo, hempty, hsolo, truthyId]
      rw [hfirst]
      have htruthy : truthyId (some layerId) = true := by simpa [truthyId] using hempty
      simp only [toggleSolo, if_neg hempty, if_true, clearSolo, htruthy, Bool.not_true,
        Bool.false_eq_true, if_false, and_true]
      rw [List.map_map]
      conv_rhs => rw [← List.map_id s.layers]
      apply List.map_congr_left
      intro layer hlayer
      have hlook :
          ((s.layers.map fun layer => (layer.id, layer.visible)).reverse).lookup layer.id
            = some layer.visible := by
        apply lookup_of_mem_nodup
        · rw [← List.map_reverse, List.map_map]
          have hfst : (Prod.fst ∘ fun layer : Layer α => (layer.id, layer.visible))
              = fun layer => layer.id := rfl
          rw [hfst, List.map_reverse]
          exact List.nodup_reverse.mpr hids
        · rw [List.mem_reverse]
          exact List.mem_map.mpr ⟨layer, hlayer, rfl⟩
      simp [hlook]
  exact ⟨hmain.1, by rw [hmain.1], hmain.2⟩

end SoloTheorems

theorem toggleSolo_twice_restores_witness :
    (threeLayerDoc ℚ).soloLayerId = none ∧
    ((threeLayerDoc ℚ).layers.map fun layer => layer.id).Nodup ∧
    ((toggleSolo "layer-2" (threeLayerDoc ℚ)).layers.map fun layer => layer.visible)
      = [false, true, false] ∧
    (toggleSolo "layer-2" (toggleSolo "layer-2" (threeLayerDoc ℚ))).layers
      = (threeLayerDoc ℚ).layers ∧
    ((toggleSolo "layer-2" (toggleSolo "layer-2" (threeLayerDoc ℚ))).layers.map
      fun layer => layer.visible) = [true, false, true] ∧
    (toggleSolo "layer-2" (toggleSolo "layer-2" (threeLayerDoc ℚ))).soloLayerId = none :=
  have h := toggleSolo_twice_restores "layer-2" (threeLayerDoc ℚ) rfl (by decide)
  ⟨rfl, by decide, by decide, h.1, h.2.1, h.2.2⟩

section ModelTheorems

variable {α : Type} [LinearOrderedField α]

/-- Claim C5: when the composition already holds 6 layers, `addLayerFromImage`
returns `false` and leaves the whole state unchanged: the layer sequence (its
length, entries and order), the active-layer id, the solo state and the id
counter, for every image and name. -/
theorem addLayerFromImage_at_limit (makeThumbDataUrl : ImageData → String) (image : ImageData)
    (name : String) (s : State α) (hfull : s.layers.length = 6) :
    addLayerFromImage makeThumbDataUrl image name s = (false, s) := by
  unfold addLayerFromImage canAddLayer
  simp [hfull, MAX_LAYERS]

/-- Claim C7: for every layer whose five tone parameters are all zero,
`rebuildLayerProcessed` sets `processedCanvas` to `null` (and changes nothing
else), so `getLayerRenderSource` returns `layer.image` itself. -/
theorem rebuildLayerProcessed_zero_tone [FloorRing α] (layer : Layer α)
    (hTemp : layer.wbTemp = 0) (hTint : layer.wbTint = 0) (hBright : layer.wbBright = 0)
    (hSat : layer.wbSat = 0) (hContrast : layer.wbContrast = 0) :
    rebuildLayerProcessed layer = some { layer with processedCanvas := none } ∧
    getLayerRenderSource { layer with processedCanvas := none } = layer.image := by
  have hno : hasWhiteBalanceAdjust layer = false := by
    simp [hasWhiteBalanceAdjust, jsOr, hTemp, hTint, hBright, hSat, hContrast]
  constructor
  · unfold rebuildLayerProcessed
    simp [hno]
  · rfl

end ModelTheorems

theorem addLayerFromImage_at_limit_witness :
    (sixLayerDoc ℚ).layers.length = 6 ∧
    addLayerFromImage (fun _ => "")
        { width := 1, height := 1, data := [0, 0, 0, 255] } "seventh" (sixLayerDoc ℚ)
      = (false, sixLayerDoc ℚ) :=
  ⟨rfl, addLayerFromImage_at_limit (fun _ => "")
    { width := 1, height := 1, data := [0, 0, 0, 255] } "seventh" (sixLayerDoc ℚ) rfl⟩

theorem rebuildLayerProcessed_zero_tone_witness :
    rebuildLayerProcessed { exampleLayer ℚ "layer-1" true with processedCanvas := some (fillWhite 1 1) }
      = some { exampleLayer ℚ "layer-1" true with processedCanvas := none } ∧
    getLayerRenderSource { exampleLayer ℚ "layer-1" true with processedCanvas := none }
      = { width := 1, height := 1, data := [255, 255, 255, 255] } :=
  rebuildLayerProcessed_zero_tone
    { exampleLayer ℚ "layer-1" true with processedCanvas := some (fillWhite 1 1) }
    rfl rfl rfl rfl rfl

/-- The quadratic mean of two non-negative reals lies between them. -/
theorem sqrt_mean_bounds (a b : ℝ) (ha : 0 ≤ a) (hb : 0 ≤ b) :
    min a b ≤ Real.sqrt ((a * a + b * b) / 2) ∧ Real.sqrt ((a * a + b * b) / 2) ≤ max a b := by
  constructor
  · apply Real.le_sqrt_of_sq_le
    rcases le_total a b with h | h
    · rw [min_eq_left h]
      nlinarith
    · rw [min_eq_right h]
      nlinarith
  · rw [Real.sqrt_le_iff]
    rcases le_total a b with h | h
    · rw [max_eq_right h]
      exact ⟨hb, by nlinarith⟩
    · rw [max_eq_left h]
      exact ⟨ha, by nlinarith⟩

/-- Claim C9, counterexample: on a square canvas with one layer at
`x = 10`, `y = 20`, the change to the 16:9 preset (`sx = 16/9`, `sy = 1`) does
not multiply `x`, `y` and `scale` by the geometric mean `sqrt (sx * sy)`: `x`
is multiplied by `16/9` and `y` by `1`. -/
theorem updateCanvasSize_not_geometric_mean :
    ¬ RescaledByGeometricMean Real.sqrt "landscape169" (squareDoc ℝ) := by
  intro h
  unfold RescaledByGeometricMean at h
  simp [updateCanvasSize, squareDoc, squareDocOf, exampleLayer, axisScaleX, axisScaleY, getDims,
    DOC_PRESETS, refreshWarnings] at h
  obtain ⟨h1, h2, _⟩ := h
  rw [h2] at h1
  norm_num at h1

/-- Claim C9, amended: when the canvas changes from `(oldW, oldH)` to
`(newW, newH)`, `updateCanvasSize` multiplies every layer's `x` by
`sx = newW / oldW` and its `y` by `sy = newH / oldH`, and multiplies every
layer's `scale` (and `baseScale`) by one factor `g`, the same for all layers,
which is a mean of the axis factors: `min sx sy ≤ g ≤ max sx sy`. -/
theorem updateCanvasSize_rescales_per_axis (ratio : String) (s : State ℝ) :
    ∃ g : ℝ,
      min (axisScaleX ratio s) (axisScaleY ratio s) ≤ g ∧
      g ≤ max (axisScaleX ratio s) (axisScaleY ratio s) ∧
      (updateCanvasSize Real.sqrt ratio s).layers =
        s.layers.map fun layer =>
          refreshWarnings
            { layer with
              x := layer.x * axisScaleX ratio s
              y := layer.y * axisScaleY ratio s
              scale := layer.scale * g
              baseScale := layer.baseScale * g } := by
  have hx : 0 ≤ axisScaleX ratio s := by
    unfold axisScaleX
    positivity
  have hy : 0 ≤ axisScaleY ratio s := by
    unfold axisScaleY
    positivity
  refine ⟨Real.sqrt ((axisScaleX ratio s * axisScaleX ratio s
      + axisScaleY ratio s * axisScaleY ratio s) / 2), ?_, ?_, ?_⟩
  · exact (sqrt_mean_bounds _ _ hx hy).1
  · exact (sqrt_mean_bounds _ _ hx hy).2
  · rfl

/-- Claim C10, the code at the failing input: from the square preset,
`setRatio("landscape169")` followed by `setRatio("square")` restores `x = 10`
and `y = 20` of the layer, but leaves its `scale` at `1080 * (337 / 288)`
instead of the original `1080`. -/
theorem setRatio_round_trip_scale_drift :
    ((squareDoc ℝ).layers.map fun layer => (layer.x, layer.y, layer.scale))
      = [(10, 20, 1080)] ∧
    ((setRatio Real.sqrt "square" (setRatio Real.sqrt "landscape169" (squareDoc ℝ))).layers.map
      fun layer => (layer.x, layer.y, layer.scale)) = [(10, 20, 1080 * (337 / 288))] ∧
    (1080 * (337 / 288) : ℝ) ≠ 1080 := by
  refine ⟨by simp [squareDoc, squareDocOf, exampleLayer], ?_, by norm_num⟩
  simp [setRatio, updateCanvasSize, squareDoc, squareDocOf, exampleLayer, getDims, DOC_PRESETS,
    refreshWarnings]
  refine ⟨by norm_num, ?_⟩
  have h2 : Real.sqrt 2 * Real.sqrt 2 = 2 := Real.mul_self_sqrt (by norm_num)
  have hp : Real.sqrt (1920 / 1080 * (1920 / 1080) + 1)
      * Real.sqrt (1080 / 1920 * (1080 / 1920) + 1) = 337 / 144 := by
    rw [← Real.sqrt_mul (by positivity)]
    have hsq : ((1920 / 1080 * (1920 / 1080) + 1) * (1080 / 1920 * (1080 / 1920) + 1) : ℝ)
        = (337 / 144) ^ 2 := by norm_num
    rw [hsq, Real.sqrt_sq (by norm_num)]
  rw [mul_assoc, div_mul_div_comm, hp, h2]
  norm_num

end Layers

/-! ## Numeric helpers -/

section NumericHelpers

variable {α : Type} [LinearOrderedField α]

theorem clamp_eq_self (v lo hi : α) (h1 : lo ≤ v) (h2 : v ≤ hi) : clamp v lo hi = v := by
  unfold clamp
  rw [min_eq_right h2, max_eq_right h1]

/-- `Math.round` of a number between two integers lies between them. -/
theorem mathRound_bounds [FloorRing α] (x : α) (lo hi : ℤ) (hlo : (lo : α) ≤ x)
    (hhi : x ≤ (hi : α)) : lo ≤ mathRound x ∧ mathRound x ≤ hi := by
  unfold mathRound
  constructor
  · rw [Int.le_floor]
    linarith
  · have h : ⌊x + 1 / 2⌋ < hi + 1 := by
      rw [Int.floor_lt]
      push_cast
      linarith
    omega

end NumericHelpers

namespace Cutout

section MatteTheorems

variable {α : Type} [LinearOrderedField α]

variable [FloorRing α]

theorem pushHistory_keeps (s : State) :
    (pushHistory s).maskCanvas = s.maskCanvas ∧ (pushHistory s).aiMaskAlpha = s.aiMaskAlpha ∧
    (pushHistory s).canvasWidth = s.canvasWidth ∧ (pushHistory s).canvasHeight = s.canvasHeight := by
  unfold pushHistory
  split
  · exact ⟨rfl, rfl, rfl, rfl⟩
  · split <;> exact ⟨rfl, rfl, rfl, rfl⟩

/-- With a cached matte that fits a non-empty canvas, `rebuildMaskFromAiAlpha`
returns `true`, paints exactly `aiMaskPixels` and keeps the matte. -/
theorem rebuild_result (pow : α → α → α) (strength : α) (resetHistory : Bool) (s : State)
    (matte : List Nat) (hmatte : s.aiMaskAlpha = some matte)
    (hsize : matte.length = s.canvasWidth * s.canvasHeight)
    (hw : 0 < s.canvasWidth) (hh : 0 < s.canvasHeight) :
    ∃ t, rebuildMaskFromAiAlpha pow strength resetHistory s = some (true, t) ∧
      t.maskCanvas.data = aiMaskPixels pow strength matte ∧
      t.aiMaskAlpha = some matte ∧
      t.canvasWidth = s.canvasWidth ∧ t.canvasHeight = s.canvasHeight := by
  have hcreate : createImageData s.canvasWidth s.canvasHeight
      = some { width := s.canvasWidth, height := s.canvasHeight,
               data := List.replicate (4 * s.canvasWidth * s.canvasHeight) 0 } := by
    unfold createImageData
    rw [if_neg (by omega)]
  unfold rebuildMaskFromAiAlpha
  rw [hmatte]
  simp only [hsize, ne_eq, not_true_eq_false, if_false, hcreate]
  cases resetHistory with
  | false =>
    simp only [Bool.false_eq_true, if_false]
    exact ⟨_, rfl, rfl, rfl, rfl, rfl⟩
  | true =>
    simp only [if_true]
    refine ⟨_, rfl, ?_, ?_, ?_, ?_⟩
    · rw [(pushHistory_keeps _).1]
      rfl
    · rw [(pushHistory_keeps _).2.1]
    · rw [(pushHistory_keeps _).2.2.1]
    · rw [(pushHistory_keeps _).2.2.2]

/-- Claim C14: `rebuildMaskFromAiAlpha` is deterministic and leaves the cached
matte alone. For a cached matte that fits the (non-empty) canvas, the call
succeeds from any two states `s1`, `s2` holding that matte, whatever their
previous mask, history and reset flag; the mask pixels are `aiMaskPixels` of
the matte and the strength only, so both runs give the same mask; the matte
`aiMaskAlpha` is unchanged; and applying another strength `earlier` first does
not change the mask obtained for `strength`. -/
theorem rebuildMask_depends_on_matte_and_strength (pow : α → α → α) (strength earlier : α)
    (reset1 reset2 reset0 : Bool) (s1 s2 : State) (matte : List Nat)
    (hmatte1 : s1.aiMaskAlpha = some matte) (hmatte2 : s2.aiMaskAlpha = some matte)
    (hsize1 : matte.length = s1.canvasWidth * s1.canvasHeight)
    (hsize2 : matte.length = s2.canvasWidth * s2.canvasHeight)
    (hw1 : 0 < s1.canvasWidth) (hh1 : 0 < s1.canvasHeight)
    (hw2 : 0 < s2.canvasWidth) (hh2 : 0 < s2.canvasHeight) :
    ∃ t1 t2 t0 t3,
      rebuildMaskFromAiAlpha pow strength reset1 s1 = some (true, t1) ∧
      rebuildMaskFromAiAlpha pow strength reset2 s2 = some (true, t2) ∧
      t1.maskCanvas.data = aiMaskPixels pow strength matte ∧
      t2.maskCanvas.data = t1.maskCanvas.data ∧
      t1.aiMaskAlpha = some matte ∧
      rebuildMaskFromAiAlpha pow earlier reset0 s1 = some (true, t0) ∧
      rebuildMaskFromAiAlpha pow strength reset1 t0 = some (true, t3) ∧
      t3.maskCanvas.data = t1.maskCanvas.data ∧
      t3.aiMaskAlpha = some matte := by
  obtain ⟨t1, h1, hd1, ha1, _, _⟩ :=
    rebuild_result pow strength reset1 s1 matte hmatte1 hsize1 hw1 hh1
  obtain ⟨t2, h2, hd2, _, _, _⟩ :=
    rebuild_result pow strength reset2 s2 matte hmatte2 hsize2 hw2 hh2
  obtain ⟨t0, h0, _, ha0, hcw0, hch0⟩ :=
    rebuild_result pow earlier reset0 s1 matte hmatte1 hsize1 hw1 hh1
  obtain ⟨t3, h3, hd3, ha3, _, _⟩ :=
    rebuild_result pow strength reset1 t0 matte ha0 (by rw [hcw0, hch0]; exact hsize1)
      (by rw [hcw0]; exact hw1) (by rw [hch0]; exact hh1)
  exact ⟨t1, t2, t0, t3, h1, h2, hd1, by rw [hd2, hd1], ha1, h0, h3, by rw [hd3, hd1], ha3⟩

end MatteTheorems

theorem rebuildMask_depends_on_matte_and_strength_witness :
    ∃ t1 t2 t0 t3,
      rebuildMaskFromAiAlpha Real.rpow 60 true { loadedPixel with aiMaskAlpha := some [128] }
        = some (true, t1) ∧
      rebuildMaskFromAiAlpha Real.rpow 60 false { fullHistoryState with aiMaskAlpha := some [128] }
        = some (true, t2) ∧
      t1.maskCanvas.data = aiMaskPixels Real.rpow 60 [128] ∧
      t2.maskCanvas.data = t1.maskCanvas.data ∧
      t1.aiMaskAlpha = some [128] ∧
      rebuildMaskFromAiAlpha Real.rpow 35 false { loadedPixel with aiMaskAlpha := some [128] }
        = some (true, t0) ∧
      rebuildMaskFromAiAlpha Real.rpow 60 true t0 = some (true, t3) ∧
      t3.maskCanvas.data = t1.maskCanvas.data ∧
      t3.aiMaskAlpha = some [128] :=
  rebuildMask_depends_on_matte_and_strength Real.rpow 60 35 true false false
    { loadedPixel with aiMaskAlpha := some [128] }
    { fullHistoryState with aiMaskAlpha := some [128] } [128] rfl rfl (by decide) (by decide)
    (by decide) (by decide) (by decide) (by decide)

end Cutout

/-! ## Sampled colour key -/

namespace Layers

section KeyBounds

variable {α : Type} [LinearOrderedField α]

end KeyBounds

section KeyAlphaTheorems

variable {α : Type} [LinearOrderedField α] [FloorRing α]

end KeyAlphaTheorems

/-! ### Concrete colours over the reals -/

end Layers

/-! ## Parallax export and layer creation -/

namespace Layers

section ParallaxTheorems

variable {α : Type} [LinearOrderedField α] [FloorRing α]

theorem layerDraw_mem_drawLayers (pi : α) (s : State α) (i : Nat) (layer : Layer α)
    (p intensity : α) (enabled : Bool) (motionType : String)
    (hlayer : s.layers[i]? = some layer) (hvis : layer.visible = true) :
    layerDraw pi s.canvasWidth s.canvasHeight (max 1 s.layers.length) p enabled motionType
      intensity i layer ∈ drawLayers pi p enabled motionType intensity s := by
  unfold drawLayers
  rw [List.mem_filterMap]
  refine ⟨(i, layer), List.mk_mem_enum_iff_getElem?.mpr hlayer, ?_⟩
  simp [hvis]

/-- Claim C17: for every visible layer at 0-based z-index `i` of `n` layers,
progress `p` and intensity in `[0.25, 1]`, `drawLayers` draws the layer with
the geometry of `layerDraw` at depth `(i + 1) / n`: under zoom the draw size is
source size times `layer.scale` times `1 + 0.16 * intensity * depth * p` with
the centre unchanged; under "panx" the centre moves in x by
`(2p - 1) * canvasWidth * 0.085 * intensity * depth` with y and size unchanged;
under "pany" it moves in y by `(2p - 1) * canvasHeight * 0.07 * intensity * depth`
with x and size unchanged; with parallax disabled size and centre are the plain
ones for every progress, motion type and intensity. -/
theorem drawLayers_parallax_geometry (pi : α) (s : State α) (i : Nat) (layer : Layer α)
    (p intensity : α) (hlayer : s.layers[i]? = some layer) (hvis : layer.visible = true)
    (hlo : 25 / 100 ≤ intensity) (hhi : intensity ≤ 1) :
    (∀ (enabled : Bool) (motionType : String),
      layerDraw pi s.canvasWidth s.canvasHeight (max 1 s.layers.length) p enabled motionType
        intensity i layer ∈ drawLayers pi p enabled motionType intensity s) ∧
    ((layerDraw pi s.canvasWidth s.canvasHeight (max 1 s.layers.length) p true "zoom" intensity
        i layer).drawW
      = ((getLayerRenderSource layer).width : α) * layer.scale
        * (1 + 16 / 100 * intensity * (((i : α) + 1) / (s.layers.length : α)) * p) ∧
     (layerDraw pi s.canvasWidth s.canvasHeight (max 1 s.layers.length) p true "zoom" intensity
        i layer).drawH
      = ((getLayerRenderSource layer).height : α) * layer.scale
        * (1 + 16 / 100 * intensity * (((i : α) + 1) / (s.layers.length : α)) * p) ∧
     (layerDraw pi s.canvasWidth s.canvasHeight (max 1 s.layers.length) p true "zoom" intensity
        i layer).cx = (s.canvasWidth : α) / 2 + layer.x ∧
     (layerDraw pi s.canvasWidth s.canvasHeight (max 1 s.layers.length) p true "zoom" intensity
        i layer).cy = (s.canvasHeight : α) / 2 + layer.y) ∧
    ((layerDraw pi s.canvasWidth s.canvasHeight (max 1 s.layers.length) p true "panx" intensity
        i layer).cx
      = (s.canvasWidth : α) / 2 + layer.x
        + (2 * p - 1) * (s.canvasWidth : α) * (85 / 1000) * intensity
          * (((i : α) + 1) / (s.layers.length : α)) ∧
     (layerDraw pi s.canvasWidth s.canvasHeight (max 1 s.layers.length) p true "panx" intensity
        i layer).cy = (s.canvasHeight : α) / 2 + layer.y ∧
     (layerDraw pi s.canvasWidth s.canvasHeight (max 1 s.layers.length) p true "panx" intensity
        i layer).drawW = ((getLayerRenderSource layer).width : α) * layer.scale ∧
     (layerDraw pi s.canvasWidth s.canvasHeight (max 1 s.layers.length) p true "panx" intensity
        i layer).drawH = ((getLayerRenderSource layer).height : α) * layer.scale) ∧
    ((layerDraw pi s.canvasWidth s.canvasHeight (max 1 s.layers.length) p true "pany" intensity
        i layer).cy
      = (s.canvasHeight : α) / 2 + layer.y
        + (2 * p - 1) * (s.canvasHeight : α) * (7 / 100) * intensity
          * (((i : α) + 1) / (s.layers.length : α)) ∧
     (layerDraw pi s.canvasWidth s.canvasHeight (max 1 s.layers.length) p true "pany" intensity
        i layer).cx = (s.canvasWidth : α) / 2 + layer.x ∧
     (layerDraw pi s.canvasWidth s.canvasHeight (max 1 s.layers.length) p true "pany" intensity
        i layer).drawW = ((getLayerRenderSource layer).width : α) * layer.scale ∧
     (layerDraw pi s.canvasWidth s.canvasHeight (max 1 s.layers.length) p true "pany" intensity
        i layer).drawH = ((getLayerRenderSource layer).height : α) * layer.scale) ∧
    (∀ (progress : α) (motionType : String) (anyIntensity : α),
      (layerDraw pi s.canvasWidth s.canvasHeight (max 1 s.layers.length) progress false motionType
          anyIntensity i layer).drawW = ((getLayerRenderSource layer).width : α) * layer.scale ∧
      (layerDraw pi s.canvasWidth s.canvasHeight (max 1 s.layers.length) progress false motionType
          anyIntensity i layer).drawH = ((getLayerRenderSource layer).height : α) * layer.scale ∧
      (layerDraw pi s.canvasWidth s.canvasHeight (max 1 s.layers.length) progress false motionType
          anyIntensity i layer).cx = (s.canvasWidth : α) / 2 + layer.x ∧
      (layerDraw pi s.canvasWidth s.canvasHeight (max 1 s.layers.length) progress false motionType
          anyIntensity i layer).cy = (s.canvasHeight : α) / 2 + layer.y) := by
  have hi : i < s.layers.length := by
    rcases Nat.lt_or_ge i s.layers.length with h | h
    · exact h
    · rw [List.getElem?_eq_none h] at hlayer
      cases hlayer
  have hn : max 1 s.layers.length = s.layers.length := max_eq_right (by omega)
  have hne : intensity ≠ 0 := by
    intro h0
    rw [h0] at hlo
    norm_num at hlo
  have hstr : clamp (jsOr intensity 1) (25 / 100) 1 = intensity := by
    rw [jsOr, if_neg hne]
    exact clamp_eq_self _ _ _ hlo hhi
  refine ⟨fun enabled motionType =>
    layerDraw_mem_drawLayers pi s i layer p intensity enabled motionType hlayer hvis, ?_, ?_, ?_, ?_⟩
  · simp only [layerDraw, hn, hstr, PARALLAX_MAX_SCALE]
    simp
  · have hz : ¬ ("panx" = "zoom") := by decide
    have hy : ¬ ("panx" = "pany") := by decide
    simp only [layerDraw, hn, hstr, PARALLAX_PAN_X, hz, hy, and_false, and_true, if_false,
      if_true, mul_one, add_zero, true_and]
    ring
  · have hz : ¬ ("pany" = "zoom") := by decide
    have hx : ¬ ("pany" = "panx") := by decide
    simp only [layerDraw, hn, hstr, PARALLAX_PAN_Y, hz, hx, and_false, and_true, if_false,
      if_true, mul_one, add_zero, true_and]
    ring
  · intro progress motionType anyIntensity
    simp [layerDraw]

end ParallaxTheorems

theorem drawLayers_parallax_geometry_witness :
    (threeLayerDoc ℚ).layers[2]? = some (exampleLayer ℚ "layer-3" true) ∧
    (layerDraw (0 : ℚ) 1080 1080 (max 1 (threeLayerDoc ℚ).layers.length) (1 / 2) true "zoom" 1 2
        (exampleLayer ℚ "layer-3" true)).drawW
      = ((getLayerRenderSource (exampleLayer ℚ "layer-3" true)).width : ℚ)
        * (exampleLayer ℚ "layer-3" true).scale
        * (1 + 16 / 100 * 1 * ((((2 : Nat) : ℚ) + 1) / ((threeLayerDoc ℚ).layers.length : ℚ))
          * (1 / 2)) :=
  ⟨rfl,
    (drawLayers_parallax_geometry (0 : ℚ) (threeLayerDoc ℚ) 2 (exampleLayer ℚ "layer-3" true)
      (1 / 2) 1 rfl rfl (by norm_num) (by norm_num)).2.1.1⟩

section AddLayerTheorems

variable {α : Type} [LinearOrderedField α]

end AddLayerTheorems

end Layers

/-! ## Layer list buttons -/

namespace Layers

section ButtonTheorems

variable {α : Type}

theorem find_first (pre rest : List (Layer α)) (layer : Layer α)
    (hpre : ∀ entry ∈ pre, entry.id ≠ layer.id) :
    (pre ++ layer :: rest).find? (fun entry => entry.id == layer.id) = some layer ∧
    (pre ++ layer :: rest).findIdx (fun entry => entry.id == layer.id) = pre.length := by
  induction pre with
  | nil => simp [List.findIdx_cons]
  | cons a pre ih =>
    have ha : (a.id == layer.id) = false := by
      simpa using hpre a (List.mem_cons_self _ _)
    have ih2 := ih (fun entry hmem => hpre entry (List.mem_cons_of_mem _ hmem))
    constructor
    · simp only [List.cons_append, List.find?_cons, ha]
      exact ih2.1
    · simp only [List.cons_append, List.findIdx_cons, ha, cond_false, List.length_cons]
      rw [ih2.2]

theorem ids_ne_of_nodup (pre rest : List (Layer α)) (layer : Layer α)
    (hids : ((pre ++ layer :: rest).map fun entry => entry.id).Nodup) :
    (∀ entry ∈ pre, entry.id ≠ layer.id) ∧ (∀ entry ∈ rest, entry.id ≠ layer.id) := by
  rw [List.map_append, List.map_cons, List.nodup_append] at hids
  obtain ⟨_, hcons, hdisj⟩ := hids
  rw [List.nodup_cons] at hcons
  constructor
  · intro entry hmem heq
    exact hdisj (List.mem_map.mpr ⟨entry, hmem, rfl⟩) (by rw [heq]; exact List.mem_cons_self _ _)
  · intro entry hmem heq
    exact hcons.1 (by rw [← heq]; exact List.mem_map.mpr ⟨entry, hmem, rfl⟩)

theorem set_swap (pre post : List (Layer α)) (a b x y : Layer α) :
    ((pre ++ a :: b :: post).set (pre.length + 1) x).set pre.length y = pre ++ y :: x :: post := by
  induction pre with
  | nil => rfl
  | cons c pre ih => simp only [List.cons_append, List.length_cons, List.set_cons_succ, ih]

theorem set_swap_down (pre post : List (Layer α)) (a b x y : Layer α) :
    ((pre ++ a :: b :: post).set pre.length x).set (pre.length + 1) y = pre ++ x :: y :: post := by
  induction pre with
  | nil => rfl
  | cons c pre ih => simp only [List.cons_append, List.length_cons, List.set_cons_succ, ih]

theorem getElemOpt_after (pre post : List (Layer α)) (a b : Layer α) :
    (pre ++ a :: b :: post)[pre.length + 1]? = some b := by
  induction pre with
  | nil => simp
  | cons c pre ih => simpa using ih

theorem getElemOpt_at (pre post : List (Layer α)) (a : Layer α) :
    (pre ++ a :: post)[pre.length]? = some a := by
  induction pre with
  | nil => simp
  | cons c pre ih => simpa using ih

theorem click_up_of_decomp (s : State α) (pre post : List (Layer α)) (layer above : Layer α)
    (hlayers : s.layers = pre ++ layer :: above :: post)
    (hpre : ∀ entry ∈ pre, entry.id ≠ layer.id) :
    layerButtonClick "up" layer.id s = { s with layers := pre ++ above :: layer :: post } := by
  have hf := find_first pre (above :: post) layer hpre
  unfold layerButtonClick layerById
  rw [hlayers, hf.1]
  simp only [hf.2, true_and, List.length_append, List.length_cons]
  rw [if_pos (by omega), getElemOpt_after]
  simp only [set_swap]

theorem click_down_of_decomp (s : State α) (pre post : List (Layer α)) (layer below : Layer α)
    (hlayers : s.layers = pre ++ below :: layer :: post)
    (hpre : ∀ entry ∈ pre, entry.id ≠ layer.id) (hbelow : below.id ≠ layer.id) :
    layerButtonClick "down" layer.id s = { s with layers := pre ++ layer :: below :: post } := by
  have hf := find_first (pre ++ [below]) post layer (by
    intro entry hmem
    rcases List.mem_append.mp hmem with h | h
    · exact hpre entry h
    · rw [List.mem_singleton.mp h]
      exact hbelow)
  have hl : pre ++ below :: layer :: post = (pre ++ [below]) ++ layer :: post := by simp
  unfold layerButtonClick layerById
  rw [hlayers, hl, hf.1]
  simp only [hf.2]
  have hup : ¬ ("down" = "up") := by decide
  simp only [hup, false_and, if_false, true_and, List.length_append, List.length_singleton]
  rw [if_pos (by omega)]
  simp only [Nat.add_sub_cancel]
  rw [← hl, getElemOpt_at]
  simp only [set_swap_down]

/-- Claim C19, amended: with pairwise distinct layer ids, 'up' on a layer that
has an entry above it exchanges the two adjacent entries and 'down' on a layer
that has an entry below it exchanges those two, every other entry staying in
place; 'up' at the top and 'down' at the bottom leave the state unchanged; the
result is a permutation of the original sequence; and 'up' followed by 'down'
on the same layer restores the original state when the layer was not at the
top. -/
theorem reorder_swaps_adjacent (s : State α) (pre post : List (Layer α)) (layer other : Layer α)
    (hids : (s.layers.map fun entry => entry.id).Nodup) :
    (s.layers = pre ++ layer :: other :: post →
      layerButtonClick "up" layer.id s = { s with layers := pre ++ other :: layer :: post } ∧
      (layerButtonClick "up" layer.id s).layers.Perm s.layers ∧
      layerButtonClick "down" layer.id (layerButtonClick "up" layer.id s) = s) ∧
    (s.layers = pre ++ other :: layer :: post →
      layerButtonClick "down" layer.id s = { s with layers := pre ++ layer :: other :: post } ∧
      (layerButtonClick "down" layer.id s).layers.Perm s.layers) ∧
    (s.layers = pre ++ [layer] → layerButtonClick "up" layer.id s = s) ∧
    (s.layers = layer :: post → layerButtonClick "down" layer.id s = s) := by
  refine ⟨?_, ?_, ?_, ?_⟩
  · intro hlayers
    rw [hlayers] at hids
    have hne := ids_ne_of_nodup pre (other :: post) layer hids
    have hother : other.id ≠ layer.id := hne.2 other (List.mem_cons_self _ _)
    have hup := click_up_of_decomp s pre post layer other hlayers hne.1
    refine ⟨hup, ?_, ?_⟩
    · rw [hup, hlayers]
      exact List.Perm.append_left pre (List.Perm.swap _ _ _)
    · rw [hup]
      rw [click_down_of_decomp _ pre post layer other rfl hne.1 hother, ← hlayers]
  · intro hlayers
    rw [hlayers] at hids
    have hl : pre ++ other :: layer :: post = (pre ++ [other]) ++ layer :: post := by simp
    rw [hl] at hids
    have hne := ids_ne_of_nodup (pre ++ [other]) post layer hids
    have hpre : ∀ entry ∈ pre, entry.id ≠ layer.id :=
      fun entry hmem => hne.1 entry (List.mem_append_left _ hmem)
    have hother : other.id ≠ layer.id :=
      hne.1 other (List.mem_append_right _ (List.mem_singleton_self _))
    have hdown := click_down_of_decomp s pre post layer other hlayers hpre hother
    refine ⟨hdown, ?_⟩
    rw [hdown, hlayers]
    exact List.Perm.append_left pre (List.Perm.swap _ _ _)
  · intro hlayers
    rw [hlayers] at hids
    have hne := ids_ne_of_nodup pre [] layer hids
    have hf := find_first pre [] layer hne.1
    unfold layerButtonClick layerById
    rw [hlayers, hf.1]
    simp only [hf.2, List.length_append, List.length_singleton, Nat.lt_irrefl, and_false,
      if_false]
    have h1 : ¬ ("up" = "down") := by decide
    have h2 : ¬ ("up" = "hide") := by decide
    have h3 : ¬ ("up" = "solo") := by decide
    have h4 : ¬ ("up" = "delete") := by decide
    simp only [h1, h2, h3, h4, false_and, if_false]
  · intro hlayers
    have hf := find_first [] post layer (by simp)
    unfold layerButtonClick layerById
    rw [hlayers]
    simp only [List.nil_append] at hf
    rw [hf.1]
    simp only [hf.2, List.length_nil, Nat.lt_irrefl, and_false, if_false]
    have h1 : ¬ ("down" = "up") := by decide
    have h2 : ¬ ("down" = "hide") := by decide
    have h3 : ¬ ("down" = "solo") := by decide
    have h4 : ¬ ("down" = "delete") := by decide
    simp only [h1, h2, h3, h4, false_and, if_false, gt_iff_lt]

/-- The layers after `clearSolo`: the same entries, with at most the `visible`
flag changed by a function that keeps every other field. -/
theorem clearSolo_layers (restore : Bool) (s : State α) :
    ∃ g : Layer α → Layer α,
      (∀ entry, g entry = { entry with visible := (g entry).visible }) ∧
      (clearSolo restore s).layers = s.layers.map g ∧
      (clearSolo restore s).activeLayerId = s.activeLayerId := by
  unfold clearSolo
  by_cases ht : truthyId s.soloLayerId = true
  · simp only [ht, Bool.not_true, Bool.false_eq_true, if_false]
    cases restore with
    | false => exact ⟨id, fun _ => rfl, by simp, trivial⟩
    | true =>
      cases hp : s.soloPrevVisibility with
      | none => exact ⟨id, fun _ => rfl, by simp, trivial⟩
      | some prev =>
        refine ⟨fun layer =>
          match prev.reverse.lookup layer.id with
          | some visible => { layer with visible := visible }
          | none => layer, ?_, rfl, trivial⟩
        intro entry
        dsimp only
        cases prev.reverse.lookup entry.id <;> rfl
  · simp only [ht, Bool.not_false, if_true]
    exact ⟨id, fun _ => rfl, by simp, trivial⟩

theorem filter_remove (pre post : List (Layer α)) (layer : Layer α)
    (hids : ((pre ++ layer :: post).map fun entry => entry.id).Nodup) :
    (pre ++ layer :: post).filter (fun entry => entry.id != layer.id) = pre ++ post := by
  have hne := ids_ne_of_nodup pre post layer hids
  rw [List.filter_append, List.filter_cons]
  have h1 : pre.filter (fun entry => entry.id != layer.id) = pre := by
    rw [List.filter_eq_self]
    intro entry hmem
    simpa using hne.1 entry hmem
  have h2 : post.filter (fun entry => entry.id != layer.id) = post := by
    rw [List.filter_eq_self]
    intro entry hmem
    simpa using hne.2 entry hmem
  rw [h1, h2]
  simp

theorem click_delete_eq (s : State α) (pre post : List (Layer α)) (layer : Layer α)
    (hlayers : s.layers = pre ++ layer :: post)
    (hpre : ∀ entry ∈ pre, entry.id ≠ layer.id) :
    layerButtonClick "delete" layer.id s =
      { (if s.soloLayerId = some layer.id then clearSolo true s else s) with
        layers := (if s.soloLayerId = some layer.id then clearSolo true s else s).layers.filter
          fun entry => entry.id != layer.id
        activeLayerId :=
          if (if s.soloLayerId = some layer.id then clearSolo true s else s).activeLayerId
              = some layer.id then
            match ((if s.soloLayerId = some layer.id then clearSolo true s else s).layers.filter
              fun entry => entry.id != layer.id).getLast? with
            | none => none
            | some top => if top.id = "" then none else some top.id
          else (if s.soloLayerId = some layer.id then clearSolo true s else s).activeLayerId } := by
  have hf := find_first pre post layer hpre
  unfold layerButtonClick layerById
  rw [hlayers, hf.1]
  have h1 : ¬ ("delete" = "up") := by decide
  have h2 : ¬ ("delete" = "down") := by decide
  have h3 : ¬ ("delete" = "hide") := by decide
  have h4 : ¬ ("delete" = "solo") := by decide
  simp only [h1, h2, h3, h4, false_and, if_false, if_true]

/-- Claim C20: with pairwise distinct non-empty layer ids, deleting a layer of
the sequence `pre ++ layer :: post` leaves the entries of `pre ++ post` in that
order, each unchanged except possibly for its `visible` flag (unchanged too
when the deleted layer was not the soloed one, in which case the solo state is
kept); if the deleted layer was the soloed one, the solo state is cleared and
every remaining layer recorded in the pre-solo visibility map has its recorded
visibility; if the deleted layer was the active one, the active layer becomes
the last layer of the new sequence, or none when it is empty; otherwise the
active layer is unchanged. -/
theorem delete_removes_layer (s : State α) (pre post : List (Layer α)) (layer : Layer α)
    (hlayers : s.layers = pre ++ layer :: post)
    (hids : (s.layers.map fun entry => entry.id).Nodup)
    (hnonempty : ∀ entry ∈ s.layers, entry.id ≠ "") :
    List.Forall₂ (fun old new : Layer α => new = { old with visible := new.visible })
      (pre ++ post) (layerButtonClick "delete" layer.id s).layers ∧
    (s.soloLayerId ≠ some layer.id →
      (layerButtonClick "delete" layer.id s).layers = pre ++ post ∧
      (layerButtonClick "delete" layer.id s).soloLayerId = s.soloLayerId ∧
      (layerButtonClick "delete" layer.id s).soloPrevVisibility = s.soloPrevVisibility) ∧
    (s.soloLayerId = some layer.id →
      (layerButtonClick "delete" layer.id s).soloLayerId = none ∧
      (layerButtonClick "delete" layer.id s).soloPrevVisibility = none ∧
      ∀ prev, s.soloPrevVisibility = some prev → (prev.map Prod.fst).Nodup →
        ∀ entry ∈ (layerButtonClick "delete" layer.id s).layers, ∀ v,
          (entry.id, v) ∈ prev → entry.visible = v) ∧
    (s.activeLayerId = some layer.id →
      (layerButtonClick "delete" layer.id s).activeLayerId
        = ((layerButtonClick "delete" layer.id s).layers.getLast?).map fun top => top.id) ∧
    (s.activeLayerId ≠ some layer.id →
      (layerButtonClick "delete" layer.id s).activeLayerId = s.activeLayerId) := by
  have hids2 := hids
  rw [hlayers] at hids2
  have hne := ids_ne_of_nodup pre post layer hids2
  have hdel := click_delete_eq s pre post layer hlayers hne.1
  obtain ⟨g, hg, hgl, hga⟩ := clearSolo_layers true s
  have hgid : ∀ entry, (g entry).id = entry.id := fun entry => by rw [hg entry]
  -- the layers and the active id after the optional `clearSolo`
  have hs1 : ∃ f : Layer α → Layer α,
      (∀ entry, f entry = { entry with visible := (f entry).visible }) ∧
      (if s.soloLayerId = some layer.id then clearSolo true s else s).layers = s.layers.map f ∧
      (if s.soloLayerId = some layer.id then clearSolo true s else s).activeLayerId
        = s.activeLayerId := by
    by_cases hsolo : s.soloLayerId = some layer.id
    · rw [if_pos hsolo]
      exact ⟨g, hg, hgl, hga⟩
    · rw [if_neg hsolo]
      exact ⟨id, fun _ => rfl, by simp, rfl⟩
  obtain ⟨f, hf, hfl, hfa⟩ := hs1
  have hfid : ∀ entry, (f entry).id = entry.id := fun entry => by rw [hf entry]
  have hfilter : (if s.soloLayerId = some layer.id then clearSolo true s else s).layers.filter
      (fun entry => entry.id != layer.id) = (pre ++ post).map f := by
    rw [hfl, List.filter_map]
    have hcomp : ((fun entry : Layer α => entry.id != layer.id) ∘ f)
        = fun entry => entry.id != layer.id := by
      funext entry
      simp [hfid]
    rw [hcomp, hlayers, filter_remove pre post layer hids2]
  have hlayers2 : (layerButtonClick "delete" layer.id s).layers = (pre ++ post).map f := by
    rw [hdel]
    exact hfilter
  have hactive : (layerButtonClick "delete" layer.id s).activeLayerId =
      if s.activeLayerId = some layer.id then
        match ((pre ++ post).map f).getLast? with
        | none => none
        | some top => if top.id = "" then none else some top.id
      else s.activeLayerId := by
    rw [hdel]
    simp only [hfa, hfilter]
  refine ⟨?_, ?_, ?_, ?_, ?_⟩
  · rw [hlayers2]
    rw [List.forall₂_map_right_iff]
    exact List.forall₂_same.mpr (fun entry _ => hf entry)
  · intro hsolo
    rw [hdel]
    simp only [if_neg hsolo]
    rw [hlayers, filter_remove pre post layer hids2]
    exact ⟨rfl, trivial, trivial⟩
  · intro hsolo
    have hid : layer.id ≠ "" := hnonempty layer (by rw [hlayers]; simp)
    have htruthy : truthyId s.soloLayerId = true := by
      rw [hsolo]
      simpa [truthyId] using hid
    have hclear : (clearSolo true s).soloLayerId = none ∧
        (clearSolo true s).soloPrevVisibility = none := by
      unfold clearSolo
      simp [htruthy]
    refine ⟨?_, ?_, ?_⟩
    · rw [hdel]
      simp only [if_pos hsolo]
      exact hclear.1
    · rw [hdel]
      simp only [if_pos hsolo]
      exact hclear.2
    · intro prev hprev hnd entry hmem v hv
      rw [hdel] at hmem
      simp only [if_pos hsolo] at hmem
      have hmem2 := (List.mem_filter.mp hmem).1
      have hcl : (clearSolo true s).layers = s.layers.map fun layer =>
          match prev.reverse.lookup layer.id with
          | some visible => { layer with visible := visible }
          | none => layer := by
        unfold clearSolo
        simp [htruthy, hprev]
      rw [hcl] at hmem2
      obtain ⟨old, _, hold⟩ := List.mem_map.mp hmem2
      have hid2 : entry.id = old.id := by
        rw [← hold]
        cases prev.reverse.lookup old.id <;> rfl
      have hfound : prev.reverse.lookup old.id = some v := by
        apply lookup_of_mem_nodup
        · rw [List.map_reverse]
          exact List.nodup_reverse.mpr hnd
        · rw [List.mem_reverse, ← hid2]
          exact hv
      rw [← hold, hfound]
  · intro hact
    rw [hactive, if_pos hact, hlayers2]
    cases hlast : ((pre ++ post).map f).getLast? with
    | none => rfl
    | some top =>
      have htop : top ∈ (pre ++ post).map f := List.mem_of_getLast?_eq_some hlast
      obtain ⟨old, hold, hmap⟩ := List.mem_map.mp htop
      have holdmem : old ∈ s.layers := by
        rw [hlayers]
        rcases List.mem_append.mp hold with h | h
        · exact List.mem_append_left _ h
        · exact List.mem_append_right _ (List.mem_cons_of_mem _ h)
      have hne2 : top.id ≠ "" := by
        rw [← hmap, hfid]
        exact hnonempty old holdmem
      simp [hne2]
  · intro hact
    rw [hactive, if_neg hact]

end ButtonTheorems

/-- Claim C19, counterexample: in a three-layer composition 'up' on the top
layer changes nothing and the following 'down' on the same layer moves it below
the middle layer, so 'up' then 'down' does not restore the original order. -/
theorem up_then_down_at_top_moves_layer :
    ((threeLayerDoc ℚ).layers.map fun layer => layer.id) = ["layer-1", "layer-2", "layer-3"] ∧
    ((layerButtonClick "up" "layer-3" (threeLayerDoc ℚ)).layers.map fun layer => layer.id)
      = ["layer-1", "layer-2", "layer-3"] ∧
    ((layerButtonClick "down" "layer-3"
        (layerButtonClick "up" "layer-3" (threeLayerDoc ℚ))).layers.map fun layer => layer.id)
      = ["layer-1", "layer-3", "layer-2"] := by
  decide

theorem reorder_swaps_adjacent_witness :
    ((threeLayerDoc ℚ).layers.map fun entry => entry.id).Nodup ∧
    (layerButtonClick "up" (exampleLayer ℚ "layer-2" false).id (threeLayerDoc ℚ)).layers
      = [exampleLayer ℚ "layer-1" true, exampleLayer ℚ "layer-3" true,
          exampleLayer ℚ "layer-2" false] ∧
    layerButtonClick "down" (exampleLayer ℚ "layer-2" false).id
      (layerButtonClick "up" (exampleLayer ℚ "layer-2" false).id (threeLayerDoc ℚ))
      = threeLayerDoc ℚ ∧
    (layerButtonClick "down" (exampleLayer ℚ "layer-2" false).id (threeLayerDoc ℚ)).layers
      = [exampleLayer ℚ "layer-2" false, exampleLayer ℚ "layer-1" true,
          exampleLayer ℚ "layer-3" true] ∧
    layerButtonClick "up" (exampleLayer ℚ "layer-3" true).id (threeLayerDoc ℚ)
      = threeLayerDoc ℚ ∧
    layerButtonClick "down" (exampleLayer ℚ "layer-1" true).id (threeLayerDoc ℚ)
      = threeLayerDoc ℚ :=
  have hup := (reorder_swaps_adjacent (threeLayerDoc ℚ) [exampleLayer ℚ "layer-1" true] []
    (exampleLayer ℚ "layer-2" false) (exampleLayer ℚ "layer-3" true) (by decide)).1 rfl
  have hdown := (reorder_swaps_adjacent (threeLayerDoc ℚ) [] [exampleLayer ℚ "layer-3" true]
    (exampleLayer ℚ "layer-2" false) (exampleLayer ℚ "layer-1" true) (by decide)).2.1 rfl
  have htop := (reorder_swaps_adjacent (threeLayerDoc ℚ)
    [exampleLayer ℚ "layer-1" true, exampleLayer ℚ "layer-2" false] []
    (exampleLayer ℚ "layer-3" true) (exampleLayer ℚ "layer-3" true) (by decide)).2.2.1 rfl
  have hbottom := (reorder_swaps_adjacent (threeLayerDoc ℚ) []
    [exampleLayer ℚ "layer-2" false, exampleLayer ℚ "layer-3" true]
    (exampleLayer ℚ "layer-1" true) (exampleLayer ℚ "layer-1" true) (by decide)).2.2.2 rfl
  ⟨by decide, congrArg (fun st : State ℚ => st.layers) hup.1, hup.2.2,
    congrArg (fun st : State ℚ => st.layers) hdown.1, htop, hbottom⟩

theorem delete_removes_layer_witness :
    ((layerButtonClick "delete" (exampleLayer ℚ "layer-3" true).id (threeLayerDoc ℚ)).layers
        = [exampleLayer ℚ "layer-1" true, exampleLayer ℚ "layer-2" false] ∧
      (layerButtonClick "delete" (exampleLayer ℚ "layer-3" true).id (threeLayerDoc ℚ)).activeLayerId
        = ((layerButtonClick "delete" (exampleLayer ℚ "layer-3" true).id
            (threeLayerDoc ℚ)).layers.getLast?).map fun top => top.id) ∧
    ((layerButtonClick "delete" (exampleLayer ℚ "layer-2" true).id
        (toggleSolo "layer-2" (threeLayerDoc ℚ))).soloLayerId = none ∧
      (layerButtonClick "delete" (exampleLayer ℚ "layer-2" true).id
        (toggleSolo "layer-2" (threeLayerDoc ℚ))).activeLayerId = some "layer-3") :=
  have h1 := delete_removes_layer (threeLayerDoc ℚ)
    [exampleLayer ℚ "layer-1" true, exampleLayer ℚ "layer-2" false] []
    (exampleLayer ℚ "layer-3" true) rfl (by decide) (by decide)
  have h2 := delete_removes_layer (toggleSolo "layer-2" (threeLayerDoc ℚ))
    [exampleLayer ℚ "layer-1" false] [exampleLayer ℚ "layer-3" false]
    (exampleLayer ℚ "layer-2" true) (by decide) (by decide) (by decide)
  ⟨⟨(h1.2.1 (by decide)).1, h1.2.2.2.1 rfl⟩,
    ⟨(h2.2.2.1 (by decide)).1, h2.2.2.2.2 (by decide)⟩⟩

end Layers

/-! ## Loading, strokes and background removal -/

namespace Cutout

theorem fit_thin_image : fitImageDimensions (1 : ℚ) 2000 1400 900 = (0, 900) := by
  simp [fitImageDimensions, mathRound]
  norm_num [Int.floor_eq_iff]

theorem setImage_thin_image :
    setImage 1 2000 State.initial =
      { State.initial with
        hasImage := true
        canvasWidth := 0
        canvasHeight := 900
        maskCanvas := fillWhite 0 900 } := by
  have hfit : fitImageDimensions (((1 : Nat) : ℚ)) (((2000 : Nat) : ℚ)) 1400 900 = (0, 900) := by
    have h := fit_thin_image
    norm_num at h ⊢
    exact h
  unfold setImage
  rw [if_neg (by decide), hfit]
  decide

/-- Claim C28, failing input: for an image of 1 × 2000 pixels the fit ratio is
`0.45`, `Math.round(0.45)` is 0, and `fitImageDimensions` returns `(0, 900)`;
`setImage` then sizes the working canvas and the mask to width 0, so both are
empty. -/
theorem fitImageDimensions_thin_image_zero_width :
    fitImageDimensions (1 : ℚ) 2000 1400 900 = (0, 900) ∧
    (setImage 1 2000 State.initial).canvasWidth = 0 ∧
    (setImage 1 2000 State.initial).maskCanvas.width = 0 ∧
    (setImage 1 2000 State.initial).maskCanvas.data = [] := by
  refine ⟨fit_thin_image, ?_, ?_, ?_⟩
  · rw [setImage_thin_image]
  · rw [setImage_thin_image]
    rfl
  · rw [setImage_thin_image]
    rfl

/-- Claim C27, failing input: after `setImage` with an image of 1 × 2000 pixels
a subject is loaded and the history stack is empty, because the canvas has
width 0 and the snapshot read in `pushHistory` throws; `pushHistory` and
`resetMask` leave it empty. -/
theorem setImage_thin_image_empty_history :
    (setImage 1 2000 State.initial).hasImage = true ∧
    (setImage 1 2000 State.initial).history.stack = [] ∧
    (applyOps (fun _ _ : ℚ => 0) [HistoryOp.pushHistory, HistoryOp.resetMask]
      (setImage 1 2000 State.initial)).history.stack = [] := by
  rw [setImage_thin_image]
  decide

section FitTheorems

variable {α : Type} [LinearOrderedField α] [FloorRing α]

/-- The fitted dimensions never exceed the image or the limits; only the lower
bound `1` can fail. -/
theorem fitImageDimensions_upper (imgWidth imgHeight : Nat) (hw : 0 < imgWidth)
    (hh : 0 < imgHeight) :
    0 ≤ (fitImageDimensions (imgWidth : α) (imgHeight : α) 1400 900).1 ∧
    (fitImageDimensions (imgWidth : α) (imgHeight : α) 1400 900).1 ≤ min (imgWidth : ℤ) 1400 ∧
    0 ≤ (fitImageDimensions (imgWidth : α) (imgHeight : α) 1400 900).2 ∧
    (fitImageDimensions (imgWidth : α) (imgHeight : α) 1400 900).2 ≤ min (imgHeight : ℤ) 900 := by
  unfold fitImageDimensions
  dsimp only
  have hwpos : (0 : α) < (imgWidth : α) := by exact_mod_cast hw
  have hhpos : (0 : α) < (imgHeight : α) := by exact_mod_cast hh
  have hr0 : (0 : α) ≤ min (min (1400 / (imgWidth : α)) (900 / (imgHeight : α))) 1 :=
    le_min (le_min (by positivity) (by positivity)) (by norm_num)
  have hr1 : min (min (1400 / (imgWidth : α)) (900 / (imgHeight : α))) 1 ≤ 1 := min_le_right _ _
  have hrw : min (min (1400 / (imgWidth : α)) (900 / (imgHeight : α))) 1 ≤ 1400 / (imgWidth : α) :=
    le_trans (min_le_left _ _) (min_le_left _ _)
  have hrh : min (min (1400 / (imgWidth : α)) (900 / (imgHeight : α))) 1 ≤ 900 / (imgHeight : α) :=
    le_trans (min_le_left _ _) (min_le_right _ _)
  generalize min (min (1400 / (imgWidth : α)) (900 / (imgHeight : α))) 1 = ratio at hr0 hr1 hrw hrh ⊢
  have hw1400 : (imgWidth : α) * ratio ≤ 1400 := by
    have := mul_le_mul_of_nonneg_left hrw (le_of_lt hwpos)
    rwa [mul_div_cancel₀ _ (ne_of_gt hwpos)] at this
  have hh900 : (imgHeight : α) * ratio ≤ 900 := by
    have := mul_le_mul_of_nonneg_left hrh (le_of_lt hhpos)
    rwa [mul_div_cancel₀ _ (ne_of_gt hhpos)] at this
  have hwW : (imgWidth : α) * ratio ≤ (imgWidth : α) := by nlinarith
  have hhH : (imgHeight : α) * ratio ≤ (imgHeight : α) := by nlinarith
  have bw := mathRound_bounds ((imgWidth : α) * ratio) 0 (min (imgWidth : ℤ) 1400)
    (by push_cast; positivity) (by push_cast; exact le_min hwW hw1400)
  have bh := mathRound_bounds ((imgHeight : α) * ratio) 0 (min (imgHeight : ℤ) 900)
    (by push_cast; positivity) (by push_cast; exact le_min hhH hh900)
  exact ⟨bw.1, bw.2, bh.1, bh.2⟩

end FitTheorems

section HistoryInvariant

variable {α : Type} [LinearOrderedField α] [FloorRing α]

/-- On a loaded subject with a non-empty canvas `initMaskFromImage` leaves one
snapshot: the opaque white mask. -/
theorem initMaskFromImage_of_loaded (s : State) (hImg : s.hasImage = true)
    (hw : 0 < s.canvasWidth) (hh : 0 < s.canvasHeight) :
    initMaskFromImage s =
      { s with
        maskCanvas := fillWhite s.canvasWidth s.canvasHeight
        aiMaskAlpha := none
        history := { stack := [fillWhite s.canvasWidth s.canvasHeight], redos := [] } } := by
  have hpush := pushHistory_of_loaded
    { s with
      maskCanvas := fillWhite s.canvasWidth s.canvasHeight
      aiMaskAlpha := none
      history := { stack := [], redos := [] } }
    hImg (by simpa [fillWhite] using hw) (by simpa [fillWhite] using hh)
  unfold initMaskFromImage
  dsimp only
  rw [hpush]
  simp

/-- After the history was emptied, `pushHistory` on a loaded subject with a
non-empty mask leaves one snapshot and keeps everything else. -/
theorem pushHistory_fresh (t : State) (hImg : t.hasImage = true) (hcw : 0 < t.canvasWidth)
    (hch : 0 < t.canvasHeight) (hw : 0 < t.maskCanvas.width) (hh : 0 < t.maskCanvas.height)
    (hempty : t.history.stack = []) :
    (pushHistory t).hasImage = true ∧ 0 < (pushHistory t).canvasWidth ∧
    0 < (pushHistory t).canvasHeight ∧ 0 < (pushHistory t).maskCanvas.width ∧
    0 < (pushHistory t).maskCanvas.height ∧ 1 ≤ (pushHistory t).history.stack.length := by
  rw [pushHistory_of_loaded t hImg hw hh, hempty]
  exact ⟨hImg, hcw, hch, hw, hh, by simp⟩

/-- The facts that every operation on a loaded subject keeps: a subject is
loaded, canvas and mask are non-empty, the stack holds a snapshot. -/
theorem applyOp_keeps_snapshot (pow : α → α → α) (op : HistoryOp α) (s : State)
    (hImg : s.hasImage = true) (hcw : 0 < s.canvasWidth) (hch : 0 < s.canvasHeight)
    (hw : 0 < s.maskCanvas.width) (hh : 0 < s.maskCanvas.height)
    (hstack : 1 ≤ s.history.stack.length) :
    (applyOp pow op s).hasImage = true ∧ 0 < (applyOp pow op s).canvasWidth ∧
    0 < (applyOp pow op s).canvasHeight ∧ 0 < (applyOp pow op s).maskCanvas.width ∧
    0 < (applyOp pow op s).maskCanvas.height ∧ 1 ≤ (applyOp pow op s).history.stack.length := by
  have hcreate : createImageData s.canvasWidth s.canvasHeight
      = some { width := s.canvasWidth, height := s.canvasHeight,
               data := List.replicate (4 * s.canvasWidth * s.canvasHeight) 0 } := by
    unfold createImageData
    rw [if_neg (by omega)]
  cases op with
  | pushHistory =>
    simp only [applyOp]
    rw [pushHistory_of_loaded s hImg hw hh]
    refine ⟨hImg, hcw, hch, hw, hh, ?_⟩
    dsimp only
    split
    · simp only [List.length_tail, List.length_append, List.length_singleton]
      omega
    · simp
  | undo =>
    simp only [applyOp]
    by_cases hlen : s.history.stack.length ≤ 1
    · unfold undo
      rw [if_pos hlen]
      exact ⟨hImg, hcw, hch, hw, hh, hstack⟩
    · obtain ⟨prev, _, hundo⟩ := undo_of_two s (by omega) hw hh
      rw [hundo]
      refine ⟨hImg, hcw, hch, hw, hh, ?_⟩
      simp only [List.length_dropLast]
      omega
  | redo =>
    simp only [applyOp]
    unfold redo
    cases s.history.redos.getLast? with
    | none => exact ⟨hImg, hcw, hch, hw, hh, hstack⟩
    | some redoImg =>
      refine ⟨hImg, hcw, hch, hw, hh, ?_⟩
      simp
  | resetMask =>
    simp only [applyOp]
    unfold resetMask
    simp only [hImg, Bool.not_true, Bool.false_eq_true, if_false]
    rw [initMaskFromImage_of_loaded s hImg hcw hch]
    exact ⟨hImg, hcw, hch, hcw, hch, by simp⟩
  | rebuildMaskFromAiAlpha aiStrength resetHistory =>
    simp only [applyOp]
    cases hres : rebuildMaskFromAiAlpha pow aiStrength resetHistory s with
    | none => exact ⟨hImg, hcw, hch, hw, hh, hstack⟩
    | some result =>
      dsimp only
      unfold rebuildMaskFromAiAlpha at hres
      cases hmatte : s.aiMaskAlpha with
      | none =>
        rw [hmatte] at hres
        cases hres
        exact ⟨hImg, hcw, hch, hw, hh, hstack⟩
      | some matte =>
        rw [hmatte] at hres
        dsimp only at hres
        by_cases hsize : matte.length ≠ s.canvasWidth * s.canvasHeight
        · rw [if_pos hsize] at hres
          cases hres
          exact ⟨hImg, hcw, hch, hw, hh, hstack⟩
        · rw [if_neg hsize, hcreate] at hres
          cases resetHistory with
          | false =>
            simp only [Bool.false_eq_true, if_false, Option.some.injEq] at hres
            rw [← hres]
            exact ⟨hImg, hcw, hch, hw, hh, hstack⟩
          | true =>
            simp only [if_true, Option.some.injEq] at hres
            rw [← hres]
            exact pushHistory_fresh _ hImg hcw hch hw hh rfl
  | initMaskFromChromaKey src =>
    simp only [applyOp]
    unfold initMaskFromChromaKey
    rw [hcreate]
    exact pushHistory_fresh _ hImg hcw hch hw hh rfl

/-- After `initMaskFromImage` on a loaded subject with a non-empty canvas the
history holds exactly the opaque white snapshot, the redo sequence is empty,
and every sequence of history operations keeps at least one snapshot. -/
theorem loaded_history_keeps_snapshot (pow : α → α → α) (ops : List (HistoryOp α)) (s : State)
    (hImg : s.hasImage = true) (hcw : 0 < s.canvasWidth) (hch : 0 < s.canvasHeight) :
    (initMaskFromImage s).history.stack = [fillWhite s.canvasWidth s.canvasHeight] ∧
    (initMaskFromImage s).history.redos = [] ∧
    1 ≤ (applyOps pow ops (initMaskFromImage s)).history.stack.length := by
  rw [initMaskFromImage_of_loaded s hImg hcw hch]
  refine ⟨rfl, rfl, ?_⟩
  have hgen : ∀ (ops : List (HistoryOp α)) (t : State), t.hasImage = true → 0 < t.canvasWidth →
      0 < t.canvasHeight → 0 < t.maskCanvas.width → 0 < t.maskCanvas.height →
      1 ≤ t.history.stack.length → 1 ≤ (applyOps pow ops t).history.stack.length := by
    intro ops
    induction ops with
    | nil =>
      intro t _ _ _ _ _ h
      exact h
    | cons op rest ih =>
      intro t h1 h2 h3 h4 h5 h6
      obtain ⟨k1, k2, k3, k4, k5, k6⟩ := applyOp_keeps_snapshot pow op t h1 h2 h3 h4 h5 h6
      exact ih _ k1 k2 k3 k4 k5 k6
  exact hgen ops _ hImg hcw hch hcw hch (by simp)

end HistoryInvariant

/-- Claim C26, counterexample: with the stack `[clean, erased]` and a stroke in
progress (live mask alpha 128, not committed), `undo()` pops `erased` and
pushes the live mask, not `erased`, onto the redo sequence; the following
`redo()` puts the live mask on the stack, and the committed snapshot `erased`
is in neither sequence. -/
theorem undo_drops_top_snapshot_mid_stroke :
    strokeInProgress.history.stack
      = [{ width := 1, height := 1, data := [255, 255, 255, 255] },
          { width := 1, height := 1, data := [255, 255, 255, 0] }] ∧
    (undo strokeInProgress).history.stack
      = [{ width := 1, height := 1, data := [255, 255, 255, 255] }] ∧
    (undo strokeInProgress).history.redos
      = [{ width := 1, height := 1, data := [255, 255, 255, 128] }] ∧
    (redo (undo strokeInProgress)).history.stack
      = [{ width := 1, height := 1, data := [255, 255, 255, 255] },
          { width := 1, height := 1, data := [255, 255, 255, 128] }] ∧
    (redo (undo strokeInProgress)).history.redos = [] := by
  decide

/-- Claim C26, amended: for every history with at least two snapshots (on a
non-empty mask), `undo()` removes the top snapshot from the stack and pushes a
snapshot of the live mask onto the redo sequence; when the live mask equals the
top snapshot, that is the same snapshot, and a following `redo()` restores
stack, redo sequence and mask. -/
theorem undo_moves_live_mask_to_redos (s : State) (hlen : 2 ≤ s.history.stack.length)
    (hw : 0 < s.maskCanvas.width) (hh : 0 < s.maskCanvas.height) :
    (undo s).history.stack = s.history.stack.dropLast ∧
    (undo s).history.redos = s.history.redos ++ [s.maskCanvas] ∧
    (s.history.stack.getLast? = some s.maskCanvas →
      (redo (undo s)).history = s.history ∧ (redo (undo s)).maskCanvas = s.maskCanvas) := by
  obtain ⟨prev, _, hundo⟩ := undo_of_two s hlen hw hh
  rw [hundo]
  refine ⟨rfl, rfl, ?_⟩
  intro htop
  have hstack : s.history.stack.dropLast ++ [s.maskCanvas] = s.history.stack := by
    have hne : s.history.stack ≠ [] := by
      intro h0
      rw [h0] at hlen
      simp at hlen
    have hlast := List.dropLast_append_getLast? s.maskCanvas htop
    exact hlast
  unfold redo
  simp [putImageData, hstack]

theorem undo_moves_live_mask_to_redos_witness :
    (pushHistory (paintStroke [255, 255, 255, 0] loadedPixel)).history.stack.getLast?
      = some (pushHistory (paintStroke [255, 255, 255, 0] loadedPixel)).maskCanvas ∧
    (redo (undo (pushHistory (paintStroke [255, 255, 255, 0] loadedPixel)))).history
      = (pushHistory (paintStroke [255, 255, 255, 0] loadedPixel)).history ∧
    (redo (undo (pushHistory (paintStroke [255, 255, 255, 0] loadedPixel)))).maskCanvas
      = (pushHistory (paintStroke [255, 255, 255, 0] loadedPixel)).maskCanvas :=
  ⟨by decide,
    (undo_moves_live_mask_to_redos (pushHistory (paintStroke [255, 255, 255, 0] loadedPixel))
      (by decide) (by decide) (by decide)).2.2 (by decide)⟩
section RemoveBgTheorems

variable {α : Type} [LinearOrderedField α] [FloorRing α]

/-- Claim C24: when the segmentation call or the decoding of its result fails,
`removeBg` leaves the whole mask state (mask pixels, cached matte, undo and
redo history) as it was and the busy flag is cleared again; a `removeBg`
request made while the busy flag is set changes nothing, whatever the outcome
would have been. -/
theorem removeBg_failure_keeps_mask (pow : α → α → α) (aiStrength : α)
    (outcome : SegmentationOutcome) (t : Tool) :
    (outcome = SegmentationOutcome.segmentationFailed ∨
        outcome = SegmentationOutcome.decodeFailed →
      (removeBg pow aiStrength outcome t).mask = t.mask ∧
      (removeBg pow aiStrength outcome t).historyPushes = t.historyPushes ∧
      (t.working = false → (removeBg pow aiStrength outcome t).working = false)) ∧
    (t.working = true → removeBg pow aiStrength outcome t = t) := by
  constructor
  · intro hfail
    unfold removeBg
    by_cases hguard : (!t.mask.hasImage || t.working) = true
    · rw [if_pos hguard]
      exact ⟨rfl, rfl, fun h => h⟩
    · rw [if_neg hguard]
      rcases hfail with h | h <;> rw [h] <;> exact ⟨rfl, rfl, fun _ => rfl⟩
  · intro hbusy
    unfold removeBg
    rw [if_pos (by simp [hbusy])]

end RemoveBgTheorems

theorem removeBg_failure_keeps_mask_witness :
    (removeBg (fun _ _ : ℚ => 0) 60 SegmentationOutcome.decodeFailed loadedTool).mask
      = loadedTool.mask ∧
    (removeBg (fun _ _ : ℚ => 0) 60 SegmentationOutcome.decodeFailed loadedTool).working = false ∧
    removeBg (fun _ _ : ℚ => 0) 60 (SegmentationOutcome.decoded [0, 0, 0, 0])
      { loadedTool with working := true } = { loadedTool with working := true } :=
  ⟨((removeBg_failure_keeps_mask (fun _ _ : ℚ => 0) 60 SegmentationOutcome.decodeFailed
      loadedTool).1 (Or.inr rfl)).1,
    ((removeBg_failure_keeps_mask (fun _ _ : ℚ => 0) 60 SegmentationOutcome.decodeFailed
      loadedTool).1 (Or.inr rfl)).2.2 rfl,
    (removeBg_failure_keeps_mask (fun _ _ : ℚ => 0) 60 (SegmentationOutcome.decoded [0, 0, 0, 0])
      { loadedTool with working := true }).2 rfl⟩

theorem dispatchAll_append (events rest : List PointerEvent) (t : Tool) :
    dispatchAll (events ++ rest) t = dispatchAll rest (dispatchAll events t) := by
  induction events generalizing t with
  | nil => rfl
  | cons event events ih => exact ih _

theorem startPaint_keeps_history (stamp : List Nat) (t : Tool) :
    (startPaint stamp t).mask.history = t.mask.history ∧
    (startPaint stamp t).historyPushes = t.historyPushes := by
  unfold startPaint
  split
  · exact ⟨rfl, rfl⟩
  · split <;> exact ⟨rfl, rfl⟩

theorem movePaint_keeps_history (stroke : List Nat) (t : Tool) :
    (movePaint stroke t).mask.history = t.mask.history ∧
    (movePaint stroke t).historyPushes = t.historyPushes := by
  unfold movePaint
  split
  · exact ⟨rfl, rfl⟩
  · split
    · exact ⟨rfl, rfl⟩
    · split <;> exact ⟨rfl, rfl⟩

/-- While a stroke is being painted in brush mode, pointer moves keep the
tool painting and leave history and counter alone. -/
theorem moves_keep_painting (moves : List (List Nat)) (t : Tool) (hmode : t.viewMode = "brush")
    (hpaint : t.painting = true) :
    (dispatchAll (moves.map PointerEvent.pointermove) t).viewMode = "brush" ∧
    (dispatchAll (moves.map PointerEvent.pointermove) t).painting = true ∧
    (dispatchAll (moves.map PointerEvent.pointermove) t).mask.history = t.mask.history ∧
    (dispatchAll (moves.map PointerEvent.pointermove) t).historyPushes = t.historyPushes := by
  induction moves generalizing t with
  | nil => exact ⟨hmode, hpaint, rfl, rfl⟩
  | cons stroke moves ih =>
    have hstep : (movePaint stroke t).viewMode = "brush" ∧ (movePaint stroke t).painting = true := by
      unfold movePaint
      split
      · exact ⟨hmode, hpaint⟩
      · split
        · exact ⟨hmode, hpaint⟩
        · split <;> exact ⟨hmode, hpaint⟩
    have hkeep := movePaint_keeps_history stroke t
    obtain ⟨h1, h2, h3, h4⟩ := ih (movePaint stroke t) hstep.1 hstep.2
    exact ⟨h1, h2, h3.trans hkeep.1, h4.trans hkeep.2⟩

/-- In brush mode with no stroke in progress, the ending events do nothing. -/
theorem ends_without_stroke (ends : List PointerEvent) (t : Tool) (hmode : t.viewMode = "brush")
    (hpaint : t.painting = false) (hends : ∀ event ∈ ends, event.endsStroke = true) :
    dispatchAll ends t = t := by
  have hend : endPaint t = t := by
    unfold endPaint
    rw [if_neg (by rw [hmode]; decide), if_pos (by simp [hpaint])]
  induction ends with
  | nil => rfl
  | cons event ends ih =>
    have hevent : dispatch event t = t := by
      have h := hends event (List.mem_cons_self _ _)
      cases event with
      | pointerdown stamp => simp [PointerEvent.endsStroke] at h
      | pointermove stroke => simp [PointerEvent.endsStroke] at h
      | pointerup => exact hend
      | pointercancel => exact hend
      | pointerleave => exact hend
    show dispatchAll ends (dispatch event t) = t
    rw [hevent]
    exact ih (fun e he => hends e (List.mem_cons_of_mem _ he))

theorem startPaint_keeps_mode (stamp : List Nat) (t : Tool) :
    (startPaint stamp t).viewMode = t.viewMode := by
  unfold startPaint
  split
  · rfl
  · split <;> rfl

/-- Claim C25: for every brush stroke, that is a pointer-down in brush mode
that starts painting (as it does with a subject loaded and the tool not busy),
followed by any number of pointer moves and a non-empty sequence of pointer-up,
pointer-cancel and pointer-leave events, `pushHistory` is invoked exactly once,
by the first ending event, which commits the painted mask; the later ending
events change nothing; `startPaint` and `movePaint` never modify the history
stack or the redo sequence. -/
theorem stroke_pushes_history_once (t : Tool) (stamp : List Nat) (moves : List (List Nat))
    (first : PointerEvent) (ends : List PointerEvent)
    (hmode : t.viewMode = "brush") (hstroke : (startPaint stamp t).painting = true)
    (hfirst : first.endsStroke = true) (hends : ∀ event ∈ ends, event.endsStroke = true) :
    (t.mask.hasImage = true → t.working = false →
      ∀ pixels : List Nat, (startPaint pixels t).painting = true) ∧
    (∀ (u : Tool) (pixels : List Nat),
      (startPaint pixels u).mask.history = u.mask.history ∧
      (movePaint pixels u).mask.history = u.mask.history) ∧
    (dispatchAll (PointerEvent.pointerdown stamp :: moves.map PointerEvent.pointermove)
      t).mask.history = t.mask.history ∧
    (dispatchAll (PointerEvent.pointerdown stamp :: moves.map PointerEvent.pointermove)
      t).historyPushes = t.historyPushes ∧
    dispatch first
        (dispatchAll (PointerEvent.pointerdown stamp :: moves.map PointerEvent.pointermove) t)
      = { dispatchAll (PointerEvent.pointerdown stamp :: moves.map PointerEvent.pointermove) t with
          painting := false
          mask := pushHistory
            (dispatchAll (PointerEvent.pointerdown stamp :: moves.map PointerEvent.pointermove)
              t).mask
          historyPushes := t.historyPushes + 1 } ∧
    dispatchAll
        ((PointerEvent.pointerdown stamp :: moves.map PointerEvent.pointermove) ++ first :: ends) t
      = dispatch first
          (dispatchAll (PointerEvent.pointerdown stamp :: moves.map PointerEvent.pointermove) t) ∧
    (dispatchAll
        ((PointerEvent.pointerdown stamp :: moves.map PointerEvent.pointermove) ++ first :: ends)
        t).historyPushes = t.historyPushes + 1 := by
  have hdown : dispatchAll (PointerEvent.pointerdown stamp :: moves.map PointerEvent.pointermove) t
      = dispatchAll (moves.map PointerEvent.pointermove) (startPaint stamp t) := rfl
  obtain ⟨k1, k2, k3, k4⟩ := moves_keep_painting moves (startPaint stamp t)
    (by rw [startPaint_keeps_mode]; exact hmode) hstroke
  have hhist := (startPaint_keeps_history stamp t).1
  have hcount := (startPaint_keeps_history stamp t).2
  rw [hdown]
  have hend : endPaint (dispatchAll (moves.map PointerEvent.pointermove) (startPaint stamp t))
      = { dispatchAll (moves.map PointerEvent.pointermove) (startPaint stamp t) with
          painting := false
          mask := pushHistory
            (dispatchAll (moves.map PointerEvent.pointermove) (startPaint stamp t)).mask
          historyPushes := t.historyPushes + 1 } := by
    unfold endPaint
    rw [if_neg (by rw [k1]; decide), if_neg (by simp [k2]), k4, hcount]
  have hfirstEq : dispatch first (dispatchAll (moves.map PointerEvent.pointermove) (startPaint stamp t))
      = endPaint (dispatchAll (moves.map PointerEvent.pointermove) (startPaint stamp t)) := by
    cases first with
    | pointerdown pixels => simp [PointerEvent.endsStroke] at hfirst
    | pointermove pixels => simp [PointerEvent.endsStroke] at hfirst
    | pointerup => rfl
    | pointercancel => rfl
    | pointerleave => rfl
  have hall : dispatchAll
      ((PointerEvent.pointerdown stamp :: moves.map PointerEvent.pointermove) ++ first :: ends) t
      = dispatch first (dispatchAll (moves.map PointerEvent.pointermove) (startPaint stamp t)) := by
    rw [dispatchAll_append, hdown]
    show dispatchAll ends
      (dispatch first (dispatchAll (moves.map PointerEvent.pointermove) (startPaint stamp t))) = _
    apply ends_without_stroke ends _ _ _ hends
    · rw [hfirstEq, hend]
      exact k1
    · rw [hfirstEq, hend]
  refine ⟨?_, fun u pixels => ⟨(startPaint_keeps_history pixels u).1,
    (movePaint_keeps_history pixels u).1⟩, k3.trans hhist, k4.trans hcount, ?_, hall, ?_⟩
  · intro hImg hidle pixels
    unfold startPaint
    rw [if_neg (by rw [hmode]; decide), if_neg (by simp [hImg, hidle])]
  · rw [hfirstEq, hend]
  · rw [hall, hfirstEq, hend]

theorem stroke_pushes_history_once_witness :
    (dispatchAll
      [PointerEvent.pointerdown [255, 255, 255, 128], PointerEvent.pointermove [255, 255, 255, 0],
        PointerEvent.pointerup, PointerEvent.pointerleave] loadedTool).historyPushes = 1 ∧
    (dispatchAll
      [PointerEvent.pointerdown [255, 255, 255, 128], PointerEvent.pointermove [255, 255, 255, 0],
        PointerEvent.pointerup, PointerEvent.pointerleave] loadedTool).mask.history.stack
      = [{ width := 1, height := 1, data := [255, 255, 255, 255] },
          { width := 1, height := 1, data := [255, 255, 255, 0] }] :=
  have h := stroke_pushes_history_once loadedTool [255, 255, 255, 128] [[255, 255, 255, 0]]
    PointerEvent.pointerup [PointerEvent.pointerleave] rfl rfl rfl (by decide)
  ⟨h.2.2.2.2.2.2, by decide⟩

end Cutout

/-! ## Shadow metrics, tone mapping and fill -/

namespace Layers

section ShadowTheorems

variable {α : Type} [LinearOrderedField α] [FloorRing α]

end ShadowTheorems

section ToneHelpers

variable {α : Type} [LinearOrderedField α]

theorem jsOr_zero (x : α) : jsOr x 0 = x := by
  unfold jsOr
  split
  · next h => exact h.symm
  · rfl

/-- An integer parameter is zero or beyond the threshold of its stage. -/
theorem flag_of_int (m : ℤ) :
    decide (|(m : α) / 100| > 1 / 10000) = true ∨ (m : α) = 0 := by
  by_cases hm : m = 0
  · right
    rw [hm]
    simp
  · left
    have h1 : (1 : α) ≤ |(m : α)| := by
      have := Int.one_le_abs hm
      rw [← Int.cast_abs]
      exact_mod_cast this
    rw [decide_eq_true_iff, abs_div, abs_of_pos (by norm_num : (0 : α) < 100), gt_iff_lt,
      lt_div_iff₀ (by norm_num)]
    linarith

/-- A non-zero integer parameter passes the test of `hasWhiteBalanceAdjust`. -/
theorem needs_of_int (m : ℤ) (hm : m ≠ 0) : decide (|jsOr (m : α) 0| > 1 / 1000) = true := by
  have h1 : (1 : α) ≤ |(m : α)| := by
    have := Int.one_le_abs hm
    rw [← Int.cast_abs]
    exact_mod_cast this
  rw [jsOr_zero, decide_eq_true_iff]
  linarith

end ToneHelpers

section ToneTheorems

variable {α : Type} [LinearOrderedField α] [FloorRing α]

theorem final_congr (x y : α) (h : x = y) :
    (max 0 (min 255 (mathRound x))).toNat = (max 0 (min 255 (mathRound y))).toNat := by
  rw [h]

/-- The pixel loop of the code computes the thresholded tone mapping of the
specification. -/
theorem adjustTone_eq_specTone (temp tint bright sat contrast : α) :
    ∀ data : List Nat,
      adjustTone (temp / 100) (tint / 100) (bright / 100) (sat / 100) (contrast / 100) data
        = specTone temp tint bright sat contrast (decide (|sat / 100| > 1 / 10000))
            (decide (|contrast / 100| > 1 / 10000)) data
  | [] => by simp [adjustTone, specTone]
  | [_] => by simp [adjustTone, specTone]
  | [_, _] => by simp [adjustTone, specTone]
  | [_, _, _] => by simp [adjustTone, specTone]
  | r :: g :: b :: a :: rest => by
    rw [adjustTone, specTone, adjustTone_eq_specTone temp tint bright sat contrast rest]
    unfold specTonePixel specFinalChannel toByte
    by_cases hs : |sat / 100| > 1 / 10000 <;> by_cases hc : |contrast / 100| > 1 / 10000
    all_goals
      simp only [hs, hc, decide_True, decide_False, if_true, if_false, Bool.false_eq_true]
      refine List.cons_eq_cons.mpr ⟨final_congr _ _ ?_, List.cons_eq_cons.mpr
        ⟨final_congr _ _ ?_, List.cons_eq_cons.mpr ⟨final_congr _ _ ?_, rfl⟩⟩⟩ <;> ring

end ToneTheorems

section ToneStages

variable {α : Type} [LinearOrderedField α] [FloorRing α]

end ToneStages

section ToneIntegers

variable {α : Type} [LinearOrderedField α] [FloorRing α]

/-- A stage switched off agrees with the stage applied when its parameter is
zero. -/
theorem specTone_stage_flags (temp tint bright sat contrast : α) (withSat withContrast : Bool)
    (hs : withSat = true ∨ sat = 0) (hc : withContrast = true ∨ contrast = 0) :
    ∀ data : List Nat,
      specTone temp tint bright sat contrast withSat withContrast data
        = specTone temp tint bright sat contrast true true data
  | [] => by simp [specTone]
  | [_] => by simp [specTone]
  | [_, _] => by simp [specTone]
  | [_, _, _] => by simp [specTone]
  | r :: g :: b :: a :: rest => by
    rw [specTone, specTone,
      specTone_stage_flags temp tint bright sat contrast withSat withContrast hs hc rest]
    unfold specTonePixel specFinalChannel
    cases withSat <;> cases withContrast
    all_goals
      simp only [Bool.false_eq_true, false_or] at hs hc
      try subst hs
      try subst hc
      simp only [if_true, if_false, Bool.false_eq_true]
      try
        refine List.cons_eq_cons.mpr ⟨final_congr _ _ ?_, List.cons_eq_cons.mpr
          ⟨final_congr _ _ ?_, List.cons_eq_cons.mpr ⟨final_congr _ _ ?_, rfl⟩⟩⟩ <;> ring

/-- For integer tone parameters, which is what the range sliders deliver, not
all zero, both stage thresholds are void: the processed canvas holds the tone
mapping with every stage applied. -/
theorem rebuildLayerProcessed_integer_parameters (layer : Layer α) (temp tint bright sat contrast : ℤ)
    (htemp : layer.wbTemp = (temp : α)) (htint : layer.wbTint = (tint : α))
    (hbright : layer.wbBright = (bright : α)) (hsat : layer.wbSat = (sat : α))
    (hcontrast : layer.wbContrast = (contrast : α))
    (hnonzero : temp ≠ 0 ∨ tint ≠ 0 ∨ bright ≠ 0 ∨ sat ≠ 0 ∨ contrast ≠ 0)
    (hw : 0 < layer.image.width) (hh : 0 < layer.image.height) :
    ∃ work : ImageData,
      rebuildLayerProcessed layer = some { layer with processedCanvas := some work } ∧
      work.width = layer.image.width ∧ work.height = layer.image.height ∧
      work.data = specToneOfLayer layer := by
  have hneeds : hasWhiteBalanceAdjust layer = true := by
    unfold hasWhiteBalanceAdjust
    rw [htemp, htint, hbright, hsat, hcontrast]
    rcases hnonzero with h | h | h | h | h <;>
      simp only [needs_of_int _ h, Bool.true_or, Bool.or_true]
  have himg : getImageData layer.image = some layer.image := by
    unfold getImageData
    rw [if_neg (by omega)]
  have hsatInt : ∃ m : ℤ, clampedSat layer = (m : α) := by
    refine ⟨max (-30) (min 30 sat), ?_⟩
    unfold clampedSat clamp
    rw [hsat]
    push_cast
    rfl
  have hconInt : ∃ m : ℤ, clampedContrast layer = (m : α) := by
    refine ⟨max (-30) (min 30 contrast), ?_⟩
    unfold clampedContrast clamp
    rw [hcontrast]
    push_cast
    rfl
  obtain ⟨ms, hms⟩ := hsatInt
  obtain ⟨mc, hmc⟩ := hconInt
  have hcode := adjustTone_eq_specTone (clampedTemp layer) (clampedTint layer)
    (clampedBright layer) (clampedSat layer) (clampedContrast layer) layer.image.data
  have hflags := specTone_stage_flags (clampedTemp layer) (clampedTint layer)
    (clampedBright layer) (clampedSat layer) (clampedContrast layer)
    (decide (|clampedSat layer / 100| > 1 / 10000))
    (decide (|clampedContrast layer / 100| > 1 / 10000))
    (by rw [hms]; exact flag_of_int _) (by rw [hmc]; exact flag_of_int _)
    layer.image.data
  unfold rebuildLayerProcessed
  simp only [hneeds, Bool.not_true, Bool.false_eq_true, if_false, himg, jsOr_zero]
  refine ⟨_, rfl, rfl, rfl, ?_⟩
  simp only [putImageData]
  unfold specToneOfLayer
  rw [← hflags, ← hcode]
  simp [clampedTemp, clampedTint, clampedBright, clampedSat, clampedContrast, WB_LIMIT,
    TINT_LIMIT, BRIGHT_LIMIT, SAT_LIMIT, CONTRAST_LIMIT]

end ToneIntegers

section FillHelpers

variable {α : Type}

/-- The in-place update reaches the first entry with the id. -/
theorem updateLayer_first (f : Layer α → Layer α) (pre post : List (Layer α)) (layer : Layer α)
    (hpre : ∀ entry ∈ pre, entry.id ≠ layer.id) :
    updateLayer layer.id f (pre ++ layer :: post) = pre ++ f layer :: post := by
  induction pre with
  | nil => simp [updateLayer]
  | cons a pre ih =>
    have ha : (a.id == layer.id) = false := by
      simpa using hpre a (List.mem_cons_self _ _)
    have ih2 := ih (fun entry hmem => hpre entry (List.mem_cons_of_mem _ hmem))
    show updateLayer layer.id f (a :: (pre ++ layer :: post)) = a :: (pre ++ f layer :: post)
    rw [updateLayer, ha, ← ih2]
    rfl

end FillHelpers

/-- A rectangle of half sides `hw`, `hh` turned by an angle holds the point
`(u, v)` when its half sides reach the turned extent of the point. -/
theorem paints_of_extent (θ cx cy drawW drawH u v : ℝ)
    (ha : |u| * |Real.cos θ| + |v| * |Real.sin θ| ≤ drawW / 2)
    (hb : |u| * |Real.sin θ| + |v| * |Real.cos θ| ≤ drawH / 2) :
    ∃ a b : ℝ, |a| ≤ drawW / 2 ∧ |b| ≤ drawH / 2 ∧
      cx + u = cx + (a * Real.cos θ - b * Real.sin θ) ∧
      cy + v = cy + (a * Real.sin θ + b * Real.cos θ) := by
  refine ⟨u * Real.cos θ + v * Real.sin θ, -(u * Real.sin θ) + v * Real.cos θ, ?_, ?_, ?_, ?_⟩
  · calc |u * Real.cos θ + v * Real.sin θ|
        ≤ |u * Real.cos θ| + |v * Real.sin θ| := abs_add _ _
      _ = |u| * |Real.cos θ| + |v| * |Real.sin θ| := by rw [abs_mul, abs_mul]
      _ ≤ drawW / 2 := ha
  · calc |-(u * Real.sin θ) + v * Real.cos θ|
        ≤ |-(u * Real.sin θ)| + |v * Real.cos θ| := abs_add _ _
      _ = |u| * |Real.sin θ| + |v| * |Real.cos θ| := by rw [abs_neg, abs_mul, abs_mul]
      _ ≤ drawH / 2 := hb
  · have h := Real.cos_sq_add_sin_sq θ
    have e : (u * Real.cos θ + v * Real.sin θ) * Real.cos θ
        - (-(u * Real.sin θ) + v * Real.cos θ) * Real.sin θ
        = u * (Real.cos θ ^ 2 + Real.sin θ ^ 2) := by ring
    rw [e, h, mul_one]
  · have h := Real.cos_sq_add_sin_sq θ
    have e : (u * Real.cos θ + v * Real.sin θ) * Real.sin θ
        + (-(u * Real.sin θ) + v * Real.cos θ) * Real.cos θ
        = v * (Real.cos θ ^ 2 + Real.sin θ ^ 2) := by ring
    rw [e, h, mul_one]

/-- The cover scale times the source side reaches the turned canvas extent. -/
theorem cover_reach (extent other side : ℝ) (hside : 0 < side) (hext : 0 ≤ extent) :
    extent ≤ side * (max (extent / side) other * (101 / 100)) := by
  have h1 : extent / side ≤ max (extent / side) other := le_max_left _ _
  have h0 : 0 ≤ extent / side := div_nonneg hext (le_of_lt hside)
  have h2 : extent = side * (extent / side) := by
    field_simp
  have h3 : side * (extent / side) ≤ side * (max (extent / side) other * (101 / 100)) := by
    apply mul_le_mul_of_nonneg_left _ (le_of_lt hside)
    nlinarith
  linarith

/-- Claim C21: with an active layer of source size `(sw, sh)` (both positive)
rotated by the angle `t = rotationDeg * π / 180` on a canvas of size `(W, H)`,
`fillSelectedLayer` returns true, sets `x = y = 0` and
`scale = 1.01 * max((W |cos t| + H |sin t|) / sw, (W |sin t| + H |cos t|) / sh)`
on that layer and changes nothing else but its low-resolution flag; with this
scale the rectangle that `drawLayers` paints for the layer holds every point of
the canvas rectangle. With no active layer it returns false and changes
nothing. -/
theorem fillSelectedLayer_covers_canvas (s : State ℝ) (pre post : List (Layer ℝ))
    (layer : Layer ℝ) (hlayers : s.layers = pre ++ layer :: post)
    (hactive : s.activeLayerId = some layer.id)
    (hpre : ∀ entry ∈ pre, entry.id ≠ layer.id)
    (hw : 0 < (getLayerRenderSource layer).width)
    (hh : 0 < (getLayerRenderSource layer).height) :
    (fillSelectedLayer Real.cos Real.sin Real.pi s).1 = true ∧
    (∃ filled : Layer ℝ,
      (fillSelectedLayer Real.cos Real.sin Real.pi s).2 = { s with layers := pre ++ filled :: post } ∧
      filled = { layer with scale := filled.scale, x := 0, y := 0,
                            lowResolution := filled.lowResolution } ∧
      filled.scale = 101 / 100 *
        max (((s.canvasWidth : ℝ) * |Real.cos (layer.rotationDeg * Real.pi / 180)|
              + (s.canvasHeight : ℝ) * |Real.sin (layer.rotationDeg * Real.pi / 180)|)
              / ((getLayerRenderSource layer).width : ℝ))
            (((s.canvasWidth : ℝ) * |Real.sin (layer.rotationDeg * Real.pi / 180)|
              + (s.canvasHeight : ℝ) * |Real.cos (layer.rotationDeg * Real.pi / 180)|)
              / ((getLayerRenderSource layer).height : ℝ)) ∧
      ∀ px py : ℝ, 0 ≤ px → px ≤ (s.canvasWidth : ℝ) → 0 ≤ py → py ≤ (s.canvasHeight : ℝ) →
        Paints Real.cos Real.sin
          (layerDraw Real.pi s.canvasWidth s.canvasHeight (max 1 s.layers.length) 0 false "zoom" 1
            pre.length filled) px py) ∧
    (∀ idle : State ℝ, activeLayer idle = none →
      fillSelectedLayer Real.cos Real.sin Real.pi idle = (false, idle)) := by
  have hfound : activeLayer s = some layer := by
    unfold activeLayer
    rw [hactive, hlayers]
    exact (find_first pre post layer hpre).1
  have hsw : ((max 1 (getLayerRenderSource layer).width : Nat) : ℝ)
      = ((getLayerRenderSource layer).width : ℝ) := by
    rw [max_eq_right (by omega)]
  have hsh : ((max 1 (getLayerRenderSource layer).height : Nat) : ℝ)
      = ((getLayerRenderSource layer).height : ℝ) := by
    rw [max_eq_right (by omega)]
  have hswpos : (0 : ℝ) < ((getLayerRenderSource layer).width : ℝ) := by exact_mod_cast hw
  have hshpos : (0 : ℝ) < ((getLayerRenderSource layer).height : ℝ) := by exact_mod_cast hh
  have hW : (0 : ℝ) ≤ (s.canvasWidth : ℝ) := Nat.cast_nonneg _
  have hH : (0 : ℝ) ≤ (s.canvasHeight : ℝ) := Nat.cast_nonneg _
  refine ⟨?_, ?_, ?_⟩
  · unfold fillSelectedLayer
    rw [hfound]
  · unfold fillSelectedLayer
    rw [hfound]
    simp only [hlayers, updateLayer_first _ pre post layer hpre, jsOr_zero, hsw, hsh]
    refine ⟨_, rfl, rfl, ?_, ?_⟩
    · simp only [refreshWarnings]
      rw [mul_comm]
    · intro px py hx0 hx1 hy0 hy1
      unfold Paints
      simp only [layerDraw, refreshWarnings, getLayerRenderSource, jsOr_zero, Bool.false_eq_true,
        false_and, if_false, mul_one, add_zero]
      have hsrcw : (match layer.processedCanvas with
          | some processed => processed
          | none => layer.image).width = (getLayerRenderSource layer).width := rfl
      set θ := layer.rotationDeg * Real.pi / 180 with hθ
      have hc0 : 0 ≤ |Real.cos θ| := abs_nonneg _
      have hs0 : 0 ≤ |Real.sin θ| := abs_nonneg _
      have hu : |px - (s.canvasWidth : ℝ) / 2| ≤ (s.canvasWidth : ℝ) / 2 := by
        rw [abs_le]
        constructor <;> linarith
      have hv : |py - (s.canvasHeight : ℝ) / 2| ≤ (s.canvasHeight : ℝ) / 2 := by
        rw [abs_le]
        constructor <;> linarith
      have hreachW := cover_reach
        ((s.canvasWidth : ℝ) * |Real.cos θ| + (s.canvasHeight : ℝ) * |Real.sin θ|)
        (((s.canvasWidth : ℝ) * |Real.sin θ| + (s.canvasHeight : ℝ) * |Real.cos θ|)
          / ((getLayerRenderSource layer).height : ℝ))
        ((getLayerRenderSource layer).width : ℝ) hswpos (by positivity)
      have hreachH := cover_reach
        ((s.canvasWidth : ℝ) * |Real.sin θ| + (s.canvasHeight : ℝ) * |Real.cos θ|)
        (((s.canvasWidth : ℝ) * |Real.cos θ| + (s.canvasHeight : ℝ) * |Real.sin θ|)
          / ((getLayerRenderSource layer).width : ℝ))
        ((getLayerRenderSource layer).height : ℝ) hshpos (by positivity)
      rw [max_comm] at hreachH
      have hpaint := paints_of_extent θ ((s.canvasWidth : ℝ) / 2) ((s.canvasHeight : ℝ) / 2)
        (((getLayerRenderSource layer).width : ℝ) *
          (max (((s.canvasWidth : ℝ) * |Real.cos θ| + (s.canvasHeight : ℝ) * |Real.sin θ|)
              / ((getLayerRenderSource layer).width : ℝ))
            (((s.canvasWidth : ℝ) * |Real.sin θ| + (s.canvasHeight : ℝ) * |Real.cos θ|)
              / ((getLayerRenderSource layer).height : ℝ)) * (101 / 100)))
        (((getLayerRenderSource layer).height : ℝ) *
          (max (((s.canvasWidth : ℝ) * |Real.cos θ| + (s.canvasHeight : ℝ) * |Real.sin θ|)
              / ((getLayerRenderSource layer).width : ℝ))
            (((s.canvasWidth : ℝ) * |Real.sin θ| + (s.canvasHeight : ℝ) * |Real.cos θ|)
              / ((getLayerRenderSource layer).height : ℝ)) * (101 / 100)))
        (px - (s.canvasWidth : ℝ) / 2) (py - (s.canvasHeight : ℝ) / 2)
        (by nlinarith [mul_le_mul_of_nonneg_right hu hc0, mul_le_mul_of_nonneg_right hv hs0])
        (by nlinarith [mul_le_mul_of_nonneg_right hu hs0, mul_le_mul_of_nonneg_right hv hc0])
      obtain ⟨a, b, h1, h2, h3, h4⟩ := hpaint
      refine ⟨a, b, h1, h2, ?_, ?_⟩
      · rw [← h3]
        ring
      · rw [← h4]
        ring
  · intro idle hidle
    unfold fillSelectedLayer
    rw [hidle]

theorem fillSelectedLayer_covers_canvas_witness :
    (fillSelectedLayer Real.cos Real.sin Real.pi (squareDoc ℝ)).1 = true ∧
    ∃ filled : Layer ℝ,
      (fillSelectedLayer Real.cos Real.sin Real.pi (squareDoc ℝ)).2
        = { squareDoc ℝ with layers := [filled] } ∧
      Paints Real.cos Real.sin
        (layerDraw Real.pi (squareDoc ℝ).canvasWidth (squareDoc ℝ).canvasHeight
          (max 1 (squareDoc ℝ).layers.length) 0 false "zoom" 1 0 filled) 0 0 :=
  have h := fillSelectedLayer_covers_canvas (squareDoc ℝ) [] [] (exampleLayer ℝ "layer-1" true)
    rfl rfl (fun _ hmem => absurd hmem (List.not_mem_nil _)) Nat.one_pos Nat.one_pos
  ⟨h.1, h.2.1.elim fun filled hf =>
    ⟨filled, hf.1, hf.2.2.2 0 0 (le_refl 0) (Nat.cast_nonneg _) (le_refl 0) (Nat.cast_nonneg _)⟩⟩

end Layers

/-! ## Invariants of the layer list -/

namespace Layers

/-- Decimal digits, most significant first, read back as a number. -/
theorem digitChar_value (d : Nat) (hd : d < 10) : (Nat.digitChar d).toNat - 48 = d := by
  interval_cases d <;> rfl

theorem toDigitsCore_value :
    ∀ (fuel n : Nat) (ds : List Char), n < fuel →
      ∃ l : List Char, Nat.toDigitsCore 10 fuel n ds = l ++ ds ∧
        l.foldl (fun acc c => acc * 10 + (c.toNat - 48)) 0 = n := by
  intro fuel
  induction fuel with
  | zero =>
    intro n ds h
    omega
  | succ fuel ih =>
    intro n ds h
    unfold Nat.toDigitsCore
    by_cases hq : n / 10 = 0
    · simp only [hq, if_true]
      refine ⟨[Nat.digitChar (n % 10)], rfl, ?_⟩
      simp only [List.foldl_cons, List.foldl_nil, Nat.zero_mul, Nat.zero_add]
      rw [digitChar_value _ (Nat.mod_lt _ (by decide))]
      omega
    · simp only [hq, if_false]
      obtain ⟨l, hl, hv⟩ := ih (n / 10) (Nat.digitChar (n % 10) :: ds) (by omega)
      refine ⟨l ++ [Nat.digitChar (n % 10)], ?_, ?_⟩
      · rw [hl]
        simp
      · rw [List.foldl_append, hv]
        simp only [List.foldl_cons, List.foldl_nil]
        rw [digitChar_value _ (Nat.mod_lt _ (by decide))]
        omega

/-- The decimal representation of a natural number determines the number. -/
theorem toString_nat_injective (a b : Nat) (h : toString a = toString b) : a = b := by
  have ha := toDigitsCore_value (a + 1) a [] (by omega)
  have hb := toDigitsCore_value (b + 1) b [] (by omega)
  obtain ⟨la, hla, hva⟩ := ha
  obtain ⟨lb, hlb, hvb⟩ := hb
  have hrepr : Nat.repr a = Nat.repr b := h
  unfold Nat.repr Nat.toDigits at hrepr
  rw [hla, hlb] at hrepr
  simp only [List.append_nil, List.asString] at hrepr
  have hl : la = lb := by
    injection hrepr
  rw [← hva, ← hvb, hl]

/-- The ids built by `addLayerFromImage` for different seeds differ. -/
theorem layer_id_injective (a b : Nat) (h : "layer-" ++ toString a = "layer-" ++ toString b) :
    a = b := by
  apply toString_nat_injective
  have hdata := congrArg String.data h
  rw [String.data_append, String.data_append] at hdata
  exact String.ext (List.append_cancel_left hdata)

theorem layer_id_ne_empty (a : Nat) : "layer-" ++ toString a ≠ "" := by
  intro h
  have hdata := congrArg String.data h
  rw [String.data_append] at hdata
  simp at hdata

section InvariantLemmas

variable {α : Type}

/-- What `layerById` finds: a layer of the sequence with the id, preceded by
entries with other ids only. -/
theorem layerById_some (layerId : String) (s : State α) (layer : Layer α)
    (h : layerById layerId s = some layer) :
    layer.id = layerId ∧ layer ∈ s.layers ∧
    ∃ pre post, s.layers = pre ++ layer :: post ∧ ∀ entry ∈ pre, entry.id ≠ layer.id := by
  unfold layerById at h
  rw [List.find?_eq_some] at h
  obtain ⟨hid, pre, post, hsplit, hpre⟩ := h
  have hid2 : layer.id = layerId := by simpa using hid
  refine ⟨hid2, ?_, pre, post, hsplit, ?_⟩
  · rw [hsplit]
    simp
  · intro entry hmem
    have := hpre entry hmem
    rw [hid2]
    simpa using this

/-- The ids and the active-layer invariant only depend on the ids (up to order),
the counter and the active id. -/
theorem ids_invariant_congr (s t : State α)
    (hids : (t.layers.map fun layer => layer.id).Perm (s.layers.map fun layer => layer.id))
    (hseed : t.layerSeed = s.layerSeed)
    (hact : t.activeLayerId = s.activeLayerId ∨ ∃ layer ∈ t.layers, t.activeLayerId = some layer.id)
    (hs : ActiveAndIdsValid s ∧ IdsIssued s) : ActiveAndIdsValid t ∧ IdsIssued t := by
  obtain ⟨⟨hmem, hnonempty, hnodup⟩, hissued⟩ := hs
  have hto : ∀ id, id ∈ (s.layers.map fun layer => layer.id) →
      ∃ layer ∈ t.layers, layer.id = id := by
    intro id hid
    have := hids.symm.subset hid
    obtain ⟨layer, hl, hlid⟩ := List.mem_map.mp this
    exact ⟨layer, hl, hlid⟩
  have hfrom : ∀ layer ∈ t.layers, ∃ old ∈ s.layers, old.id = layer.id := by
    intro layer hl
    have : layer.id ∈ (t.layers.map fun layer => layer.id) := List.mem_map.mpr ⟨layer, hl, rfl⟩
    have := hids.subset this
    obtain ⟨old, ho, hoid⟩ := List.mem_map.mp this
    exact ⟨old, ho, hoid⟩
  refine ⟨⟨?_, ?_, ?_⟩, ?_⟩
  · rcases hact with h | h
    · rw [h]
      rcases hmem with h0 | ⟨old, hold, h1⟩
      · exact Or.inl h0
      · right
        obtain ⟨layer, hl, hlid⟩ := hto old.id (List.mem_map.mpr ⟨old, hold, rfl⟩)
        exact ⟨layer, hl, by rw [h1, hlid]⟩
    · exact Or.inr h
  · intro hne
    rcases hact with h | ⟨layer, _, h⟩
    · rw [h]
      apply hnonempty
      intro hempty
      apply hne
      have hlen := hids.length_eq
      rw [hempty] at hlen
      simpa using hlen
    · rw [h]
      simp
  · exact hids.nodup_iff.mpr hnodup
  · intro layer hl
    obtain ⟨old, ho, hoid⟩ := hfrom layer hl
    obtain ⟨k, hk1, hk2, hk3⟩ := hissued old ho
    exact ⟨k, hk1, by rw [hseed]; exact hk2, by rw [← hoid]; exact hk3⟩

/-- The solo invariant only depends on the pairs of id and visibility (up to
order) and the solo id. -/
theorem solo_invariant_congr (s t : State α)
    (hkeys : (t.layers.map fun layer => (layer.id, layer.visible)).Perm
      (s.layers.map fun layer => (layer.id, layer.visible)))
    (hsolo : t.soloLayerId = s.soloLayerId) (hs : SoloConsistent s) : SoloConsistent t := by
  intro id hid
  rw [hsolo] at hid
  obtain ⟨hne, ⟨old, hold, holdid⟩, hvis⟩ := hs id hid
  refine ⟨hne, ?_, ?_⟩
  · have : (old.id, old.visible) ∈ (s.layers.map fun layer => (layer.id, layer.visible)) :=
      List.mem_map.mpr ⟨old, hold, rfl⟩
    have := hkeys.symm.subset this
    obtain ⟨layer, hl, hkey⟩ := List.mem_map.mp this
    refine ⟨layer, hl, ?_⟩
    have h1 : layer.id = old.id := congrArg Prod.fst hkey
    rw [h1, holdid]
  · intro layer hl
    have : (layer.id, layer.visible) ∈ (t.layers.map fun layer => (layer.id, layer.visible)) :=
      List.mem_map.mpr ⟨layer, hl, rfl⟩
    have := hkeys.subset this
    obtain ⟨prev, hp, hkey⟩ := List.mem_map.mp this
    have h1 : prev.id = layer.id := congrArg Prod.fst hkey
    have h2 : prev.visible = layer.visible := congrArg Prod.snd hkey
    rw [← h1, ← h2]
    exact hvis prev hp

/-- An in-place update that keeps id and visibility keeps the pairs. -/
theorem updateLayer_keys (layerId : String) (f : Layer α → Layer α)
    (hf : ∀ entry, (f entry).id = entry.id ∧ (f entry).visible = entry.visible)
    (layers : List (Layer α)) :
    ((updateLayer layerId f layers).map fun layer => (layer.id, layer.visible))
      = layers.map fun layer => (layer.id, layer.visible) := by
  induction layers with
  | nil => rfl
  | cons a rest ih =>
    unfold updateLayer
    split
    · simp [(hf a).1, (hf a).2]
    · simp only [List.map_cons, ih]

/-- An in-place update that keeps the id keeps the ids. -/
theorem updateLayer_ids (layerId : String) (f : Layer α → Layer α)
    (hf : ∀ entry, (f entry).id = entry.id) (layers : List (Layer α)) :
    ((updateLayer layerId f layers).map fun layer => layer.id) = layers.map fun layer => layer.id := by
  induction layers with
  | nil => rfl
  | cons a rest ih =>
    unfold updateLayer
    split
    · simp [hf a]
    · simp only [List.map_cons, ih]

/-- Pairs of id and visibility determine the ids. -/
theorem ids_of_keys (l1 l2 : List (Layer α))
    (h : (l1.map fun layer => (layer.id, layer.visible)).Perm
      (l2.map fun layer => (layer.id, layer.visible))) :
    (l1.map fun layer => layer.id).Perm (l2.map fun layer => layer.id) := by
  have := h.map Prod.fst
  simpa [List.map_map, Function.comp] using this

end InvariantLemmas

section ClickLemmas

variable {α : Type}

/-- What else `clearSolo` does: the counter is kept, and the solo id is
cleared unless it was falsy, in which case nothing changes. -/
theorem clearSolo_solo (restore : Bool) (s : State α) :
    (clearSolo restore s).layerSeed = s.layerSeed ∧
    ((truthyId s.soloLayerId = true ∧ (clearSolo restore s).soloLayerId = none) ∨
      (truthyId s.soloLayerId = false ∧ clearSolo restore s = s)) := by
  by_cases ht : truthyId s.soloLayerId = true
  · have hc : clearSolo restore s =
        { s with
          layers := (clearSolo restore s).layers
          soloLayerId := none
          soloPrevVisibility := none } := by
      unfold clearSolo
      simp only [ht, Bool.not_true, Bool.false_eq_true, if_false]
    rw [hc]
    exact ⟨rfl, Or.inl ⟨ht, rfl⟩⟩
  · have hf : truthyId s.soloLayerId = false := by simpa using ht
    have hc : clearSolo restore s = s := by
      unfold clearSolo
      simp only [hf, Bool.not_false, if_true]
    rw [hc]
    exact ⟨rfl, Or.inr ⟨hf, rfl⟩⟩

theorem clearSolo_ids (restore : Bool) (s : State α) :
    ((clearSolo restore s).layers.map fun layer => layer.id) = s.layers.map fun layer => layer.id := by
  obtain ⟨g, hg, hl, _⟩ := clearSolo_layers restore s
  rw [hl, List.map_map]
  apply List.map_congr_left
  intro entry _
  show (g entry).id = entry.id
  rw [hg entry]

/-- The click on `up` for a layer at the top does nothing. -/
theorem click_up_at_top (s : State α) (pre : List (Layer α)) (layer : Layer α)
    (hlayers : s.layers = pre ++ [layer]) (hpre : ∀ entry ∈ pre, entry.id ≠ layer.id) :
    layerButtonClick "up" layer.id s = s := by
  have hf := find_first pre [] layer hpre
  unfold layerButtonClick layerById
  rw [hlayers, hf.1]
  simp only [hf.2, List.length_append, List.length_singleton, Nat.lt_irrefl, and_false, if_false]
  have h1 : ¬ ("up" = "down") := by decide
  have h2 : ¬ ("up" = "hide") := by decide
  have h3 : ¬ ("up" = "solo") := by decide
  have h4 : ¬ ("up" = "delete") := by decide
  simp only [h1, h2, h3, h4, false_and, if_false]

/-- The click on `down` for a layer at the bottom does nothing. -/
theorem click_down_at_bottom (s : State α) (post : List (Layer α)) (layer : Layer α)
    (hlayers : s.layers = layer :: post) : layerButtonClick "down" layer.id s = s := by
  have hf := find_first [] post layer (by simp)
  unfold layerButtonClick layerById
  rw [hlayers]
  simp only [List.nil_append] at hf
  rw [hf.1]
  simp only [hf.2, List.length_nil, Nat.lt_irrefl, and_false, if_false]
  have h1 : ¬ ("down" = "up") := by decide
  have h2 : ¬ ("down" = "hide") := by decide
  have h3 : ¬ ("down" = "solo") := by decide
  have h4 : ¬ ("down" = "delete") := by decide
  simp only [h1, h2, h3, h4, false_and, if_false, gt_iff_lt]

theorem click_hide_eq (s : State α) (layer : Layer α) (hfind : layerById layer.id s = some layer) :
    layerButtonClick "hide" layer.id s =
      { (if truthyId s.soloLayerId then clearSolo true s else s) with
        layers := updateLayer layer.id (fun entry => { entry with visible := !entry.visible })
          (if truthyId s.soloLayerId then clearSolo true s else s).layers } := by
  unfold layerButtonClick
  rw [hfind]
  have h1 : ¬ ("hide" = "up") := by decide
  have h2 : ¬ ("hide" = "down") := by decide
  simp only [h1, h2, false_and, if_false, if_true]

theorem click_solo_eq (s : State α) (layer : Layer α) (hfind : layerById layer.id s = some layer) :
    layerButtonClick "solo" layer.id s = toggleSolo layer.id s := by
  unfold layerButtonClick
  rw [hfind]
  have h1 : ¬ ("solo" = "up") := by decide
  have h2 : ¬ ("solo" = "down") := by decide
  have h3 : ¬ ("solo" = "hide") := by decide
  simp only [h1, h2, h3, false_and, if_false, if_true]

theorem click_other_eq (button layerId : String) (s : State α) (h1 : button ≠ "up")
    (h2 : button ≠ "down") (h3 : button ≠ "hide") (h4 : button ≠ "solo")
    (h5 : button ≠ "delete") : layerButtonClick button layerId s = s := by
  unfold layerButtonClick
  cases layerById layerId s with
  | none => rfl
  | some layer =>
    simp only [h1, h2, h3, h4, h5, false_and, if_false]

/-- A click on `up` or `down` permutes the layers and changes nothing else. -/
theorem click_reorder_perm (button : String) (hbutton : button = "up" ∨ button = "down")
    (layerId : String) (s : State α) :
    ∃ layers, layerButtonClick button layerId s = { s with layers := layers } ∧
      layers.Perm s.layers := by
  cases hfind : layerById layerId s with
  | none =>
    refine ⟨s.layers, ?_, List.Perm.refl _⟩
    unfold layerButtonClick
    rw [hfind]
  | some layer =>
    obtain ⟨hid, _, pre, post, hsplit, hpre⟩ := layerById_some layerId s layer hfind
    subst hid
    rcases hbutton with hb | hb
    · subst hb
      cases post with
      | nil =>
        refine ⟨s.layers, ?_, List.Perm.refl _⟩
        rw [click_up_at_top s pre layer hsplit hpre]
      | cons above post =>
        refine ⟨_, click_up_of_decomp s pre post layer above hsplit hpre, ?_⟩
        rw [hsplit]
        exact List.Perm.append_left pre (List.Perm.swap _ _ _)
    · subst hb
      rcases List.eq_nil_or_concat pre with hnil | ⟨front, below, hpre2⟩
      · subst hnil
        refine ⟨s.layers, ?_, List.Perm.refl _⟩
        rw [click_down_at_bottom s post layer (by simpa using hsplit)]
      · subst hpre2
        have hsplit2 : s.layers = front ++ below :: layer :: post := by
          rw [hsplit]
          simp
        refine ⟨_, click_down_of_decomp s front post layer below hsplit2
          (fun entry hmem => hpre entry (by simp [hmem]))
          (hpre below (by simp)), ?_⟩
        rw [hsplit2]
        exact List.Perm.append_left front (List.Perm.swap _ _ _)

end ClickLemmas

section StepLemmas

variable {α : Type}

/-- A step that permutes the pairs of id and visibility, keeps counter and solo
id, and leaves the active id alone or sets it to the id of a layer, keeps the
invariants. -/
theorem perm_step (s t : State α)
    (hkeys : (t.layers.map fun layer => (layer.id, layer.visible)).Perm
      (s.layers.map fun layer => (layer.id, layer.visible)))
    (hseed : t.layerSeed = s.layerSeed) (hsolo : t.soloLayerId = s.soloLayerId)
    (hact : t.activeLayerId = s.activeLayerId ∨ ∃ layer ∈ s.layers, t.activeLayerId = some layer.id)
    (hs : LayersInvariant s) : LayersInvariant t := by
  obtain ⟨h1, h2, h3⟩ := hs
  have hids := ids_of_keys t.layers s.layers hkeys
  have hact2 : t.activeLayerId = s.activeLayerId ∨
      ∃ layer ∈ t.layers, t.activeLayerId = some layer.id := by
    rcases hact with h | ⟨old, hold, h⟩
    · exact Or.inl h
    · right
      have : old.id ∈ (s.layers.map fun layer => layer.id) := List.mem_map.mpr ⟨old, hold, rfl⟩
      have := hids.symm.subset this
      obtain ⟨layer, hl, hlid⟩ := List.mem_map.mp this
      exact ⟨layer, hl, by rw [h, hlid]⟩
  have hi := ids_invariant_congr s t hids hseed hact2 ⟨h1, h2⟩
  exact ⟨hi.1, hi.2, solo_invariant_congr s t hkeys hsolo h3⟩

/-- Under the solo invariant a solo id that is not truthy is `null`. -/
theorem solo_none_of_falsy (s : State α) (hs : SoloConsistent s)
    (hf : truthyId s.soloLayerId = false) : s.soloLayerId = none := by
  cases hsolo : s.soloLayerId with
  | none => rfl
  | some id =>
    have hne := (hs id hsolo).1
    rw [hsolo] at hf
    simp [truthyId, hne] at hf

theorem solo_vacuous (t : State α) (h : t.soloLayerId = none) : SoloConsistent t := by
  intro id hid
  rw [h] at hid
  cases hid

theorem reorder_step (button : String) (hbutton : button = "up" ∨ button = "down")
    (layerId : String) (s : State α) (hs : LayersInvariant s) :
    LayersInvariant (layerButtonClick button layerId s) := by
  obtain ⟨layers, heq, hperm⟩ := click_reorder_perm button hbutton layerId s
  rw [heq]
  exact perm_step s _ (hperm.map _) rfl rfl (Or.inl rfl) hs

theorem hide_step (layerId : String) (s : State α) (hs : LayersInvariant s) :
    LayersInvariant (layerButtonClick "hide" layerId s) := by
  cases hfind : layerById layerId s with
  | none =>
    unfold layerButtonClick
    rw [hfind]
    exact hs
  | some layer =>
    obtain ⟨hid, _, _⟩ := layerById_some layerId s layer hfind
    subst hid
    rw [click_hide_eq s layer hfind]
    obtain ⟨h1, h2, h3⟩ := hs
    have hfacts : ((if truthyId s.soloLayerId then clearSolo true s else s).layers.map
          fun entry => entry.id) = s.layers.map (fun entry => entry.id) ∧
        (if truthyId s.soloLayerId then clearSolo true s else s).layerSeed = s.layerSeed ∧
        (if truthyId s.soloLayerId then clearSolo true s else s).activeLayerId = s.activeLayerId ∧
        (if truthyId s.soloLayerId then clearSolo true s else s).soloLayerId = none := by
      by_cases ht : truthyId s.soloLayerId = true
      · rw [if_pos ht]
        refine ⟨clearSolo_ids true s, (clearSolo_solo true s).1, ?_, ?_⟩
        · obtain ⟨_, _, _, ha⟩ := clearSolo_layers true s
          exact ha
        · rcases (clearSolo_solo true s).2 with h | h
          · exact h.2
          · rw [h.1] at ht
            cases ht
      · rw [if_neg ht]
        exact ⟨rfl, rfl, rfl, solo_none_of_falsy s h3 (by simpa using ht)⟩
    obtain ⟨f1, f2, f3, f4⟩ := hfacts
    have hi := ids_invariant_congr s
      { (if truthyId s.soloLayerId then clearSolo true s else s) with
        layers := updateLayer layer.id (fun entry => { entry with visible := !entry.visible })
          (if truthyId s.soloLayerId then clearSolo true s else s).layers }
      (by
        show ((updateLayer layer.id (fun entry => { entry with visible := !entry.visible })
          (if truthyId s.soloLayerId then clearSolo true s else s).layers).map
            fun entry => entry.id).Perm _
        rw [updateLayer_ids layer.id (fun entry => { entry with visible := !entry.visible })
          (fun _ => rfl), f1])
      f2 (Or.inl f3) ⟨h1, h2⟩
    exact ⟨hi.1, hi.2, solo_vacuous _ f4⟩

theorem solo_step (layerId : String) (s : State α) (hs : LayersInvariant s) :
    LayersInvariant (layerButtonClick "solo" layerId s) := by
  cases hfind : layerById layerId s with
  | none =>
    unfold layerButtonClick
    rw [hfind]
    exact hs
  | some layer =>
    obtain ⟨hid, hmem, _⟩ := layerById_some layerId s layer hfind
    subst hid
    rw [click_solo_eq s layer hfind]
    obtain ⟨h1, h2, h3⟩ := hs
    unfold toggleSolo
    by_cases hempty : layer.id = ""
    · rw [if_pos hempty]
      exact ⟨h1, h2, h3⟩
    · rw [if_neg hempty]
      by_cases hsame : s.soloLayerId = some layer.id
      · rw [if_pos hsame]
        have ht : truthyId s.soloLayerId = true := by
          rw [hsame]
          simpa [truthyId] using hempty
        have hnone : (clearSolo true s).soloLayerId = none := by
          rcases (clearSolo_solo true s).2 with h | h
          · exact h.2
          · rw [h.1] at ht
            cases ht
        obtain ⟨_, _, _, ha⟩ := clearSolo_layers true s
        have hi := ids_invariant_congr s (clearSolo true s)
          (by rw [clearSolo_ids]) (clearSolo_solo true s).1 (Or.inl ha) ⟨h1, h2⟩
        exact ⟨hi.1, hi.2, solo_vacuous _ hnone⟩
      · rw [if_neg hsame]
        have hfacts : ((if truthyId s.soloLayerId then clearSolo true s else s).layers.map
              fun entry => entry.id) = s.layers.map (fun entry => entry.id) ∧
            (if truthyId s.soloLayerId then clearSolo true s else s).layerSeed = s.layerSeed ∧
            (if truthyId s.soloLayerId then clearSolo true s else s).activeLayerId
              = s.activeLayerId := by
          by_cases ht : truthyId s.soloLayerId = true
          · rw [if_pos ht]
            obtain ⟨_, _, _, ha⟩ := clearSolo_layers true s
            exact ⟨clearSolo_ids true s, (clearSolo_solo true s).1, ha⟩
          · rw [if_neg ht]
            exact ⟨rfl, rfl, rfl⟩
        obtain ⟨f1, f2, f3⟩ := hfacts
        have hmapids : (((if truthyId s.soloLayerId then clearSolo true s else s).layers.map
            fun entry => { entry with visible := entry.id == layer.id }).map
              fun entry => entry.id) = s.layers.map (fun entry => entry.id) := by
          rw [List.map_map, ← f1]
          rfl
        have hi := ids_invariant_congr s
          { (if truthyId s.soloLayerId then clearSolo true s else s) with
            soloPrevVisibility := some
              ((if truthyId s.soloLayerId then clearSolo true s else s).layers.map
                fun entry => (entry.id, entry.visible))
            soloLayerId := some layer.id
            layers := (if truthyId s.soloLayerId then clearSolo true s else s).layers.map
              fun entry => { entry with visible := entry.id == layer.id } }
          (by
            show (((if truthyId s.soloLayerId then clearSolo true s else s).layers.map
              fun entry => { entry with visible := entry.id == layer.id }).map
                fun entry => entry.id).Perm _
            rw [hmapids])
          f2 (Or.inl f3) ⟨h1, h2⟩
        refine ⟨hi.1, hi.2, ?_⟩
        intro id hidsolo
        have hideq : id = layer.id := by
          have : some layer.id = some id := hidsolo
          injection this with h
          exact h.symm
        subst hideq
        refine ⟨hempty, ?_, ?_⟩
        · have : layer.id ∈ (s.layers.map fun entry => entry.id) :=
            List.mem_map.mpr ⟨layer, hmem, rfl⟩
          rw [← hmapids] at this
          obtain ⟨found, hf, hfid⟩ := List.mem_map.mp this
          exact ⟨found, hf, hfid⟩
        · intro entry hentry
          obtain ⟨old, _, hold⟩ := List.mem_map.mp hentry
          rw [← hold]
          simp

end StepLemmas

section DeleteLemmas

variable {α : Type}

/-- The state after the optional `clearSolo` of the delete branch: the layers
up to visibility, and the solo id, which is cleared when the deleted layer was
the soloed one. -/
theorem delete_clear_facts (s : State α) (layer : Layer α) (hne : layer.id ≠ "") :
    ∃ g : Layer α → Layer α,
      (∀ entry, (g entry).id = entry.id) ∧
      (if s.soloLayerId = some layer.id then clearSolo true s else s).layers = s.layers.map g ∧
      (if s.soloLayerId = some layer.id then clearSolo true s else s).activeLayerId
        = s.activeLayerId ∧
      (if s.soloLayerId = some layer.id then clearSolo true s else s).layerSeed = s.layerSeed ∧
      ((s.soloLayerId = some layer.id ∧
          (if s.soloLayerId = some layer.id then clearSolo true s else s).soloLayerId = none) ∨
        (s.soloLayerId ≠ some layer.id ∧
          (if s.soloLayerId = some layer.id then clearSolo true s else s).soloLayerId
            = s.soloLayerId ∧ ∀ entry, g entry = entry)) := by
  by_cases hsolo : s.soloLayerId = some layer.id
  · rw [if_pos hsolo]
    obtain ⟨g, hg, hl, ha⟩ := clearSolo_layers true s
    have ht : truthyId s.soloLayerId = true := by
      rw [hsolo]
      simpa [truthyId] using hne
    refine ⟨g, fun entry => by rw [hg entry], hl, ha, (clearSolo_solo true s).1, Or.inl ⟨hsolo, ?_⟩⟩
    rcases (clearSolo_solo true s).2 with h | h
    · exact h.2
    · rw [h.1] at ht
      cases ht
  · rw [if_neg hsolo]
    exact ⟨id, fun _ => rfl, by simp, rfl, rfl, Or.inr ⟨hsolo, rfl, fun _ => rfl⟩⟩

theorem delete_step (layerId : String) (s : State α) (hs : LayersInvariant s) :
    LayersInvariant (layerButtonClick "delete" layerId s) := by
  cases hfind : layerById layerId s with
  | none =>
    unfold layerButtonClick
    rw [hfind]
    exact hs
  | some layer =>
    obtain ⟨hid, hmem, pre, post, hsplit, hpre⟩ := layerById_some layerId s layer hfind
    subst hid
    obtain ⟨⟨hactive, hnonempty, hnodup⟩, hissued, hsoloInv⟩ := hs
    have hne : layer.id ≠ "" := by
      obtain ⟨k, _, _, hk⟩ := hissued layer hmem
      rw [hk]
      exact layer_id_ne_empty k
    obtain ⟨g, hg, hl, ha, hseed, hsolo⟩ := delete_clear_facts s layer hne
    have hdel := click_delete_eq s pre post layer hsplit hpre
    have hlayers : (layerButtonClick "delete" layer.id s).layers
        = (s.layers.filter fun entry => entry.id != layer.id).map g := by
      rw [hdel]
      show (if s.soloLayerId = some layer.id then clearSolo true s else s).layers.filter
        (fun entry => entry.id != layer.id) = _
      rw [hl, List.filter_map]
      congr 1
      apply List.filter_congr
      intro entry _
      simp [hg entry]
    have hseed2 : (layerButtonClick "delete" layer.id s).layerSeed = s.layerSeed := by
      rw [hdel]
      exact hseed
    have hsolo2 : (layerButtonClick "delete" layer.id s).soloLayerId
        = (if s.soloLayerId = some layer.id then clearSolo true s else s).soloLayerId := by
      rw [hdel]
    have hact2 : (layerButtonClick "delete" layer.id s).activeLayerId =
        if s.activeLayerId = some layer.id then
          match (layerButtonClick "delete" layer.id s).layers.getLast? with
          | none => none
          | some top => if top.id = "" then none else some top.id
        else s.activeLayerId := by
      rw [hdel]
      simp only [ha]
    -- membership in the new sequence
    have hfrom : ∀ entry ∈ (layerButtonClick "delete" layer.id s).layers,
        ∃ old ∈ s.layers, entry = g old ∧ old.id ≠ layer.id := by
      intro entry hentry
      rw [hlayers] at hentry
      obtain ⟨old, hold, hoe⟩ := List.mem_map.mp hentry
      rw [List.mem_filter] at hold
      exact ⟨old, hold.1, hoe.symm, by simpa using hold.2⟩
    have hto : ∀ old ∈ s.layers, old.id ≠ layer.id →
        g old ∈ (layerButtonClick "delete" layer.id s).layers := by
      intro old hold hoid
      rw [hlayers]
      exact List.mem_map.mpr ⟨old, List.mem_filter.mpr ⟨hold, by simpa using hoid⟩, rfl⟩
    have hissued2 : IdsIssued (layerButtonClick "delete" layer.id s) := by
      intro entry hentry
      obtain ⟨old, hold, hoe, _⟩ := hfrom entry hentry
      obtain ⟨k, hk1, hk2, hk3⟩ := hissued old hold
      exact ⟨k, hk1, by rw [hseed2]; exact hk2, by rw [hoe, hg old]; exact hk3⟩
    have hnodup2 : ((layerButtonClick "delete" layer.id s).layers.map fun entry => entry.id).Nodup := by
      rw [hlayers, List.map_map]
      have hcomp : ((fun entry : Layer α => entry.id) ∘ g) = fun entry => entry.id := by
        funext entry
        exact hg entry
      rw [hcomp]
      exact hnodup.sublist ((List.filter_sublist _).map _)
    refine ⟨⟨?_, ?_, hnodup2⟩, hissued2, ?_⟩
    · rw [hact2]
      by_cases hact : s.activeLayerId = some layer.id
      · rw [if_pos hact]
        cases hlast : (layerButtonClick "delete" layer.id s).layers.getLast? with
        | none => exact Or.inl rfl
        | some top =>
          have htop := List.mem_of_getLast?_eq_some hlast
          obtain ⟨k, _, _, hk⟩ := hissued2 top htop
          have htne : top.id ≠ "" := by
            rw [hk]
            exact layer_id_ne_empty k
          right
          exact ⟨top, htop, by simp [htne]⟩
      · rw [if_neg hact]
        rcases hactive with h | ⟨old, hold, h⟩
        · exact Or.inl h
        · right
          have hoid : old.id ≠ layer.id := by
            intro heq
            apply hact
            rw [h, heq]
          exact ⟨g old, hto old hold hoid, by rw [h, hg old]⟩
    · intro hnotempty
      rw [hact2]
      by_cases hact : s.activeLayerId = some layer.id
      · rw [if_pos hact]
        cases hlast : (layerButtonClick "delete" layer.id s).layers.getLast? with
        | none =>
          exfalso
          exact hnotempty (List.getLast?_eq_none_iff.mp hlast)
        | some top =>
          have htop := List.mem_of_getLast?_eq_some hlast
          obtain ⟨k, _, _, hk⟩ := hissued2 top htop
          have htne : top.id ≠ "" := by
            rw [hk]
            exact layer_id_ne_empty k
          simp [htne]
      · rw [if_neg hact]
        apply hnonempty
        intro hempty
        rw [hempty] at hmem
        cases hmem
    · rcases hsolo with ⟨_, hnone⟩ | ⟨hother, hsame, hgid⟩
      · exact solo_vacuous _ (by rw [hsolo2, hnone])
      · intro id hidsolo
        rw [hsolo2, hsame] at hidsolo
        obtain ⟨hidne, ⟨found, hfound, hfid⟩, hvis⟩ := hsoloInv id hidsolo
        have hfne : found.id ≠ layer.id := by
          intro heq
          apply hother
          rw [hidsolo, ← hfid, heq]
        refine ⟨hidne, ⟨g found, hto found hfound hfne, by rw [hg found, hfid]⟩, ?_⟩
        intro entry hentry
        obtain ⟨old, hold, hoe, _⟩ := hfrom entry hentry
        rw [hoe, hgid old]
        exact hvis old hold

end DeleteLemmas

section AddLemma

variable {α : Type} [LinearOrderedField α]

theorem add_step (makeThumbDataUrl : ImageData → String) (image : ImageData) (name : String)
    (s : State α) (hs : LayersInvariant s) :
    LayersInvariant (addLayerFromImage makeThumbDataUrl image name s).2 := by
  unfold addLayerFromImage
  by_cases hcan : canAddLayer s = true
  · simp only [hcan, Bool.not_true, Bool.false_eq_true, if_false]
    obtain ⟨⟨hactive, hnonempty, hnodup⟩, hissued, hsoloInv⟩ := hs
    have hfresh : ∀ old ∈ s.layers, old.id ≠ "layer-" ++ toString (s.layerSeed + 1) := by
      intro old hold heq
      obtain ⟨k, _, hk2, hk3⟩ := hissued old hold
      rw [hk3] at heq
      have := layer_id_injective _ _ heq
      omega
    refine ⟨⟨?_, ?_, ?_⟩, ?_, ?_⟩
    · right
      exact ⟨_, List.mem_append_right _ (List.mem_singleton_self _), rfl⟩
    · intro _
      simp
    · simp only [List.map_append, List.map_cons, List.map_nil, refreshWarnings]
      rw [List.nodup_append]
      refine ⟨hnodup, List.nodup_singleton _, ?_⟩
      intro id h1 h2
      obtain ⟨old, hold, hoid⟩ := List.mem_map.mp h1
      rw [List.mem_singleton] at h2
      exact hfresh old hold (by rw [hoid, h2])
    · intro layer hl
      rcases List.mem_append.mp hl with h | h
      · obtain ⟨k, hk1, hk2, hk3⟩ := hissued layer h
        exact ⟨k, hk1, Nat.le_succ_of_le hk2, hk3⟩
      · rw [List.mem_singleton.mp h]
        exact ⟨s.layerSeed + 1, by omega, le_refl _, rfl⟩
    · intro id hidsolo
      obtain ⟨hidne, ⟨found, hfound, hfid⟩, hvis⟩ := hsoloInv id hidsolo
      refine ⟨hidne, ⟨found, List.mem_append_left _ hfound, hfid⟩, ?_⟩
      intro layer hl
      rcases List.mem_append.mp hl with h | h
      · exact hvis layer h
      · rw [List.mem_singleton.mp h]
        have ht : truthyId s.soloLayerId = true := by
          have : s.soloLayerId = some id := hidsolo
          rw [this]
          simpa [truthyId] using hidne
        simp only [refreshWarnings, ht, if_true]
        constructor
        · intro hfalse
          cases hfalse
        · intro heq
          exact absurd (hfid.trans heq.symm) (hfresh found hfound)
  · have hf : canAddLayer s = false := by simpa using hcan
    simp only [hf, Bool.not_false, if_true]
    exact hs

end AddLemma

section ListLemmas

variable {α : Type}

theorem listButton_step (button layerId : String) (s : State α) (hs : LayersInvariant s) :
    LayersInvariant (layerButtonClick button layerId s) := by
  by_cases h1 : button = "up"
  · exact reorder_step button (Or.inl h1) layerId s hs
  by_cases h2 : button = "down"
  · exact reorder_step button (Or.inr h2) layerId s hs
  by_cases h3 : button = "hide"
  · rw [h3]
    exact hide_step layerId s hs
  by_cases h4 : button = "solo"
  · rw [h4]
    exact solo_step layerId s hs
  by_cases h5 : button = "delete"
  · rw [h5]
    exact delete_step layerId s hs
  rw [click_other_eq button layerId s h1 h2 h3 h4 h5]
  exact hs

/-- Selecting a layer of the sequence keeps the invariants. -/
theorem select_step (s : State α) (layer : Layer α) (hmem : layer ∈ s.layers)
    (hs : LayersInvariant s) : LayersInvariant { s with activeLayerId := some layer.id } :=
  perm_step s _ (List.Perm.refl _) rfl rfl (Or.inr ⟨layer, hmem, rfl⟩) hs

theorem tuning_step (layerId : String) (s : State α) (hs : LayersInvariant s) :
    LayersInvariant (layerTuningToggle layerId s) := by
  cases hfind : layerById layerId s with
  | none =>
    unfold layerTuningToggle
    rw [hfind]
    exact hs
  | some layer =>
    obtain ⟨hid, hmem, _⟩ := layerById_some layerId s layer hfind
    subst hid
    unfold layerTuningToggle
    rw [hfind]
    exact perm_step s _
      (by
        show ((s.layers.map fun entry =>
          { entry with tuningOpen := if entry.id = layer.id then !layer.tuningOpen else false }).map
            fun entry => (entry.id, entry.visible)).Perm _
        rw [List.map_map]
        exact List.Perm.refl _)
      rfl rfl (Or.inr ⟨layer, hmem, rfl⟩) hs

theorem activeLayer_mem (s : State α) (layer : Layer α) (h : activeLayer s = some layer) :
    layer ∈ s.layers := by
  unfold activeLayer at h
  cases hact : s.activeLayerId with
  | none =>
    rw [hact] at h
    cases h
  | some id =>
    rw [hact] at h
    exact List.mem_of_find?_eq_some h

theorem initial_invariant : LayersInvariant (State.initial : State α) := by
  refine ⟨⟨Or.inl rfl, fun h => absurd rfl h, List.nodup_nil⟩, ?_, ?_⟩
  · intro layer hl
    cases hl
  · intro id hid
    cases hid

theorem item_step (layerId : String) (s : State α) (hs : LayersInvariant s) :
    LayersInvariant (layerItemClick layerId s) := by
  cases hfind : layerById layerId s with
  | none =>
    unfold layerItemClick
    rw [hfind]
    exact hs
  | some layer =>
    obtain ⟨hid, hmem, _⟩ := layerById_some layerId s layer hfind
    subst hid
    unfold layerItemClick
    rw [hfind]
    exact select_step s layer hmem hs

end ListLemmas

section ActionLemmas

variable {α : Type} [LinearOrderedField α]

theorem fill_keeps (cos sin : α → α) (pi : α) (s : State α) :
    ((fillSelectedLayer cos sin pi s).2.layers.map fun layer => (layer.id, layer.visible))
      = (s.layers.map fun layer => (layer.id, layer.visible)) ∧
    (fillSelectedLayer cos sin pi s).2.layerSeed = s.layerSeed ∧
    (fillSelectedLayer cos sin pi s).2.soloLayerId = s.soloLayerId ∧
    (fillSelectedLayer cos sin pi s).2.activeLayerId = s.activeLayerId := by
  unfold fillSelectedLayer
  cases activeLayer s with
  | none => exact ⟨rfl, rfl, rfl, rfl⟩
  | some layer =>
    refine ⟨?_, rfl, rfl, rfl⟩
    dsimp only
    refine updateLayer_keys _ _ ?_ _
    intro entry
    exact ⟨rfl, rfl⟩

theorem reset_keeps (makeThumbDataUrl : ImageData → String) (s : State α) :
    ((resetSelectedLayer makeThumbDataUrl s).2.layers.map fun layer => (layer.id, layer.visible))
      = (s.layers.map fun layer => (layer.id, layer.visible)) ∧
    (resetSelectedLayer makeThumbDataUrl s).2.layerSeed = s.layerSeed ∧
    (resetSelectedLayer makeThumbDataUrl s).2.soloLayerId = s.soloLayerId ∧
    (resetSelectedLayer makeThumbDataUrl s).2.activeLayerId = s.activeLayerId := by
  unfold resetSelectedLayer
  cases activeLayer s with
  | none => exact ⟨rfl, rfl, rfl, rfl⟩
  | some layer =>
    refine ⟨?_, rfl, rfl, rfl⟩
    dsimp only
    refine updateLayer_keys _ _ ?_ _
    intro entry
    exact ⟨rfl, rfl⟩

theorem toolButton_step (cos sin : α → α) (pi : α) (makeThumbDataUrl : ImageData → String)
    (button layerId : String) (s : State α) (hs : LayersInvariant s) :
    LayersInvariant (layerToolButtonClick cos sin pi makeThumbDataUrl button layerId s) := by
  cases hfind : layerById layerId s with
  | none =>
    unfold layerToolButtonClick
    rw [hfind]
    exact hs
  | some layer =>
    obtain ⟨hid, hmem, _⟩ := layerById_some layerId s layer hfind
    subst hid
    have hs0 := select_step s layer hmem hs
    have hfind0 : layerById layer.id { s with activeLayerId := some layer.id } = some layer := hfind
    unfold layerToolButtonClick
    rw [hfind]
    dsimp only
    by_cases h1 : button = "fill"
    · rw [if_pos h1]
      obtain ⟨k1, k2, k3, k4⟩ := fill_keeps cos sin pi { s with activeLayerId := some layer.id }
      exact perm_step _ _ (by rw [k1]) k2 k3 (Or.inl k4) hs0
    rw [if_neg h1]
    by_cases h2 : button = "reset"
    · rw [if_pos h2]
      obtain ⟨k1, k2, k3, k4⟩ := reset_keeps makeThumbDataUrl { s with activeLayerId := some layer.id }
      exact perm_step _ _ (by rw [k1]) k2 k3 (Or.inl k4) hs0
    rw [if_neg h2]
    by_cases h3 : button = "delete"
    · rw [if_pos h3]
      have hdel := delete_step layer.id { s with activeLayerId := some layer.id } hs0
      have heq : layerButtonClick "delete" layer.id { s with activeLayerId := some layer.id } =
          { (if s.soloLayerId = some layer.id
              then clearSolo true { s with activeLayerId := some layer.id }
              else { s with activeLayerId := some layer.id }) with
            layers := (if s.soloLayerId = some layer.id
              then clearSolo true { s with activeLayerId := some layer.id }
              else { s with activeLayerId := some layer.id }).layers.filter
                fun entry => entry.id != layer.id
            activeLayerId :=
              if (if s.soloLayerId = some layer.id
                  then clearSolo true { s with activeLayerId := some layer.id }
                  else { s with activeLayerId := some layer.id }).activeLayerId = some layer.id then
                match ((if s.soloLayerId = some layer.id
                    then clearSolo true { s with activeLayerId := some layer.id }
                    else { s with activeLayerId := some layer.id }).layers.filter
                      fun entry => entry.id != layer.id).getLast? with
                | none => none
                | some top => if top.id = "" then none else some top.id
              else (if s.soloLayerId = some layer.id
                  then clearSolo true { s with activeLayerId := some layer.id }
                  else { s with activeLayerId := some layer.id }).activeLayerId } := by
        unfold layerButtonClick
        rw [hfind0]
        have d1 : ¬ ("delete" = "up") := by decide
        have d2 : ¬ ("delete" = "down") := by decide
        have d3 : ¬ ("delete" = "hide") := by decide
        have d4 : ¬ ("delete" = "solo") := by decide
        simp only [d1, d2, d3, d4, false_and, if_false, if_true]
      rw [heq] at hdel
      exact hdel
    rw [if_neg h3]
    by_cases h4 : button = "flipx"
    · rw [if_pos h4]
      have hkeys := updateLayer_keys layer.id (fun entry : Layer α => { entry with flipX := !entry.flipX })
        (fun _ => ⟨rfl, rfl⟩) s.layers
      exact perm_step { s with activeLayerId := some layer.id }
        { s with
          activeLayerId := some layer.id
          layers := updateLayer layer.id (fun entry => { entry with flipX := !entry.flipX }) s.layers }
        (by rw [hkeys]) rfl rfl (Or.inl rfl) hs0
    rw [if_neg h4]
    by_cases h5 : button = "flipy"
    · rw [if_pos h5]
      have hkeys := updateLayer_keys layer.id (fun entry : Layer α => { entry with flipY := !entry.flipY })
        (fun _ => ⟨rfl, rfl⟩) s.layers
      exact perm_step { s with activeLayerId := some layer.id }
        { s with
          activeLayerId := some layer.id
          layers := updateLayer layer.id (fun entry => { entry with flipY := !entry.flipY }) s.layers }
        (by rw [hkeys]) rfl rfl (Or.inl rfl) hs0
    rw [if_neg h5]
    by_cases h6 : button = "shadow"
    · rw [if_pos h6]
      have hkeys := updateLayer_keys layer.id
        (fun entry : Layer α => { entry with shadowEnabled := !entry.shadowEnabled })
        (fun _ => ⟨rfl, rfl⟩) s.layers
      exact perm_step { s with activeLayerId := some layer.id }
        { s with
          activeLayerId := some layer.id
          layers := updateLayer layer.id
            (fun entry => { entry with shadowEnabled := !entry.shadowEnabled }) s.layers }
        (by rw [hkeys]) rfl rfl (Or.inl rfl) hs0
    rw [if_neg h6]
    exact hs0

theorem pickTopLayerAt_mem (px py : α) (s : State α) (layer : Layer α)
    (h : pickTopLayerAt px py s = some layer) : layer ∈ s.layers := by
  unfold pickTopLayerAt at h
  dsimp only at h
  split at h
  · next found hfound =>
    have hmem := List.mem_of_find?_eq_some hfound
    rw [List.mem_reverse] at hmem
    cases h
    exact hmem
  · exact activeLayer_mem s layer h

theorem pointerDown_step (px py : α) (s : State α) (hs : LayersInvariant s) :
    LayersInvariant (pointerDown px py s) := by
  unfold pointerDown
  split
  · exact hs
  · dsimp only
    cases hact : activeLayer s with
    | some layer =>
      exact select_step s layer (activeLayer_mem s layer hact) hs
    | none =>
      dsimp only
      cases hpick : pickTopLayerAt px py s with
      | none => exact hs
      | some layer => exact select_step s layer (pickTopLayerAt_mem px py s layer hpick) hs

theorem action_step (cos sin : α → α) (pi : α) (makeThumbDataUrl : ImageData → String)
    (action : LayerAction α) (s : State α) (hs : LayersInvariant s) :
    LayersInvariant (applyAction cos sin pi makeThumbDataUrl action s) := by
  cases action with
  | addLayer image name => exact add_step makeThumbDataUrl image name s hs
  | listButton button layerId => exact listButton_step button layerId s hs
  | toolButton button layerId =>
    exact toolButton_step cos sin pi makeThumbDataUrl button layerId s hs
  | tuningToggle layerId => exact tuning_step layerId s hs
  | itemClick layerId => exact item_step layerId s hs
  | pointerDown px py => exact pointerDown_step px py s hs
  | fillSelected =>
    obtain ⟨k1, k2, k3, k4⟩ := fill_keeps cos sin pi s
    exact perm_step s (fillSelectedLayer cos sin pi s).2 (by rw [k1]) k2 k3 (Or.inl k4) hs
  | resetSelected =>
    obtain ⟨k1, k2, k3, k4⟩ := reset_keeps makeThumbDataUrl s
    exact perm_step s (resetSelectedLayer makeThumbDataUrl s).2 (by rw [k1]) k2 k3 (Or.inl k4) hs

/-- Every state reached from the initial one satisfies the invariants. -/
theorem reachable_invariant (cos sin : α → α) (pi : α) (makeThumbDataUrl : ImageData → String)
    (actions : List (LayerAction α)) :
    LayersInvariant (applyActions cos sin pi makeThumbDataUrl actions State.initial) := by
  have hgen : ∀ (actions : List (LayerAction α)) (s : State α), LayersInvariant s →
      LayersInvariant (applyActions cos sin pi makeThumbDataUrl actions s) := by
    intro actions
    induction actions with
    | nil =>
      intro s hs
      exact hs
    | cons action rest ih =>
      intro s hs
      exact ih _ (action_step cos sin pi makeThumbDataUrl action s hs)
  exact hgen actions _ initial_invariant

/-- Claim C29: in every state reached from the initial one through
`addLayerFromImage`, the list buttons (reorder, hide, solo, delete), the tool
buttons (fill, reset, delete, flips, shadow), the tuning toggle, a click on a
list item, a pointer-down on the canvas and the calls `fillSelectedLayer` and
`resetSelectedLayer`, the active-layer id is `null` or the id of a layer of the
sequence, it is set whenever the sequence is non-empty, and the ids of the
sequence are pairwise distinct. -/
theorem active_layer_and_ids_valid (cos sin : α → α) (pi : α)
    (makeThumbDataUrl : ImageData → String) (actions : List (LayerAction α)) :
    ((applyActions cos sin pi makeThumbDataUrl actions State.initial).activeLayerId = none ∨
      ∃ layer ∈ (applyActions cos sin pi makeThumbDataUrl actions State.initial).layers,
        (applyActions cos sin pi makeThumbDataUrl actions State.initial).activeLayerId
          = some layer.id) ∧
    ((applyActions cos sin pi makeThumbDataUrl actions State.initial).layers ≠ [] →
      (applyActions cos sin pi makeThumbDataUrl actions State.initial).activeLayerId ≠ none) ∧
    ((applyActions cos sin pi makeThumbDataUrl actions State.initial).layers.map
      fun layer => layer.id).Nodup :=
  (reachable_invariant cos sin pi makeThumbDataUrl actions).1

/-- Claim C30: in every state reached from the initial one through
`addLayerFromImage`, `toggleSolo`, the hide toggle, reorder and delete (and the
other actions of the layer list), a solo id that is set is the id of a layer of
the sequence, and a layer is visible if and only if it is the soloed layer; a
layer added while solo is active is created hidden. -/
theorem solo_layer_only_visible (cos sin : α → α) (pi : α)
    (makeThumbDataUrl : ImageData → String) (actions : List (LayerAction α)) (id : String)
    (hsolo : (applyActions cos sin pi makeThumbDataUrl actions State.initial).soloLayerId
      = some id) :
    (∃ layer ∈ (applyActions cos sin pi makeThumbDataUrl actions State.initial).layers,
      layer.id = id) ∧
    (∀ layer ∈ (applyActions cos sin pi makeThumbDataUrl actions State.initial).layers,
      (layer.visible = true ↔ layer.id = id)) ∧
    (∀ (image : ImageData) (name : String),
      (applyActions cos sin pi makeThumbDataUrl actions State.initial).layers.length < 6 →
      ∃ layer : Layer α,
        (addLayerFromImage makeThumbDataUrl image name
          (applyActions cos sin pi makeThumbDataUrl actions State.initial)).2.layers
          = (applyActions cos sin pi makeThumbDataUrl actions State.initial).layers ++ [layer] ∧
        layer.visible = false) := by
  obtain ⟨_, _, hinv⟩ := reachable_invariant cos sin pi makeThumbDataUrl actions
  obtain ⟨hne, hmem, hvis⟩ := hinv id hsolo
  refine ⟨hmem, hvis, ?_⟩
  intro image name hroom
  have hcan : canAddLayer (applyActions cos sin pi makeThumbDataUrl actions State.initial)
      = true := by
    simp [canAddLayer, MAX_LAYERS, hroom]
  have ht : truthyId (applyActions cos sin pi makeThumbDataUrl actions State.initial).soloLayerId
      = true := by
    rw [hsolo]
    simpa [truthyId] using hne
  unfold addLayerFromImage
  simp only [hcan, Bool.not_true, Bool.false_eq_true, if_false, ht, if_true]
  exact ⟨_, rfl, rfl⟩

end ActionLemmas

theorem active_layer_and_ids_valid_witness :
    (applyActions (fun _ : ℚ => 0) (fun _ => 0) 0 (fun _ => "")
      [LayerAction.addLayer { width := 1, height := 1, data := [0, 0, 0, 255] } "a",
        LayerAction.addLayer { width := 1, height := 1, data := [0, 0, 0, 255] } "b",
        LayerAction.listButton "delete" "layer-2"] State.initial).layers ≠ [] ∧
    (applyActions (fun _ : ℚ => 0) (fun _ => 0) 0 (fun _ => "")
      [LayerAction.addLayer { width := 1, height := 1, data := [0, 0, 0, 255] } "a",
        LayerAction.addLayer { width := 1, height := 1, data := [0, 0, 0, 255] } "b",
        LayerAction.listButton "delete" "layer-2"] State.initial).activeLayerId ≠ none :=
  ⟨by decide,
    (active_layer_and_ids_valid (fun _ : ℚ => 0) (fun _ => 0) 0 (fun _ => "")
      [LayerAction.addLayer { width := 1, height := 1, data := [0, 0, 0, 255] } "a",
        LayerAction.addLayer { width := 1, height := 1, data := [0, 0, 0, 255] } "b",
        LayerAction.listButton "delete" "layer-2"]).2.1 (by decide)⟩

theorem solo_layer_only_visible_witness :
    (applyActions (fun _ : ℚ => 0) (fun _ => 0) 0 (fun _ => "")
      [LayerAction.addLayer { width := 1, height := 1, data := [0, 0, 0, 255] } "a",
        LayerAction.addLayer { width := 1, height := 1, data := [0, 0, 0, 255] } "b",
        LayerAction.listButton "solo" "layer-1"] State.initial).soloLayerId = some "layer-1" ∧
    ∀ layer ∈ (applyActions (fun _ : ℚ => 0) (fun _ => 0) 0 (fun _ => "")
      [LayerAction.addLayer { width := 1, height := 1, data := [0, 0, 0, 255] } "a",
        LayerAction.addLayer { width := 1, height := 1, data := [0, 0, 0, 255] } "b",
        LayerAction.listButton "solo" "layer-1"] State.initial).layers,
      (layer.visible = true ↔ layer.id = "layer-1") :=
  ⟨by decide,
    (solo_layer_only_visible (fun _ : ℚ => 0) (fun _ => 0) 0 (fun _ => "")
      [LayerAction.addLayer { width := 1, height := 1, data := [0, 0, 0, 255] } "a",
        LayerAction.addLayer { width := 1, height := 1, data := [0, 0, 0, 255] } "b",
        LayerAction.listButton "solo" "layer-1"] "layer-1" (by decide)).2.1⟩

end Layers

end Labs
